import Mathlib

/-!
# Galaxy: the object model and the scene update of `Galaxy/main.cpp`

A shallow embedding of the game objects (`class Object` and its nine
subclasses) and of `class Scene`, followed by theorems about them.

Conventions of the embedding.

* `float` and `double` are read as exact real numbers (`ℝ`); `sqrt`, `sinf`,
  `cosf`, `acos` and `M_PI` are `Real.sqrt`, `Real.sin`, `Real.cos`,
  `Real.arccos` and `Real.pi`.  Division by zero follows Lean (`x / 0 = 0`).
* `std::vector` is `List`; `operator[]` and `erase` outside the bounds are
  undefined behaviour in C++ and are reported as `Fault.outOfRange`.
* `std::vector<Object*>` holds pointers.  An element of the list is the pointee
  itself, tagged with its address (`Object.addr`), so that a pointer stored in
  another object (`SeekerObject::avatar`) can be followed.
* Every subclass redeclares `shader`, `mesh`, `position`, `scaling` and
  `orientation`, shadowing the members of `Object` that its constructor filled
  with the same values.  The base copies are never written afterwards and are
  read only by `Object::GetLocation`, which only `ExplodingObject` and
  `BlackHoleObject` inherit, and those two never move: one copy is kept.
-/

namespace Galaxy

-- Definitions are unfolded as a whole; no `sizeOf` or injectivity lemma is used below.
set_option backward.eqns.nonrecursive false
set_option genSizeOfSpec false
set_option genInjectivity false
set_option genSizeOf false

/-! ## `struct vec2` -/

/-- Two floats, `struct vec2`. -/
structure vec2 where
  x : ℝ
  y : ℝ

namespace vec2

/-- Componentwise sum, `vec2::operator+`. -/
def add (a v : vec2) : vec2 := ⟨a.x + v.x, a.y + v.y⟩

/-- Componentwise difference, `vec2::operator-`. -/
def sub (a v : vec2) : vec2 := ⟨a.x - v.x, a.y - v.y⟩

/-- Scaling by a float, `vec2::operator*(float)`. -/
def smul (a : vec2) (s : ℝ) : vec2 := ⟨a.x * s, a.y * s⟩

instance : Add vec2 := ⟨add⟩
instance : Sub vec2 := ⟨sub⟩
instance : HMul vec2 ℝ vec2 := ⟨smul⟩

/-- Euclidean norm, `vec2::length`: `sqrt(x * x + y * y)`. -/
noncomputable def length (a : vec2) : ℝ := Real.sqrt (a.x * a.x + a.y * a.y)

end vec2

/-! ## Rendering records

Only what identifies a record is kept: the class, the shader it was built
with, the texture file and, for the animated material, the frame count.  The
colour argument is `vec4(1, 0, 0)` at every construction site. -/

/-- The two shader classes objects and materials are built with. -/
inductive Shader
  | TexturedShader
  | AnimatedTexturedShader

/-- The image files `new Texture(...)` is called with. -/
inductive Texture
  | spaceship | orb | rocket | fish
  | asteroid | asteroid1 | asteroid2 | asteroid3
  | boom | blackhole | bullet | fireball

/-- The two material classes, `class Material` and its subclasses. -/
inductive Material
  | TextureMaterial (shader : Shader) (texture : Texture)
  | AnimatedTexturedMaterial (shader : Shader) (texture : Texture) (frames : Nat)

/-- The only geometry ever allocated is `TexturedQuad`. -/
inductive Geometry
  | TexturedQuad

/-- A mesh, `class Mesh`: the geometry and the material it was built from. -/
structure Mesh where
  geometry : Geometry
  material : Material

/-! ## Globals -/

/-- The global `vec2 blackHolePos = vec2(0, 0.4)`; nothing assigns it. -/
def blackHolePos : vec2 := ⟨0, 0.4⟩

/-! ## `class Object` and its subclasses -/

/-- The members of `class Object`, with the address of the allocation. -/
structure Object where
  addr : Nat
  shader : Shader
  mesh : Mesh
  position : vec2
  scaling : vec2
  orientation : ℝ

/-- Members of `class AvatarObject`.  `invMass` is a constant of the class and
`lastTime` is never used; `acceleration` has no initialiser. -/
structure AvatarObject extends Object where
  velocity : ℝ
  acceleration : ℝ
  force : ℝ
  aPressed : Bool
  dPressed : Bool
  wPressed : Bool
  sPressed : Bool

/-- Members of `class ProjectileObject`. -/
structure ProjectileObject extends Object where
  init_position : vec2
  deleted : Bool

/-- Members of `class FireballObject`. -/
structure FireballObject extends Object where
  init_position : vec2
  deleted : Bool
  norm_path : vec2

/-- Members of `class EnemyObject`, the asteroid. -/
structure EnemyObject extends Object where
  deleted : Bool
  dramatic : Bool
  enemy : Bool
  velocity : ℝ

/-- Members of `class EnemyMovingHeartObject`. -/
structure EnemyMovingHeartObject extends Object where
  deleted : Bool

/-- Members of `class EnemyMovingEggObject`. -/
structure EnemyMovingEggObject extends Object where
  deleted : Bool

/-- Members of `class SeekerObject`; `avatar` is the address held by the
pointer member `Object* avatar`. -/
structure SeekerObject extends Object where
  deleted : Bool
  avatar : Nat

/-- Members of `class ExplodingObject`. -/
structure ExplodingObject extends Object where
  deleted : Bool
  start_time : ℝ
  time_lapsed : ℝ

/-- Members of `class BlackHoleObject`: it adds none. -/
structure BlackHoleObject extends Object

/-- What an `Object*` points to: an object of one of the nine subclasses.
Virtual calls dispatch on the constructor. -/
inductive Entity
  | Avatar (o : AvatarObject)
  | Projectile (o : ProjectileObject)
  | Fireball (o : FireballObject)
  | AsteroidEnemy (o : EnemyObject)
  | HeartEnemy (o : EnemyMovingHeartObject)
  | EggEnemy (o : EnemyMovingEggObject)
  | SeekerEnemy (o : SeekerObject)
  | ExplosionEffect (o : ExplodingObject)
  | BlackHole (o : BlackHoleObject)

/-! ### Constructors (default member initialisers) -/

/-- Constructor `AvatarObject(...)`: `velocity = 0.3`, `force = 1`, the four
direction flags cleared; `acceleration` is left as it is found (`acc`). -/
def AvatarObject.new (base : Object) (acc : ℝ) : AvatarObject :=
  { base with velocity := 0.3, acceleration := acc, force := 1,
              aPressed := false, dPressed := false, wPressed := false, sPressed := false }

/-- Member `float invMass = 0.3` of `AvatarObject`; nothing assigns it. -/
def AvatarObject.invMass : ℝ := 0.3

/-- Constructor `ProjectileObject(...)`: `init_position = position`. -/
def ProjectileObject.new (base : Object) : ProjectileObject :=
  { base with init_position := base.position, deleted := false }

/-- Constructor `FireballObject(...)`. -/
def FireballObject.new (base : Object) (norm_path : vec2) : FireballObject :=
  { base with init_position := base.position, deleted := false, norm_path := norm_path }

/-- Constructor `EnemyObject(...)`: `velocity = 0.0001`. -/
def EnemyObject.new (base : Object) : EnemyObject :=
  { base with deleted := false, dramatic := false, enemy := true, velocity := 0.0001 }

/-- Constructor `ExplodingObject(...)`. -/
def ExplodingObject.new (base : Object) (start_time time_lapsed : ℝ) : ExplodingObject :=
  { base with deleted := false, start_time := start_time, time_lapsed := time_lapsed }

/-! ### `Move` -/

/-- Body of `AvatarObject::Move`; `keyboardState` is the global key table. -/
noncomputable def AvatarObject.Move (keyboardState : Char → Bool) (o : AvatarObject)
    (dt _time_lapsed : ℝ) : AvatarObject :=
  if keyboardState 'a' || keyboardState 'd' || keyboardState 'w' || keyboardState 's' then
    let force := o.force + 2 * dt
    let acceleration := force * AvatarObject.invMass
    let velocity := o.velocity + acceleration * dt
    let o := { o with force := force, acceleration := acceleration, velocity := velocity }
    let o := if keyboardState 'a' then
      { o with position := ⟨o.position.x - velocity * dt, o.position.y⟩, aPressed := true } else o
    let o := if keyboardState 'd' then
      { o with position := ⟨o.position.x + velocity * dt, o.position.y⟩, dPressed := true } else o
    let o := if keyboardState 'w' then
      { o with position := ⟨o.position.x, o.position.y + velocity * dt⟩, wPressed := true } else o
    let o := if keyboardState 's' then
      { o with position := ⟨o.position.x, o.position.y - velocity * dt⟩, sPressed := true } else o
    o
  else
    let force := o.force + 4 * dt
    let acceleration := force * AvatarObject.invMass
    let velocity := o.velocity - acceleration * dt
    let o := { o with force := force, acceleration := acceleration, velocity := velocity }
    let o := if o.aPressed then
      { o with position := ⟨o.position.x - velocity * dt, o.position.y⟩ } else o
    let o := if o.dPressed then
      { o with position := ⟨o.position.x + velocity * dt, o.position.y⟩ } else o
    let o := if o.wPressed then
      { o with position := ⟨o.position.x, o.position.y + velocity * dt⟩ } else o
    let o := if o.sPressed then
      { o with position := ⟨o.position.x, o.position.y - velocity * dt⟩ } else o
    if velocity < 0.4 then
      { o with force := 1, velocity := 0.3,
               aPressed := false, dPressed := false, wPressed := false, sPressed := false }
    else o

/-- Body of `ProjectileObject::Move`. -/
noncomputable def ProjectileObject.Move (o : ProjectileObject) (dt _time_lapsed : ℝ) : ProjectileObject :=
  let o := { o with position := ⟨o.position.x, o.position.y + dt * 2⟩ }
  if o.position.y > o.init_position.y + 1 then { o with deleted := true } else o

/-- Body of `FireballObject::Move`. -/
noncomputable def FireballObject.Move (o : FireballObject) (dt _time_lapsed : ℝ) : FireballObject :=
  let o := { o with position := o.position + o.norm_path * dt * (2 : ℝ) }
  if o.position.y > o.init_position.y + 1.5 ∨ o.position.y < o.init_position.y - 1.5 ∨
      o.position.x > o.init_position.x + 1.5 ∨ o.position.x < o.init_position.x - 1.5 then
    { o with deleted := true }
  else o

/-- Body of `EnemyObject::Move`; `blackHolePlaced` is the global flag. -/
noncomputable def EnemyObject.Move (blackHolePlaced : Bool) (o : EnemyObject)
    (dt _time_lapsed : ℝ) : EnemyObject :=
  if blackHolePlaced then
    let path := blackHolePos - o.position
    let m1 : ℝ := 40
    let m2 : ℝ := 0.5
    let r := path.length * 100
    let force := 9.81 * ((m1 * m2) / r * r)
    let acceleration := force * (1 / m2)
    let velocity := o.velocity + acceleration * dt
    let norm_path : vec2 := ⟨path.x / path.length, path.y / path.length⟩
    { o with velocity := velocity,
             position := o.position + norm_path * (velocity * (dt / 1000)) }
  else o

/-- Body of `EnemyMovingHeartObject::Move`; `pow(sinf(t), 3.0)` is the cube. -/
noncomputable def EnemyMovingHeartObject.Move (o : EnemyMovingHeartObject)
    (_dt time_lapsed : ℝ) : EnemyMovingHeartObject :=
  let t := time_lapsed / 2
  let scale : ℝ := 15.0
  { o with position :=
      ⟨(16 * Real.sin t ^ 3) / scale,
       (13 * Real.cos t - 5 * Real.cos (2 * t) - 2 * Real.cos (3 * t) - Real.cos (4 * t)) / scale⟩ }

/-- Body of `EnemyMovingEggObject::Move`. -/
noncomputable def EnemyMovingEggObject.Move (o : EnemyMovingEggObject)
    (_dt time_lapsed : ℝ) : EnemyMovingEggObject :=
  let t := time_lapsed / 2
  let k : ℝ := 2
  let new_position_x := Real.cos (k * t) * Real.cos t
  let new_position_y := Real.cos (k * t) * Real.sin t
  let direction : vec2 := ⟨new_position_x - o.position.x, new_position_y - o.position.y⟩
  let norm_direction : vec2 := ⟨direction.x / direction.length, direction.y / direction.length⟩
  let orientation :=
    if norm_direction.x < 0 then 180 + Real.arccos norm_direction.y * (180 / Real.pi)
    else if norm_direction.x > 0 then 180 - Real.arccos norm_direction.y * (180 / Real.pi)
    else o.orientation
  { o with orientation := orientation, position := ⟨new_position_x, new_position_y⟩ }

/-- Body of `SeekerObject::Move`; `avatarLocation` is what
`avatar->GetLocation()` returns. -/
noncomputable def SeekerObject.Move (avatarLocation : vec2) (o : SeekerObject)
    (dt _time_lapsed : ℝ) : SeekerObject :=
  let path := avatarLocation - o.position
  if |path.x| > 0.1 ∨ |path.y| > 0.1 then
    let norm_path : vec2 := ⟨path.x / path.length, path.y / path.length⟩
    let orientation :=
      if norm_path.x < 0 then 270 + Real.arccos norm_path.y * (180 / Real.pi)
      else if norm_path.x > 0 then 270 - Real.arccos norm_path.y * (180 / Real.pi)
      else o.orientation
    { o with orientation := orientation, position := o.position + norm_path * (dt / 5) * (2 : ℝ) }
  else o

/-! ### The other virtual methods, class by class -/

/-- Body of `ProjectileObject::ShouldBeDeleted`. -/
def ProjectileObject.ShouldBeDeleted (o : ProjectileObject) : Bool := o.deleted

/-- Body of `ProjectileObject::TargetHit`. -/
def ProjectileObject.TargetHit (o : ProjectileObject) : ProjectileObject :=
  { o with deleted := true }

/-- Body of `FireballObject::ShouldBeDeleted`. -/
def FireballObject.ShouldBeDeleted (o : FireballObject) : Bool := o.deleted

/-- Body of `FireballObject::TargetHit`. -/
def FireballObject.TargetHit (o : FireballObject) : FireballObject :=
  { o with deleted := true }

/-- Body of `EnemyObject::ShouldBeDeleted`: it may set `deleted` before
returning it, so the object comes back with the answer. -/
noncomputable def EnemyObject.ShouldBeDeleted (o : EnemyObject) : Bool × EnemyObject :=
  let o := if o.scaling.x < 0.01 ∨ o.scaling.y < 0.01 then { o with deleted := true } else o
  (o.deleted, o)

/-- Body of `EnemyObject::IsEnemy`. -/
def EnemyObject.IsEnemy (o : EnemyObject) : Bool := o.enemy

/-- Body of `EnemyObject::SetDramatic`. -/
def EnemyObject.SetDramatic (o : EnemyObject) : EnemyObject :=
  { o with dramatic := true, enemy := false }

/-- Body of `EnemyObject::DramaticExit`. -/
def EnemyObject.DramaticExit (o : EnemyObject) : EnemyObject :=
  if o.dramatic then
    { o with scaling := o.scaling - (⟨0.0001, 0.0001⟩ : vec2), orientation := o.orientation + 60 }
  else o

/-- Body of `EnemyMovingHeartObject::ShouldBeDeleted`. -/
def EnemyMovingHeartObject.ShouldBeDeleted (o : EnemyMovingHeartObject) : Bool := o.deleted

/-- Body of `EnemyMovingEggObject::ShouldBeDeleted`. -/
def EnemyMovingEggObject.ShouldBeDeleted (o : EnemyMovingEggObject) : Bool := o.deleted

/-- Body of `SeekerObject::ShouldBeDeleted`. -/
def SeekerObject.ShouldBeDeleted (o : SeekerObject) : Bool := o.deleted

/-- The C++ operator `%` on `int`: the remainder of the division that
truncates towards zero. -/
def cmod (a b : ℤ) : ℤ := Int.tmod a b

/-- Body of `ExplodingObject::DoneExploding`.  `(int)floor(x)` is `⌊x⌋`; the
conversion is exact for every value an `int` can hold. -/
noncomputable def ExplodingObject.DoneExploding (o : ExplodingObject) (time : ℝ) : Bool :=
  let start_i : ℤ := cmod ⌊o.time_lapsed * 10⌋ 36
  let i : ℤ := cmod ⌊time * 10⌋ 36
  if cmod (start_i - 1) 36 = i ∨ time - o.time_lapsed > 3.4 then true else false

/-! ### Virtual dispatch on `Object*` -/

namespace Entity

/-- The `Object` part of the pointee. -/
def toObject : Entity → Object
  | Avatar o => o.toObject
  | Projectile o => o.toObject
  | Fireball o => o.toObject
  | AsteroidEnemy o => o.toObject
  | HeartEnemy o => o.toObject
  | EggEnemy o => o.toObject
  | SeekerEnemy o => o.toObject
  | ExplosionEffect o => o.toObject
  | BlackHole o => o.toObject

/-- The address the pointer holds. -/
def addr (e : Entity) : Nat := e.toObject.addr

/-- Virtual `GetLocation`: every class returns its `position`. -/
def GetLocation (e : Entity) : vec2 := e.toObject.position

/-- Virtual `TargetHit`: overridden by the projectile and the fireball, empty
in `Object`. -/
def TargetHit : Entity → Entity
  | Projectile o => Projectile o.TargetHit
  | Fireball o => Fireball o.TargetHit
  | e => e

/-- Virtual `IsEnemy`: `EnemyObject` returns its flag, the three moving
enemies return `true`, `Object` returns `false`. -/
def IsEnemy : Entity → Bool
  | AsteroidEnemy o => o.IsEnemy
  | HeartEnemy _ => true
  | EggEnemy _ => true
  | SeekerEnemy _ => true
  | _ => false

/-- Virtual `IsBlackHole`: `true` for `BlackHoleObject` only. -/
def IsBlackHole : Entity → Bool
  | BlackHole _ => true
  | _ => false

/-- Virtual `ShouldBeDeleted`, with the object as the call leaves it. -/
noncomputable def ShouldBeDeleted : Entity → Bool × Entity
  | Projectile o => (o.ShouldBeDeleted, Projectile o)
  | Fireball o => (o.ShouldBeDeleted, Fireball o)
  | AsteroidEnemy o => (o.ShouldBeDeleted.1, AsteroidEnemy o.ShouldBeDeleted.2)
  | HeartEnemy o => (o.ShouldBeDeleted, HeartEnemy o)
  | EggEnemy o => (o.ShouldBeDeleted, EggEnemy o)
  | SeekerEnemy o => (o.ShouldBeDeleted, SeekerEnemy o)
  | e => (false, e)

/-- Virtual `DoneExploding`: overridden by `ExplodingObject` only. -/
noncomputable def DoneExploding (e : Entity) (time : ℝ) : Bool :=
  match e with
  | ExplosionEffect o => o.DoneExploding time
  | _ => false

/-- Virtual `SetDramatic`: overridden by `EnemyObject` only. -/
def SetDramatic : Entity → Entity
  | AsteroidEnemy o => AsteroidEnemy o.SetDramatic
  | e => e

/-- Virtual `DramaticExit`: overridden by `EnemyObject` only. -/
def DramaticExit : Entity → Entity
  | AsteroidEnemy o => AsteroidEnemy o.DramaticExit
  | e => e

end Entity

/-! ### `HitByProjectile` -/

/-- Body of `EnemyObject::HitByProjectile`: the target and the projectile as
the call leaves them. -/
noncomputable def EnemyObject.HitByProjectile (o : EnemyObject) (projectile : Entity) :
    EnemyObject × Entity :=
  let dist := o.position - projectile.GetLocation
  let radius : ℝ := 0.2
  if dist.length < radius then ({ o with deleted := true }, projectile.TargetHit)
  else (o, projectile)

/-- Body of `EnemyMovingHeartObject::HitByProjectile`. -/
noncomputable def EnemyMovingHeartObject.HitByProjectile (o : EnemyMovingHeartObject)
    (projectile : Entity) : EnemyMovingHeartObject × Entity :=
  let dist := o.position - projectile.GetLocation
  let radius : ℝ := 0.2
  if dist.length < radius then ({ o with deleted := true }, projectile.TargetHit)
  else (o, projectile)

/-- Body of `EnemyMovingEggObject::HitByProjectile`. -/
noncomputable def EnemyMovingEggObject.HitByProjectile (o : EnemyMovingEggObject)
    (projectile : Entity) : EnemyMovingEggObject × Entity :=
  let dist := o.position - projectile.GetLocation
  let radius : ℝ := 0.2
  if dist.length < radius then ({ o with deleted := true }, projectile.TargetHit)
  else (o, projectile)

/-- Body of `SeekerObject::HitByProjectile`. -/
noncomputable def SeekerObject.HitByProjectile (o : SeekerObject) (projectile : Entity) :
    SeekerObject × Entity :=
  let dist := o.position - projectile.GetLocation
  let radius : ℝ := 0.2
  if dist.length < radius then ({ o with deleted := true }, projectile.TargetHit)
  else (o, projectile)

/-- Virtual `HitByProjectile`: overridden by the four enemy classes, empty in
`Object`. -/
noncomputable def Entity.HitByProjectile (e projectile : Entity) : Entity × Entity :=
  match e with
  | .AsteroidEnemy o =>
    let r := o.HitByProjectile projectile
    (.AsteroidEnemy r.1, r.2)
  | .HeartEnemy o =>
    let r := o.HitByProjectile projectile
    (.HeartEnemy r.1, r.2)
  | .EggEnemy o =>
    let r := o.HitByProjectile projectile
    (.EggEnemy r.1, r.2)
  | .SeekerEnemy o =>
    let r := o.HitByProjectile projectile
    (.SeekerEnemy r.1, r.2)
  | e => (e, projectile)

/-! ### `Control`

`ProjectileObject::Control` and `FireballObject::Control` have the same body:
a loop over `objects` that skips index `me`, then a loop over every cell of
`asteroid_objects`, each calling `HitByProjectile(this)`.  The vectors are
passed by value, but they hold pointers, so the calls act on the scene's
objects.  `this` is threaded through the loops and handed back. -/

/-- The loop `for (i ...) if (i != me) objects[i]->HitByProjectile(this)`,
from index `i` on; the entry at `me` is left as it stands. -/
noncomputable def Control.objectsLoop (me : Nat) : Nat → List Entity → Entity → List Entity × Entity
  | _, [], this => ([], this)
  | i, o :: rest, this =>
    if i ≠ me then
      let r := o.HitByProjectile this
      let t := Control.objectsLoop me (i + 1) rest r.2
      (r.1 :: t.1, t.2)
    else
      let t := Control.objectsLoop me (i + 1) rest this
      (o :: t.1, t.2)

/-- The inner loop over one row of `asteroid_objects`. -/
noncomputable def Control.rowLoop : List Entity → Entity → List Entity × Entity
  | [], this => ([], this)
  | o :: rest, this =>
    let r := o.HitByProjectile this
    let t := Control.rowLoop rest r.2
    (r.1 :: t.1, t.2)

/-- The outer loop over the rows of `asteroid_objects`. -/
noncomputable def Control.gridLoop : List (List Entity) → Entity → List (List Entity) × Entity
  | [], this => ([], this)
  | row :: rows, this =>
    let r := Control.rowLoop row this
    let t := Control.gridLoop rows r.2
    (r.1 :: t.1, t.2)

/-- Body of `ProjectileObject::Control`: `this`, `objects` and
`asteroid_objects` after the two loops. -/
noncomputable def ProjectileObject.Control (this : Entity) (objects : List Entity) (me : Nat)
    (asteroid_objects : List (List Entity)) : Entity × List Entity × List (List Entity) :=
  let r := Control.objectsLoop me 0 objects this
  let g := Control.gridLoop asteroid_objects r.2
  (g.2, r.1, g.1)

/-- Body of `FireballObject::Control`. -/
noncomputable def FireballObject.Control (this : Entity) (objects : List Entity) (me : Nat)
    (asteroid_objects : List (List Entity)) : Entity × List Entity × List (List Entity) :=
  let r := Control.objectsLoop me 0 objects this
  let g := Control.gridLoop asteroid_objects r.2
  (g.2, r.1, g.1)

/-- Virtual `Control`: overridden by the projectile and the fireball, empty in
`Object`. -/
noncomputable def Entity.Control (this : Entity) (objects : List Entity) (me : Nat)
    (asteroid_objects : List (List Entity)) : Entity × List Entity × List (List Entity) :=
  match this with
  | .Projectile _ => ProjectileObject.Control this objects me asteroid_objects
  | .Fireball _ => FireballObject.Control this objects me asteroid_objects
  | _ => (this, objects, asteroid_objects)

/-! ## Faults and vectors -/

/-- Ways a run leaves the defined behaviour of C++, and `outOfFuel`, which
only a loop given too little fuel returns. -/
inductive Fault
  | outOfRange
  | wildPointer
  | outOfFuel

/-- The read `v[i]` of a `std::vector`. -/
def vecGet {α : Type} (v : List α) (i : Nat) : Except Fault α :=
  match v[i]? with
  | some a => .ok a
  | none => .error .outOfRange

/-- The call `v.erase(v.begin() + i)` of a `std::vector`. -/
def vecErase {α : Type} (v : List α) (i : Nat) : Except Fault (List α) :=
  if i < v.length then .ok (v.eraseIdx i) else .error .outOfRange

/-- Virtual `Move`.  `deref` follows a pointer to an object; a seeker whose
`avatar` points to no object known to the scene is a `wildPointer`. -/
noncomputable def Entity.Move (keyboardState : Char → Bool) (blackHolePlaced : Bool)
    (deref : Nat → Option Entity) (e : Entity) (dt time_lapsed : ℝ) : Except Fault Entity :=
  match e with
  | .Avatar o => .ok (.Avatar (o.Move keyboardState dt time_lapsed))
  | .Projectile o => .ok (.Projectile (o.Move dt time_lapsed))
  | .Fireball o => .ok (.Fireball (o.Move dt time_lapsed))
  | .AsteroidEnemy o => .ok (.AsteroidEnemy (o.Move blackHolePlaced dt time_lapsed))
  | .HeartEnemy o => .ok (.HeartEnemy (o.Move dt time_lapsed))
  | .EggEnemy o => .ok (.EggEnemy (o.Move dt time_lapsed))
  | .SeekerEnemy o =>
    match deref o.avatar with
    | some a => .ok (.SeekerEnemy (o.Move a.GetLocation dt time_lapsed))
    | none => .error .wildPointer
  | e => .ok e

/-! ## `class Scene` -/

/-- A call the loop over `objects` in `Scene::Move` makes, with the address of
the object it is made on. -/
inductive Call
  | Move (addr : Nat)
  | Control (addr : Nat)

/-- The members of `class Scene` and the global `blackHolePlaced`, which only
the scene writes.  Three fields are not in the source: `leaked` lists the
objects whose pointer was erased from a vector (`erase` removes the pointer,
nothing frees the pointee, so a pointer to it stays valid), `nextAddr` is the
address `new` hands out next, and `calls` records the calls of the running
`Move` pass. -/
structure Scene where
  materials : List Material
  geometries : List Geometry
  meshes : List Mesh
  objects : List Entity
  asteroid_materials : List Material
  asteroid_geometries : List Geometry
  asteroid_meshes : List Mesh
  asteroid_objects : List (List Entity)
  blackHolePlaced : Bool
  leaked : List Entity
  nextAddr : Nat
  calls : List Call

namespace Scene

/-- Following an `Object*`: the object of that address, among those the scene
holds or has held. -/
def deref (s : Scene) (a : Nat) : Option Entity :=
  (s.objects ++ s.asteroid_objects.flatten ++ s.leaked).find? (fun o => o.addr == a)

/-- The four `erase` calls at one index, in the order of the source:
`materials`, `geometries`, `meshes`, `objects`. -/
def eraseAt (s : Scene) (i : Nat) : Except Fault Scene := do
  let materials ← vecErase s.materials i
  let geometries ← vecErase s.geometries i
  let meshes ← vecErase s.meshes i
  let objects ← vecErase s.objects i
  pure { s with materials := materials, geometries := geometries, meshes := meshes,
                objects := objects, leaked := s.leaked ++ (s.objects[i]?).toList }

/-- Body of `Scene::Explode`. -/
def Explode (s : Scene) (position : vec2) (time time_lapsed : ℝ) : Except Fault Scene := do
  let materials := s.materials ++
    [Material.AnimatedTexturedMaterial Shader.AnimatedTexturedShader Texture.boom 6]
  let geometries := s.geometries ++ [Geometry.TexturedQuad]
  let g ← vecGet geometries s.objects.length
  let m ← vecGet materials s.objects.length
  let meshes := s.meshes ++ [Mesh.mk g m]
  let mesh ← vecGet meshes s.objects.length
  let o := ExplodingObject.new
    { addr := s.nextAddr, shader := Shader.AnimatedTexturedShader, mesh := mesh,
      position := position, scaling := ⟨0.4, 0.4⟩, orientation := 0 } time time_lapsed
  pure { s with materials := materials, geometries := geometries, meshes := meshes,
                objects := s.objects ++ [Entity.ExplosionEffect o],
                nextAddr := s.nextAddr + 1 }

/-- Lines 1443 and 1444 of `Scene::Move`: `objects[i]->Move(...)`, then
`objects[i]->Control(objects, i, asteroid_objects)`. -/
noncomputable def MoveControl (keyboardState : Char → Bool) (time time_lapsed : ℝ) (i : Nat)
    (s : Scene) : Except Fault Scene := do
  let o ← vecGet s.objects i
  let o ← o.Move keyboardState s.blackHolePlaced s.deref time time_lapsed
  let s := { s with objects := s.objects.set i o, calls := s.calls ++ [Call.Move o.addr] }
  let o ← vecGet s.objects i
  let r := o.Control s.objects i s.asteroid_objects
  pure { s with objects := r.2.1.set i r.1, asteroid_objects := r.2.2,
                calls := s.calls ++ [Call.Control o.addr] }

/-- The statement
`if(o->IsEnemy()) {Explode(o->GetLocation(), time, time_lapsed);}`, which both
loops of `Scene::Move` run on the object they are about to erase. -/
def ExplodeIfEnemy (s : Scene) (o : Entity) (time time_lapsed : ℝ) : Except Fault Scene :=
  if o.IsEnemy then s.Explode o.GetLocation time time_lapsed else pure s

/-- Lines 1445 to 1451 of `Scene::Move`: the `if(objects[i]->ShouldBeDeleted())`
block. -/
noncomputable def RemoveDeleted (time time_lapsed : ℝ) (i : Nat) (s : Scene) :
    Except Fault Scene := do
  let o ← vecGet s.objects i
  let d := o.ShouldBeDeleted
  let s := { s with objects := s.objects.set i d.2 }
  if d.1 then
    let o ← vecGet s.objects i
    let s ← s.ExplodeIfEnemy o time time_lapsed
    s.eraseAt i
  else pure s

/-- Lines 1452 to 1457 of `Scene::Move`: the
`if(objects[i]->DoneExploding(time_lapsed))` block. -/
noncomputable def RemoveExploded (time_lapsed : ℝ) (i : Nat) (s : Scene) : Except Fault Scene := do
  let o ← vecGet s.objects i
  if o.DoneExploding time_lapsed then s.eraseAt i else pure s

/-- One iteration of the loop over `objects` in `Scene::Move`. -/
noncomputable def MoveBody (keyboardState : Char → Bool) (time time_lapsed : ℝ) (i : Nat)
    (s : Scene) : Except Fault Scene := do
  let s ← s.MoveControl keyboardState time time_lapsed i
  let s ← s.RemoveDeleted time time_lapsed i
  s.RemoveExploded time_lapsed i

/-- The loop `for(int i = 0; i < objects.size(); i++)` of `Scene::Move`, from
index `i` on, for at most `fuel` iterations. -/
noncomputable def MoveObjects (keyboardState : Char → Bool) (time time_lapsed : ℝ) :
    Nat → Nat → Scene → Except Fault Scene
  | 0, i, s => if i < s.objects.length then .error .outOfFuel else .ok s
  | fuel + 1, i, s =>
    if i < s.objects.length then do
      let s ← s.MoveBody keyboardState time time_lapsed i
      MoveObjects keyboardState time time_lapsed fuel (i + 1) s
    else .ok s

/-- One iteration of the inner loop over the asteroid grid in `Scene::Move`
(lines 1461 to 1466), at cell `j` of row `i`. -/
noncomputable def MoveCell (keyboardState : Char → Bool) (time time_lapsed : ℝ) (i j : Nat)
    (s : Scene) : Except Fault Scene := do
  let row ← vecGet s.asteroid_objects i
  let c ← vecGet row j
  let c ← c.Move keyboardState s.blackHolePlaced s.deref time time_lapsed
  let c := c.DramaticExit
  let d := c.ShouldBeDeleted
  let s := { s with asteroid_objects := s.asteroid_objects.set i (row.set j d.2) }
  if d.1 then
    let s ← s.ExplodeIfEnemy d.2 time time_lapsed
    let row ← vecGet s.asteroid_objects i
    let erased ← vecErase row j
    pure { s with asteroid_objects := s.asteroid_objects.set i erased,
                  leaked := s.leaked ++ [d.2] }
  else pure s

/-- The loop `for(int j = 0; j < asteroid_objects[i].size(); j++)`, from
`j` on, for at most `fuel` iterations. -/
noncomputable def MoveRow (keyboardState : Char → Bool) (time time_lapsed : ℝ) (i : Nat) :
    Nat → Nat → Scene → Except Fault Scene
  | 0, j, s => if j < (s.asteroid_objects.getD i []).length then .error .outOfFuel else .ok s
  | fuel + 1, j, s =>
    if j < (s.asteroid_objects.getD i []).length then do
      let s ← s.MoveCell keyboardState time time_lapsed i j
      MoveRow keyboardState time time_lapsed i fuel (j + 1) s
    else .ok s

/-- The loop `for(int i = 0; i < asteroid_objects.size(); i++)`, from `i` on,
for at most `fuel` iterations. -/
noncomputable def MoveGrid (keyboardState : Char → Bool) (time time_lapsed : ℝ) :
    Nat → Nat → Scene → Except Fault Scene
  | 0, i, s => if i < s.asteroid_objects.length then .error .outOfFuel else .ok s
  | fuel + 1, i, s =>
    if i < s.asteroid_objects.length then do
      let s ← MoveRow keyboardState time time_lapsed i (s.asteroid_objects.getD i []).length 0 s
      MoveGrid keyboardState time time_lapsed fuel (i + 1) s
    else .ok s

/-- Body of `Scene::Move(time, time_lapsed)`.  Each loop gets as much fuel as the
vector it runs over has entries when the loop starts; `calls` starts empty. -/
noncomputable def Move (keyboardState : Char → Bool) (s : Scene) (time time_lapsed : ℝ) :
    Except Fault Scene := do
  let s := { s with calls := [] }
  let s ← MoveObjects keyboardState time time_lapsed s.objects.length 0 s
  MoveGrid keyboardState time time_lapsed s.asteroid_objects.length 0 s

/-- Body of `Scene::placeBlackHole`. -/
def placeBlackHole (s : Scene) : Except Fault Scene := do
  let length := s.objects.length
  let materials := s.materials ++
    [Material.TextureMaterial Shader.TexturedShader Texture.blackhole]
  let geometries := s.geometries ++ [Geometry.TexturedQuad]
  let g ← vecGet geometries length
  let m ← vecGet materials length
  let meshes := s.meshes ++ [Mesh.mk g m]
  let mesh ← vecGet meshes length
  let o : BlackHoleObject :=
    { addr := s.nextAddr, shader := Shader.TexturedShader, mesh := mesh,
      position := blackHolePos, scaling := ⟨0.5, 0.5⟩, orientation := 0 }
  pure { s with materials := materials, geometries := geometries, meshes := meshes,
                objects := s.objects ++ [Entity.BlackHole o],
                nextAddr := s.nextAddr + 1, blackHolePlaced := true }

/-- One iteration of the loop of `Scene::removeBlackHole`. -/
def removeBlackHoleBody (i : Nat) (s : Scene) : Except Fault Scene := do
  let o ← vecGet s.objects i
  if o.IsBlackHole then
    let s ← s.eraseAt i
    pure { s with blackHolePlaced := false }
  else pure s

/-- The loop of `Scene::removeBlackHole`, from index `i` on, for at most
`fuel` iterations. -/
def removeBlackHoleLoop : Nat → Nat → Scene → Except Fault Scene
  | 0, i, s => if i < s.objects.length then .error .outOfFuel else .ok s
  | fuel + 1, i, s =>
    if i < s.objects.length then do
      let s ← s.removeBlackHoleBody i
      removeBlackHoleLoop fuel (i + 1) s
    else .ok s

/-- Body of `Scene::removeBlackHole`. -/
def removeBlackHole (s : Scene) : Except Fault Scene :=
  removeBlackHoleLoop s.objects.length 0 s

/-- The four primary vectors have the same number of entries. -/
def Lockstep (s : Scene) : Prop :=
  s.materials.length = s.objects.length ∧ s.geometries.length = s.objects.length ∧
    s.meshes.length = s.objects.length

end Scene

/-! ## Notions the statements use -/

/-- Euclidean distance between two points. -/
noncomputable def distance (a b : vec2) : ℝ :=
  Real.sqrt ((a.x - b.x) ^ 2 + (a.y - b.y) ^ 2)

/-- The `deleted` member, for the classes that declare one. -/
def Entity.deleted : Entity → Bool
  | Entity.Projectile o => o.deleted
  | Entity.Fireball o => o.deleted
  | Entity.AsteroidEnemy o => o.deleted
  | Entity.HeartEnemy o => o.deleted
  | Entity.EggEnemy o => o.deleted
  | Entity.SeekerEnemy o => o.deleted
  | Entity.ExplosionEffect o => o.deleted
  | _ => false

/-- No key is held. -/
def noKeys : Char → Bool := fun _ => false

/-- A mesh of a textured quad with a `TextureMaterial` of the given texture. -/
def quadMesh (t : Texture) : Mesh :=
  ⟨Geometry.TexturedQuad, Material.TextureMaterial Shader.TexturedShader t⟩

/-- An explosion as `Explode(position, time, s)` builds it, for elapsed time
`s`: `time_lapsed = s`. -/
def explosionAt (s : ℝ) : ExplodingObject :=
  ExplodingObject.new
    { addr := 0, shader := Shader.AnimatedTexturedShader,
      mesh := ⟨Geometry.TexturedQuad,
        Material.AnimatedTexturedMaterial Shader.AnimatedTexturedShader Texture.boom 6⟩,
      position := ⟨0, 0⟩, scaling := ⟨0.4, 0.4⟩, orientation := 0 } 0 s

/-- The `Object` part of the avatar `Scene::Initialize` builds. -/
def theAvatarBase : Object :=
  { addr := 0, shader := Shader.TexturedShader, mesh := quadMesh Texture.spaceship,
    position := ⟨0, -0.75⟩, scaling := ⟨0.8, 0.8⟩, orientation := 180 }

/-- The avatar as `Scene::Initialize` builds it, at rest at `(0, -0.75)`. -/
def theAvatar : Entity := Entity.Avatar (AvatarObject.new theAvatarBase 0)

/-- The avatar of `theAvatar` after a `Move` of `dt = 1/60` with no key held:
only `acceleration` has changed. -/
noncomputable def theAvatarMoved : Entity :=
  Entity.Avatar (AvatarObject.new theAvatarBase ((1 + 4 * (1 / 60)) * AvatarObject.invMass))

/-- A projectile as `shootProjectile` builds it, at address `a`, spawned at
`(x, y0)` and now at `(x, y)`. -/
def projectileAt (a : Nat) (x y0 y : ℝ) (deleted : Bool) : Entity :=
  Entity.Projectile
    { addr := a, shader := Shader.TexturedShader, mesh := quadMesh Texture.bullet,
      position := ⟨x, y⟩, scaling := ⟨0.4, 0.4⟩, orientation := 0,
      init_position := ⟨x, y0⟩, deleted := deleted }

/-- A fireball as `shootFireball` builds it, at address `a`, spawned at
`p0` and now at `p`, flying along `n`. -/
def fireballAt (a : Nat) (p0 p n : vec2) (orientation : ℝ) (deleted : Bool) : Entity :=
  Entity.Fireball
    { addr := a, shader := Shader.TexturedShader, mesh := quadMesh Texture.fireball,
      position := p, scaling := ⟨0.4, 0.4⟩, orientation := orientation,
      init_position := p0, deleted := deleted, norm_path := n }

/-- A seeker as `Scene::Initialize` builds it (its `avatar` pointer holds the
avatar's address 0), at address `a` and position `p`. -/
def seekerAt (a : Nat) (p : vec2) (deleted : Bool) : Entity :=
  Entity.SeekerEnemy
    { addr := a, shader := Shader.TexturedShader, mesh := quadMesh Texture.fish,
      position := p, scaling := ⟨0.2, 0.2⟩, orientation := 270,
      deleted := deleted, avatar := 0 }

/-- An asteroid on which `SetDramatic` has been called and which
`DramaticExit` has shrunk to the scale `(c, c)`. -/
def dramaticAsteroidAt (a : Nat) (p : vec2) (c orientation : ℝ) (deleted : Bool) : Entity :=
  Entity.AsteroidEnemy
    { addr := a, shader := Shader.TexturedShader, mesh := quadMesh Texture.asteroid,
      position := p, scaling := ⟨c, c⟩, orientation := orientation,
      deleted := deleted, dramatic := true, enemy := false, velocity := 0.0001 }

/-- A scene whose primary vectors hold the given objects and, in lockstep,
the material, the geometry and the mesh each object was built with; the
asteroid vectors are filled from the grid in the same way. -/
def Scene.ofObjects (objects : List Entity) (grid : List (List Entity)) (blackHole : Bool)
    (nextAddr : Nat) : Scene :=
  { materials := objects.map (fun o => o.toObject.mesh.material),
    geometries := objects.map (fun o => o.toObject.mesh.geometry),
    meshes := objects.map (fun o => o.toObject.mesh),
    objects := objects,
    asteroid_materials := grid.flatten.map (fun o => o.toObject.mesh.material),
    asteroid_geometries := grid.flatten.map (fun o => o.toObject.mesh.geometry),
    asteroid_meshes := grid.flatten.map (fun o => o.toObject.mesh),
    asteroid_objects := grid,
    blackHolePlaced := blackHole, leaked := [], nextAddr := nextAddr, calls := [] }

/-- A pass input: the avatar at rest, a projectile that has flown 0.99 units,
and a fireball just fired straight up. -/
def Scene.spentProjectile : Scene :=
  Scene.ofObjects
    [theAvatar, projectileAt 4 0 (-0.65) 0.34 false,
      fireballAt 5 ⟨0, -0.65⟩ ⟨0, -0.65⟩ ⟨0, 1⟩ 60 false]
    [] false 6

/-- The primary vectors as the pass over `Scene.seekerBelowShot` leaves them:
the avatar, the seeker with `deleted` set, and the projectile. -/
noncomputable def Scene.hitSeeker : Scene :=
  Scene.ofObjects
    [theAvatarMoved, seekerAt 3 ⟨0.05, -0.7⟩ true, projectileAt 5 0 (-0.65) (-0.65) false]
    [] false 6

/-- The avatar at rest and a grid of one asteroid in its dramatic exit, shrunk
to the scale `(0.01, 0.01)`; its material, geometry and mesh are the one
entry of the three asteroid record vectors. -/
def Scene.shrunkAsteroid : Scene :=
  Scene.ofObjects [theAvatar] [[dramaticAsteroidAt 4 ⟨-0.75, -0.4⟩ 0.01 114120 false]] false 5

/-- A run of `AvatarObject::Move` calls, one for each `(keyboardState, dt,
time_lapsed)` of the list, first to last. -/
noncomputable def AvatarObject.Moves (steps : List ((Char → Bool) × ℝ × ℝ)) (o : AvatarObject) :
    AvatarObject :=
  steps.foldl (fun o st => o.Move st.1 st.2.1 st.2.2) o

/-- One of the four direction keys `a`, `d`, `w`, `s` is held. -/
def directionKeyHeld (keyboardState : Char → Bool) : Bool :=
  keyboardState 'a' || keyboardState 'd' || keyboardState 'w' || keyboardState 's'

/-- Only the key `a` is held. -/
def onlyKeyA : Char → Bool := fun c => c == 'a'

/-- A call of one of the methods of `EnemyObject` that write its members. -/
inductive AsteroidCall
  | Move (blackHolePlaced : Bool) (dt time_lapsed : ℝ)
  | HitByProjectile (projectile : Entity)
  | ShouldBeDeleted
  | SetDramatic
  | DramaticExit

/-- The asteroid as the call leaves it. -/
noncomputable def AsteroidCall.apply : AsteroidCall → EnemyObject → EnemyObject
  | AsteroidCall.Move b dt time_lapsed, o => o.Move b dt time_lapsed
  | AsteroidCall.HitByProjectile p, o => (o.HitByProjectile p).1
  | AsteroidCall.ShouldBeDeleted, o => o.ShouldBeDeleted.2
  | AsteroidCall.SetDramatic, o => o.SetDramatic
  | AsteroidCall.DramaticExit, o => o.DramaticExit

/-- A run of calls on one asteroid, first to last. -/
noncomputable def EnemyObject.calls (cs : List AsteroidCall) (o : EnemyObject) : EnemyObject :=
  cs.foldl (fun o c => c.apply o) o

/-- The call is `DramaticExit`. -/
def AsteroidCall.isDramaticExit : AsteroidCall → Bool
  | AsteroidCall.DramaticExit => true
  | _ => false

/-- Some `DramaticExit` of the run comes after a `SetDramatic`. -/
def exitAfterSet : List AsteroidCall → Bool
  | [] => false
  | AsteroidCall.SetDramatic :: cs => cs.any AsteroidCall.isDramaticExit || exitAfterSet cs
  | _ :: cs => exitAfterSet cs

/-- No `HitByProjectile` call of the run, made on the asteroid as the calls
before it left it, finds the projectile at distance below 0.2. -/
def neverHit : List AsteroidCall → EnemyObject → Prop
  | [], _ => True
  | AsteroidCall.HitByProjectile p :: cs, o =>
    ¬ distance o.position p.GetLocation < 0.2 ∧
      neverHit cs ((AsteroidCall.HitByProjectile p).apply o)
  | c :: cs, o => neverHit cs (c.apply o)

/-- The seeker of `seekerAt`, as a `SeekerObject`. -/
def seekerObjectAt (a : Nat) (p : vec2) (deleted : Bool) : SeekerObject :=
  { addr := a, shader := Shader.TexturedShader, mesh := quadMesh Texture.fish,
    position := p, scaling := ⟨0.2, 0.2⟩, orientation := 270,
    deleted := deleted, avatar := 0 }

/-- The asteroid `Scene::Initialize` puts in cell `j` of row `i` of the grid
(lines 1395 to 1398), with the texture and the angle drawn for it; its address
stands for the allocation. -/
def Scene.InitializeCell (i j : Nat) (t : Texture) (angle : ℝ) : EnemyObject :=
  EnemyObject.new
    { addr := 4 + 6 * i + j, shader := Shader.TexturedShader, mesh := quadMesh t,
      position := ⟨-0.75 + (j * 0.3), -0.4 + (i * 0.3)⟩, scaling := ⟨0.2, 0.2⟩,
      orientation := angle }

/-- The asteroid after `n` consecutive `Move` calls with the black hole
placed and the frame step `dt`; `Move` does not read its elapsed-time
argument, which is given as 0. -/
noncomputable def EnemyObject.Moves (dt : ℝ) : Nat → EnemyObject → EnemyObject
  | 0, o => o
  | n + 1, o => (EnemyObject.Moves dt n o).Move true dt 0

/-- The way an asteroid of initial velocity `v0` has gone after `n` calls of
`Move` with frame step `dt`: the sum over `k = 1 .. n` of
`(v0 + 392.4 * dt * k) * (dt / 1000)`. -/
noncomputable def fallen (v0 dt : ℝ) (n : Nat) : ℝ :=
  (dt / 1000) * (n * v0 + 392.4 * dt * (n * (n + 1) / 2))

/-- Body of `shootProjectile()`, on the scene `gScene` points to; the global
`lastProjectileTime` is passed in and handed back.  `GetObjects()`,
`GetMaterials()`, `GetGeometries()` and `GetMeshes()` return copies of the
vectors as they stand at the call. -/
noncomputable def Scene.shootProjectile (s : Scene) (lastProjectileTime : ℝ) :
    Except Fault (Scene × ℝ) :=
  if lastProjectileTime ≥ 0 then do
    let objects := s.objects
    let length := objects.length
    let s := { s with materials := s.materials ++
      [Material.TextureMaterial Shader.TexturedShader Texture.bullet] }
    let s := { s with geometries := s.geometries ++ [Geometry.TexturedQuad] }
    let materials := s.materials
    let geometries := s.geometries
    let g ← vecGet geometries length
    let m ← vecGet materials length
    let s := { s with meshes := s.meshes ++ [Mesh.mk g m] }
    let meshes := s.meshes
    let avatar ← vecGet objects 0
    let projectile_location := avatar.GetLocation + (⟨0, 0.1⟩ : vec2)
    let mesh ← vecGet meshes length
    let o := ProjectileObject.new
      { addr := s.nextAddr, shader := Shader.TexturedShader, mesh := mesh,
        position := projectile_location, scaling := ⟨0.4, 0.4⟩, orientation := 0 }
    pure ({ s with objects := s.objects ++ [Entity.Projectile o],
                   nextAddr := s.nextAddr + 1 }, -1)
  else pure (s, lastProjectileTime)

/-- Body of `shootFireball(x, y)`, on the scene `gScene` points to. -/
noncomputable def Scene.shootFireball (s : Scene) (x y : ℝ) : Except Fault Scene := do
  let objects := s.objects
  let length := objects.length
  let s := { s with materials := s.materials ++
    [Material.TextureMaterial Shader.TexturedShader Texture.fireball] }
  let s := { s with geometries := s.geometries ++ [Geometry.TexturedQuad] }
  let materials := s.materials
  let geometries := s.geometries
  let g ← vecGet geometries length
  let m ← vecGet materials length
  let s := { s with meshes := s.meshes ++ [Mesh.mk g m] }
  let meshes := s.meshes
  let avatar ← vecGet objects 0
  let path := (⟨x, y⟩ : vec2) - avatar.GetLocation
  let norm_path : vec2 := ⟨path.x / path.length, path.y / path.length⟩
  let projectile_location := avatar.GetLocation + norm_path * (0.1 : ℝ)
  let rotate_angle : ℝ :=
    if x < 0 then Real.arccos norm_path.y * (180 / Real.pi)
    else if x > 0 then -Real.arccos norm_path.y * (180 / Real.pi)
    else 0
  let mesh ← vecGet meshes length
  let o := FireballObject.new
    { addr := s.nextAddr, shader := Shader.TexturedShader, mesh := mesh,
      position := projectile_location, scaling := ⟨0.4, 0.4⟩,
      orientation := 60 + rotate_angle } norm_path
  pure { s with objects := s.objects ++ [Entity.Fireball o], nextAddr := s.nextAddr + 1 }

/-- One operation that writes the vector `objects` after `Scene::Initialize`
and returns: a `Scene::Move` pass, `Explode`, `placeBlackHole`,
`removeBlackHole`, or one of the spawn triggers `shootProjectile` and
`shootFireball`, with any arguments and any value of the globals it reads. -/
inductive Scene.Step : Scene → Scene → Prop
  | Move (keyboardState : Char → Bool) (time time_lapsed : ℝ) {s s' : Scene} :
    s.Move keyboardState time time_lapsed = .ok s' → Scene.Step s s'
  | Explode (position : vec2) (time time_lapsed : ℝ) {s s' : Scene} :
    s.Explode position time time_lapsed = .ok s' → Scene.Step s s'
  | placeBlackHole {s s' : Scene} : s.placeBlackHole = .ok s' → Scene.Step s s'
  | removeBlackHole {s s' : Scene} : s.removeBlackHole = .ok s' → Scene.Step s s'
  | shootProjectile (lastProjectileTime t : ℝ) {s s' : Scene} :
    s.shootProjectile lastProjectileTime = .ok (s', t) → Scene.Step s s'
  | shootFireball (x y : ℝ) {s s' : Scene} : s.shootFireball x y = .ok s' → Scene.Step s s'

/-- Index 0 of `objects` holds the avatar allocated at address `a`. -/
def Scene.AvatarFirst (a : Nat) (s : Scene) : Prop :=
  ∃ o : AvatarObject, s.objects[0]? = some (Entity.Avatar o) ∧ o.addr = a

/-- The projectile after `n` consecutive `Move` calls of frame step `dt`;
`Move` does not read its elapsed-time argument, which is given as 0. -/
noncomputable def ProjectileObject.Moves (dt : ℝ) (n : Nat) (o : ProjectileObject) :
    ProjectileObject :=
  Nat.iterate (fun q => q.Move dt 0) n o

/-- A pass input: the avatar at rest and, last in `objects`, a projectile that
has flown 0.99 units. -/
def Scene.lastProjectile : Scene :=
  Scene.ofObjects [theAvatar, projectileAt 4 0 (-0.65) 0.34 false] [] false 5

/-- The avatar at rest and a grid of one row of two asteroids in their
dramatic exit: the first shrunk to the scale `(0.01, 0.01)`, the second to
`(0.15, 0.15)`. -/
def Scene.twoDramatic : Scene :=
  Scene.ofObjects [theAvatar]
    [[dramaticAsteroidAt 4 ⟨-0.75, -0.4⟩ 0.01 114120 false,
      dramaticAsteroidAt 5 ⟨-0.45, -0.4⟩ 0.15 30000 false]] false 6

/-- A pass input: the avatar at rest, a projectile three ticks of 1/60 after
its spawn, a fireball just fired straight up, and a grid of one asteroid in
its dramatic exit at `(0.15, -0.4)`, which the projectile reaches in this
pass. -/
def Scene.hitDramatic : Scene :=
  Scene.ofObjects
    [theAvatar, projectileAt 4 0 (-0.65) (-0.55) false,
      fireballAt 5 ⟨0, -0.65⟩ ⟨0, -0.65⟩ ⟨0, 1⟩ 60 false]
    [[dramaticAsteroidAt 6 ⟨0.15, -0.4⟩ 0.15 30000 false]] false 7

/-! # Theorems -/

/-! ## Collision response (C5) -/

theorem vec2.length_sub (a b : vec2) : (a - b).length = distance a b := by
  show Real.sqrt ((a.x - b.x) * (a.x - b.x) + (a.y - b.y) * (a.y - b.y)) = _
  unfold distance
  congr 1
  ring

/-- C5: for each of the four enemy classes and every aggressor `p`,
`HitByProjectile(p)` sets the target's `deleted` flag and calls `p->TargetHit()`
exactly when the Euclidean distance between the two positions is strictly
below 0.2, and otherwise leaves both objects as they were; `TargetHit` sets the
`deleted` flag of a projectile and of a fireball. -/
theorem HitByProjectile_iff_distance_lt (p : Entity) :
    (∀ o : EnemyObject, o.HitByProjectile p =
      if distance o.position p.GetLocation < 0.2 then ({ o with deleted := true }, p.TargetHit)
      else (o, p)) ∧
    (∀ o : EnemyMovingHeartObject, o.HitByProjectile p =
      if distance o.position p.GetLocation < 0.2 then ({ o with deleted := true }, p.TargetHit)
      else (o, p)) ∧
    (∀ o : EnemyMovingEggObject, o.HitByProjectile p =
      if distance o.position p.GetLocation < 0.2 then ({ o with deleted := true }, p.TargetHit)
      else (o, p)) ∧
    (∀ o : SeekerObject, o.HitByProjectile p =
      if distance o.position p.GetLocation < 0.2 then ({ o with deleted := true }, p.TargetHit)
      else (o, p)) ∧
    (∀ q : ProjectileObject,
      (Entity.Projectile q).TargetHit = Entity.Projectile { q with deleted := true }) ∧
    (∀ q : FireballObject,
      (Entity.Fireball q).TargetHit = Entity.Fireball { q with deleted := true }) := by
  refine ⟨?_, ?_, ?_, ?_, ?_, ?_⟩
  · intro o; simp only [EnemyObject.HitByProjectile, vec2.length_sub]
  · intro o; simp only [EnemyMovingHeartObject.HitByProjectile, vec2.length_sub]
  · intro o; simp only [EnemyMovingEggObject.HitByProjectile, vec2.length_sub]
  · intro o; simp only [SeekerObject.HitByProjectile, vec2.length_sub]
  · intro q; rfl
  · intro q; rfl

/-! ## Deletion predicates (C9, C10) -/

theorem DoneExploding_iff (o : ExplodingObject) (t : ℝ) :
    o.DoneExploding t = true ↔
      (cmod (cmod ⌊o.time_lapsed * 10⌋ 36 - 1) 36 = cmod ⌊t * 10⌋ 36 ∨
        t - o.time_lapsed > 3.4) := by
  simp [ExplodingObject.DoneExploding]

/-- C9, as stated, fails: an explosion spawned at elapsed time 0.55 is not
done at time 3.65, although the frame index `floor(10 * 3.65) mod 36` is 0. -/
theorem DoneExploding_frame_zero_counterexample :
    ¬ ((explosionAt 0.55).DoneExploding 3.65 = true ↔
        (⌊(10 : ℝ) * 3.65⌋ % 36 = 0 ∨ (3.65 : ℝ) - 0.55 > 3.4)) := by
  have h1 : ⌊(0.55 : ℝ) * 10⌋ = 5 := by
    rw [Int.floor_eq_iff]; constructor <;> norm_num
  have h2 : ⌊(3.65 : ℝ) * 10⌋ = 36 := by
    rw [Int.floor_eq_iff]; constructor <;> norm_num
  have h3 : ⌊(10 : ℝ) * 3.65⌋ = 36 := by
    rw [Int.floor_eq_iff]; constructor <;> norm_num
  rw [DoneExploding_iff, h3]
  simp only [explosionAt, ExplodingObject.new, h1, h2, cmod]
  norm_num
  decide

/-- C9, amended: for an explosion whose spawn elapsed time is `time_lapsed` and
every query time `t ≥ 0`, `DoneExploding(t)` is true exactly when the frame
index `floor(10 * t) mod 36` equals the spawn frame index minus one, reduced by
the C++ remainder (`(start_i - 1) % 36` with
`start_i = floor(10 * time_lapsed) % 36`), or `t - time_lapsed > 3.4`. -/
theorem DoneExploding_iff_frame_before_spawn (o : ExplodingObject) (t : ℝ) (ht : 0 ≤ t) :
    o.DoneExploding t = true ↔
      (⌊10 * t⌋ % 36 = cmod (cmod ⌊10 * o.time_lapsed⌋ 36 - 1) 36 ∨
        t - o.time_lapsed > 3.4) := by
  have h0 : (0 : ℤ) ≤ ⌊t * 10⌋ := Int.floor_nonneg.mpr (by positivity)
  rw [DoneExploding_iff, mul_comm 10 t, mul_comm 10 o.time_lapsed]
  have hmod : cmod ⌊t * 10⌋ 36 = ⌊t * 10⌋ % 36 := by
    unfold cmod
    exact Int.tmod_eq_emod h0 (by norm_num)
  rw [hmod]
  constructor
  · rintro (h | h)
    · exact Or.inl h.symm
    · exact Or.inr h
  · rintro (h | h)
    · exact Or.inl h.symm
    · exact Or.inr h

/-- The amended C9 at an explosion spawned at 0.55 and the query time 3.65. -/
theorem DoneExploding_iff_frame_before_spawn_witness :
    (0 : ℝ) ≤ 3.65 ∧ ((explosionAt 0.55).DoneExploding 3.65 = true ↔
      (⌊(10 : ℝ) * 3.65⌋ % 36 = cmod (cmod ⌊10 * (explosionAt 0.55).time_lapsed⌋ 36 - 1) 36 ∨
        3.65 - (explosionAt 0.55).time_lapsed > 3.4)) :=
  ⟨by norm_num, DoneExploding_iff_frame_before_spawn (explosionAt 0.55) 3.65 (by norm_num)⟩

/-- C10: `ShouldBeDeleted` returns true for an asteroid exactly when its
`deleted` flag is set or `scaling.x < 0.01` or `scaling.y < 0.01`; for a
projectile, a fireball, a heart, an egg and a seeker it returns the `deleted`
flag; for the avatar, an explosion and the black hole it returns false. -/
theorem ShouldBeDeleted_by_kind :
    (∀ o : EnemyObject, (Entity.AsteroidEnemy o).ShouldBeDeleted.1 = true ↔
      (o.deleted = true ∨ o.scaling.x < 0.01 ∨ o.scaling.y < 0.01)) ∧
    (∀ o : ProjectileObject, (Entity.Projectile o).ShouldBeDeleted.1 = o.deleted) ∧
    (∀ o : FireballObject, (Entity.Fireball o).ShouldBeDeleted.1 = o.deleted) ∧
    (∀ o : EnemyMovingHeartObject, (Entity.HeartEnemy o).ShouldBeDeleted.1 = o.deleted) ∧
    (∀ o : EnemyMovingEggObject, (Entity.EggEnemy o).ShouldBeDeleted.1 = o.deleted) ∧
    (∀ o : SeekerObject, (Entity.SeekerEnemy o).ShouldBeDeleted.1 = o.deleted) ∧
    (∀ o : AvatarObject, (Entity.Avatar o).ShouldBeDeleted.1 = false) ∧
    (∀ o : ExplodingObject, (Entity.ExplosionEffect o).ShouldBeDeleted.1 = false) ∧
    (∀ o : BlackHoleObject, (Entity.BlackHole o).ShouldBeDeleted.1 = false) := by
  refine ⟨?_, fun _ => rfl, fun _ => rfl, fun _ => rfl, fun _ => rfl, fun _ => rfl,
    fun _ => rfl, fun _ => rfl, fun _ => rfl⟩
  intro o
  simp only [Entity.ShouldBeDeleted, EnemyObject.ShouldBeDeleted]
  by_cases h : o.scaling.x < 0.01 ∨ o.scaling.y < 0.01
  · simp [h]
  · simp only [h, if_false, or_false]

/-! ## Vectors and the `Except` monad -/

theorem bind_eq_ok {α β : Type} {x : Except Fault α} {f : α → Except Fault β} {b : β} :
    (x >>= f) = .ok b ↔ ∃ a, x = .ok a ∧ f a = .ok b := by
  cases x with
  | error e => simp [bind, Except.bind]
  | ok a => simp [bind, Except.bind]

theorem vecGet_eq_ok {α : Type} {v : List α} {i : Nat} {a : α} :
    vecGet v i = .ok a ↔ v[i]? = some a := by
  unfold vecGet
  cases h : v[i]? <;> simp

theorem vecGet_append_length {α : Type} (v : List α) (a : α) (n : Nat) (h : v.length = n) :
    vecGet (v ++ [a]) n = .ok a := by
  subst h
  simp [vecGet_eq_ok]

theorem vecErase_eq_ok {α : Type} {v w : List α} {i : Nat} :
    vecErase v i = .ok w ↔ i < v.length ∧ w = v.eraseIdx i := by
  unfold vecErase
  by_cases h : i < v.length
  · simp [h, eq_comm]
  · simp [h]

theorem eraseIdx_append_singleton {α : Type} (l : List α) (a : α) (n : Nat) (h : l.length = n) :
    (l ++ [a]).eraseIdx n = l := by
  subst h
  rw [List.eraseIdx_append_of_length_le (le_refl _)]
  simp

/-! ## The four primary vectors stay in lockstep (C1) -/

namespace Scene

/-- The steps of `Scene::Move`, `Explode`, `placeBlackHole` and
`removeBlackHole` on a scene whose four primary vectors have one length: what
`Explode` and the four erases evaluate to, and that every step keeps the four
lengths equal. -/
theorem lockstep_steps :
    (∀ (s : Scene) (_ : s.Lockstep) (position : vec2) (time time_lapsed : ℝ),
      s.Explode position time time_lapsed = .ok
        { s with
          materials := s.materials ++
            [Material.AnimatedTexturedMaterial Shader.AnimatedTexturedShader Texture.boom 6],
          geometries := s.geometries ++ [Geometry.TexturedQuad],
          meshes := s.meshes ++ [⟨Geometry.TexturedQuad,
            Material.AnimatedTexturedMaterial Shader.AnimatedTexturedShader Texture.boom 6⟩],
          objects := s.objects ++ [Entity.ExplosionEffect (ExplodingObject.new
            { addr := s.nextAddr, shader := Shader.AnimatedTexturedShader,
              mesh := ⟨Geometry.TexturedQuad,
                Material.AnimatedTexturedMaterial Shader.AnimatedTexturedShader Texture.boom 6⟩,
              position := position, scaling := ⟨0.4, 0.4⟩, orientation := 0 } time time_lapsed)],
          nextAddr := s.nextAddr + 1 }) ∧
    (∀ {s s' : Scene} {i : Nat},
      s.eraseAt i = .ok s' ↔
        i < s.materials.length ∧ i < s.geometries.length ∧ i < s.meshes.length ∧
        i < s.objects.length ∧
        s' = { s with materials := s.materials.eraseIdx i, geometries := s.geometries.eraseIdx i,
                      meshes := s.meshes.eraseIdx i, objects := s.objects.eraseIdx i,
                      leaked := s.leaked ++ (s.objects[i]?).toList }) ∧
    (∀ {s s' : Scene} {i : Nat} (_ : s.eraseAt i = .ok s') (_ : s.Lockstep),
      s'.Lockstep) ∧
    (∀ {s : Scene} {i : Nat} (_ : s.Lockstep) (_ : i < s.objects.length),
      s.eraseAt i = .ok
        { s with materials := s.materials.eraseIdx i, geometries := s.geometries.eraseIdx i,
                 meshes := s.meshes.eraseIdx i, objects := s.objects.eraseIdx i,
                 leaked := s.leaked ++ (s.objects[i]?).toList }) ∧
    (∀ (pre : List Entity) (b : Entity) (_ : b.IsBlackHole = true)
      (_ : ∀ o ∈ pre, o.IsBlackHole = false),
      ∀ (fuel i : Nat) (s : Scene), s.Lockstep → s.objects = pre ++ [b] → i ≤ pre.length →
        pre.length + 1 ≤ fuel + i →
        removeBlackHoleLoop fuel i s = .ok
          { s with materials := s.materials.eraseIdx pre.length,
                   geometries := s.geometries.eraseIdx pre.length,
                   meshes := s.meshes.eraseIdx pre.length,
                   objects := pre,
                   leaked := s.leaked ++ [b],
                   blackHolePlaced := false }) ∧
    (∀ (me : Nat) (l : List Entity),
      ∀ (i : Nat) (this : Entity), (Control.objectsLoop me i l this).1.length = l.length) ∧
    (∀ {s s' : Scene} {p : vec2} {t tl : ℝ} (_ : s.Lockstep)
      (_ : s.Explode p t tl = .ok s'),
      s'.Lockstep ∧ s'.objects.length = s.objects.length + 1 ∧
        s'.asteroid_objects = s.asteroid_objects) ∧
    (∀ {keys : Char → Bool} {time tl : ℝ} {i : Nat} {s s' : Scene}
      (_ : s.MoveControl keys time tl i = .ok s'),
      s'.materials = s.materials ∧ s'.geometries = s.geometries ∧ s'.meshes = s.meshes ∧
        s'.objects.length = s.objects.length) ∧
    (∀ {keys : Char → Bool} {time tl : ℝ} {i : Nat} {s s' : Scene}
      (_ : s.Lockstep) (_ : s.MoveControl keys time tl i = .ok s'),
      s'.Lockstep) ∧
    (∀ {keys : Char → Bool} {time tl : ℝ} {i j : Nat} {s s' : Scene}
      (_ : s.Lockstep) (_ : s.MoveCell keys time tl i j = .ok s'),
      s'.Lockstep) ∧
    (∀ {keys : Char → Bool} {time tl : ℝ} {i : Nat},
      ∀ (fuel j : Nat) (s s' : Scene), s.Lockstep →
        MoveRow keys time tl i fuel j s = .ok s' → s'.Lockstep) ∧
    (∀ {keys : Char → Bool} {time tl : ℝ} {s s' : Scene} (_ : s.Lockstep)
      (_ : s.Move keys time tl = .ok s'),
      s'.Lockstep) ∧
    (∀ (s : Scene) (_ : s.Lockstep),
      ∃ (s1 : Scene) (b : BlackHoleObject) (m : Material) (g : Geometry) (mesh : Mesh),
        s.placeBlackHole = .ok s1 ∧ s1.Lockstep ∧
        s1.objects = s.objects ++ [Entity.BlackHole b] ∧ b.position = ⟨0, 0.4⟩ ∧
        s1.materials = s.materials ++ [m] ∧ s1.geometries = s.geometries ++ [g] ∧
        s1.meshes = s.meshes ++ [mesh] ∧ s1.blackHolePlaced = true) ∧
    (∀ (s : Scene) (_ : s.Lockstep),
      ∃ s', s.removeBlackHole = .ok s' ∧ s'.Lockstep) := by
  have Explode_eq : ∀ (s : Scene) (h : s.Lockstep) (position : vec2) (time time_lapsed : ℝ),
      s.Explode position time time_lapsed = .ok
        { s with
          materials := s.materials ++
            [Material.AnimatedTexturedMaterial Shader.AnimatedTexturedShader Texture.boom 6],
          geometries := s.geometries ++ [Geometry.TexturedQuad],
          meshes := s.meshes ++ [⟨Geometry.TexturedQuad,
            Material.AnimatedTexturedMaterial Shader.AnimatedTexturedShader Texture.boom 6⟩],
          objects := s.objects ++ [Entity.ExplosionEffect (ExplodingObject.new
            { addr := s.nextAddr, shader := Shader.AnimatedTexturedShader,
              mesh := ⟨Geometry.TexturedQuad,
                Material.AnimatedTexturedMaterial Shader.AnimatedTexturedShader Texture.boom 6⟩,
              position := position, scaling := ⟨0.4, 0.4⟩, orientation := 0 } time time_lapsed)],
          nextAddr := s.nextAddr + 1 } := by
    intro s h position time time_lapsed
    obtain ⟨h1, h2, h3⟩ := h
    simp only [Explode, vecGet_append_length _ _ _ h1, vecGet_append_length _ _ _ h2,
      vecGet_append_length _ _ _ h3, bind, Except.bind, pure, Except.pure]
  have eraseAt_eq_ok : ∀ {s s' : Scene} {i : Nat},
      s.eraseAt i = .ok s' ↔
        i < s.materials.length ∧ i < s.geometries.length ∧ i < s.meshes.length ∧
        i < s.objects.length ∧
        s' = { s with materials := s.materials.eraseIdx i, geometries := s.geometries.eraseIdx i,
                      meshes := s.meshes.eraseIdx i, objects := s.objects.eraseIdx i,
                      leaked := s.leaked ++ (s.objects[i]?).toList } := by
    intro s s' i
    simp only [eraseAt, bind_eq_ok, vecErase_eq_ok, pure, Except.pure]
    constructor
    · rintro ⟨m, ⟨h1, rfl⟩, g, ⟨h2, rfl⟩, ms, ⟨h3, rfl⟩, os, ⟨h4, rfl⟩, h⟩
      exact ⟨h1, h2, h3, h4, (Except.ok.inj h).symm⟩
    · rintro ⟨h1, h2, h3, h4, rfl⟩
      exact ⟨_, ⟨h1, rfl⟩, _, ⟨h2, rfl⟩, _, ⟨h3, rfl⟩, _, ⟨h4, rfl⟩, rfl⟩
  have eraseAt_lockstep : ∀ {s s' : Scene} {i : Nat} (h : s.eraseAt i = .ok s') (hl : s.Lockstep),
      s'.Lockstep := by
    intro s s' i h hl
    obtain ⟨h1, h2, h3, h4, rfl⟩ := eraseAt_eq_ok.mp h
    obtain ⟨l1, l2, l3⟩ := hl
    simp only [Lockstep, List.length_eraseIdx, h1, h2, h3, h4, if_true, l1, l2, l3, and_self]
  have eraseAt_of_lockstep : ∀ {s : Scene} {i : Nat} (hl : s.Lockstep) (hi : i < s.objects.length),
      s.eraseAt i = .ok
        { s with materials := s.materials.eraseIdx i, geometries := s.geometries.eraseIdx i,
                 meshes := s.meshes.eraseIdx i, objects := s.objects.eraseIdx i,
                 leaked := s.leaked ++ (s.objects[i]?).toList } := by
    intro s i hl hi
    obtain ⟨l1, l2, l3⟩ := hl
    exact eraseAt_eq_ok.mpr ⟨l1 ▸ hi, l2 ▸ hi, l3 ▸ hi, hi, rfl⟩
  have removeBlackHoleLoop_past : ∀ (fuel i : Nat) (s : Scene) (h : s.objects.length ≤ i),
      removeBlackHoleLoop fuel i s = .ok s := by
    intro fuel i s h
    cases fuel <;> simp [removeBlackHoleLoop, Nat.not_lt.mpr h]
  have removeBlackHoleLoop_last : ∀ (pre : List Entity) (b : Entity) (hb : b.IsBlackHole = true)
      (hpre : ∀ o ∈ pre, o.IsBlackHole = false),
      ∀ (fuel i : Nat) (s : Scene), s.Lockstep → s.objects = pre ++ [b] → i ≤ pre.length →
        pre.length + 1 ≤ fuel + i →
        removeBlackHoleLoop fuel i s = .ok
          { s with materials := s.materials.eraseIdx pre.length,
                   geometries := s.geometries.eraseIdx pre.length,
                   meshes := s.meshes.eraseIdx pre.length,
                   objects := pre,
                   leaked := s.leaked ++ [b],
                   blackHolePlaced := false } := by
    intro pre b hb hpre
    intro fuel
    induction fuel with
    | zero =>
      intro i s _ _ hi hf
      omega
    | succ fuel ih =>
      intro i s hl ho hi hf
      have hlen : s.objects.length = pre.length + 1 := by simp [ho]
      have hlt : i < s.objects.length := by omega
      rw [removeBlackHoleLoop, if_pos hlt]
      rcases Nat.lt_or_ge i pre.length with hip | hip
      · have hget : vecGet s.objects i = .ok (pre.get ⟨i, hip⟩) := by
          rw [vecGet_eq_ok, ho, List.getElem?_append_left hip]
          simp
        have hnb : (pre.get ⟨i, hip⟩).IsBlackHole = false := hpre _ (List.get_mem _ _ _)
        simp only [removeBlackHoleBody, hget, bind, Except.bind, hnb, pure, Except.pure]
        exact ih (i + 1) s hl ho hip (by omega)
      · have hie : i = pre.length := by omega
        subst hie
        have hget : vecGet s.objects pre.length = .ok b := by
          rw [vecGet_eq_ok, ho]; simp
        have hget2 : s.objects[pre.length]? = some b := vecGet_eq_ok.mp hget
        simp only [removeBlackHoleBody, hget, bind, Except.bind, hb, if_true,
          eraseAt_of_lockstep hl hlt, pure, Except.pure]
        rw [removeBlackHoleLoop_past]
        · simp [ho, hget2, eraseIdx_append_singleton]
        · simp [ho, eraseIdx_append_singleton]
  have objectsLoop_length : ∀ (me : Nat) (l : List Entity),
      ∀ (i : Nat) (this : Entity), (Control.objectsLoop me i l this).1.length = l.length := by
    intro me l
    induction l with
    | nil => intro i this; rfl
    | cons o rest ih =>
      intro i this
      unfold Control.objectsLoop
      split <;> simp [ih]
  have Control_length : ∀ (this : Entity) (objects : List Entity) (me : Nat)
      (grid : List (List Entity)),
      (this.Control objects me grid).2.1.length = objects.length := by
    intro this objects me grid
    cases this <;>
      simp [Entity.Control, ProjectileObject.Control, FireballObject.Control,
        objectsLoop_length]
  have Explode_lockstep : ∀ {s s' : Scene} {p : vec2} {t tl : ℝ} (hl : s.Lockstep)
      (h : s.Explode p t tl = .ok s'),
      s'.Lockstep ∧ s'.objects.length = s.objects.length + 1 ∧
        s'.asteroid_objects = s.asteroid_objects := by
    intro s s' p t tl hl h
    rw [Explode_eq s hl] at h
    obtain ⟨l1, l2, l3⟩ := hl
    cases h
    simp [Lockstep, l1, l2, l3]
  have MoveControl_frame : ∀ {keys : Char → Bool} {time tl : ℝ} {i : Nat} {s s' : Scene}
      (h : s.MoveControl keys time tl i = .ok s'),
      s'.materials = s.materials ∧ s'.geometries = s.geometries ∧ s'.meshes = s.meshes ∧
        s'.objects.length = s.objects.length := by
    intro keys time tl i s s' h
    simp only [MoveControl, bind_eq_ok, pure, Except.pure] at h
    obtain ⟨o, _, o1, _, o2, _, h⟩ := h
    cases h
    simp [Control_length]
  have MoveControl_lockstep : ∀ {keys : Char → Bool} {time tl : ℝ} {i : Nat} {s s' : Scene}
      (hl : s.Lockstep) (h : s.MoveControl keys time tl i = .ok s'),
      s'.Lockstep := by
    intro keys time tl i s s' hl h
    obtain ⟨h1, h2, h3, h4⟩ := MoveControl_frame h
    simpa [Lockstep, h1, h2, h3, h4] using hl
  have ExplodeIfEnemy_lockstep : ∀ {s s' : Scene} {o : Entity} {t tl : ℝ} (hl : s.Lockstep)
      (h : s.ExplodeIfEnemy o t tl = .ok s'),
      s'.Lockstep ∧ s'.asteroid_objects = s.asteroid_objects := by
    intro s s' o t tl hl h
    unfold ExplodeIfEnemy at h
    split at h
    · exact ⟨(Explode_lockstep hl h).1, (Explode_lockstep hl h).2.2⟩
    · cases h; exact ⟨hl, rfl⟩
  have RemoveDeleted_lockstep : ∀ {time tl : ℝ} {i : Nat} {s s' : Scene}
      (hl : s.Lockstep) (h : s.RemoveDeleted time tl i = .ok s'),
      s'.Lockstep := by
    intro time tl i s s' hl h
    simp only [RemoveDeleted, bind_eq_ok, pure, Except.pure] at h
    obtain ⟨o, _, h⟩ := h
    have hl1 : ({ s with objects := s.objects.set i o.ShouldBeDeleted.2 } : Scene).Lockstep := by
      simpa [Lockstep] using hl
    split at h
    · simp only [bind_eq_ok] at h
      obtain ⟨o2, _, s2, h2, h3⟩ := h
      exact eraseAt_lockstep h3 (ExplodeIfEnemy_lockstep hl1 h2).1
    · cases h; exact hl1
  have RemoveExploded_lockstep : ∀ {tl : ℝ} {i : Nat} {s s' : Scene}
      (hl : s.Lockstep) (h : s.RemoveExploded tl i = .ok s'),
      s'.Lockstep := by
    intro tl i s s' hl h
    simp only [RemoveExploded, bind_eq_ok, pure, Except.pure] at h
    obtain ⟨o, _, h⟩ := h
    split at h
    · exact eraseAt_lockstep h hl
    · cases h; exact hl
  have MoveBody_lockstep : ∀ {keys : Char → Bool} {time tl : ℝ} {i : Nat} {s s' : Scene}
      (hl : s.Lockstep) (h : s.MoveBody keys time tl i = .ok s'),
      s'.Lockstep := by
    intro keys time tl i s s' hl h
    simp only [MoveBody, bind_eq_ok] at h
    obtain ⟨s1, h1, s2, h2, h3⟩ := h
    exact RemoveExploded_lockstep (RemoveDeleted_lockstep (MoveControl_lockstep hl h1) h2) h3
  have MoveObjects_lockstep : ∀ {keys : Char → Bool} {time tl : ℝ},
      ∀ (fuel i : Nat) (s s' : Scene), s.Lockstep →
        MoveObjects keys time tl fuel i s = .ok s' → s'.Lockstep := by
    intro keys time tl
    intro fuel
    induction fuel with
    | zero =>
      intro i s s' hl h
      simp only [MoveObjects] at h
      split at h
      · cases h
      · cases h; exact hl
    | succ fuel ih =>
      intro i s s' hl h
      simp only [MoveObjects] at h
      split at h
      · simp only [bind_eq_ok] at h
        obtain ⟨s1, h1, h2⟩ := h
        exact ih _ _ _ (MoveBody_lockstep hl h1) h2
      · cases h; exact hl
  have MoveCell_lockstep : ∀ {keys : Char → Bool} {time tl : ℝ} {i j : Nat} {s s' : Scene}
      (hl : s.Lockstep) (h : s.MoveCell keys time tl i j = .ok s'),
      s'.Lockstep := by
    intro keys time tl i j s s' hl h
    simp only [MoveCell, bind_eq_ok, pure, Except.pure] at h
    obtain ⟨row, _, c, _, c1, _, h⟩ := h
    have hl1 : ∀ g, ({ s with asteroid_objects := g } : Scene).Lockstep := fun g => by
      simpa [Lockstep] using hl
    split at h
    · simp only [bind_eq_ok] at h
      obtain ⟨s2, h2, row2, _, er, _, h3⟩ := h
      cases h3
      have hl2 : s2.Lockstep := (ExplodeIfEnemy_lockstep (hl1 _) h2).1
      simpa [Lockstep] using hl2
    · cases h; exact hl1 _
  have MoveRow_lockstep : ∀ {keys : Char → Bool} {time tl : ℝ} {i : Nat},
      ∀ (fuel j : Nat) (s s' : Scene), s.Lockstep →
        MoveRow keys time tl i fuel j s = .ok s' → s'.Lockstep := by
    intro keys time tl i
    intro fuel
    induction fuel with
    | zero =>
      intro j s s' hl h
      simp only [MoveRow] at h
      split at h
      · cases h
      · cases h; exact hl
    | succ fuel ih =>
      intro j s s' hl h
      simp only [MoveRow] at h
      split at h
      · simp only [bind_eq_ok] at h
        obtain ⟨s1, h1, h2⟩ := h
        exact ih _ _ _ (MoveCell_lockstep hl h1) h2
      · cases h; exact hl
  have MoveGrid_lockstep : ∀ {keys : Char → Bool} {time tl : ℝ},
      ∀ (fuel i : Nat) (s s' : Scene), s.Lockstep →
        MoveGrid keys time tl fuel i s = .ok s' → s'.Lockstep := by
    intro keys time tl
    intro fuel
    induction fuel with
    | zero =>
      intro i s s' hl h
      simp only [MoveGrid] at h
      split at h
      · cases h
      · cases h; exact hl
    | succ fuel ih =>
      intro i s s' hl h
      simp only [MoveGrid] at h
      split at h
      · simp only [bind_eq_ok] at h
        obtain ⟨s1, h1, h2⟩ := h
        exact ih _ _ _ (MoveRow_lockstep _ _ _ _ hl h1) h2
      · cases h; exact hl
  have Move_lockstep : ∀ {keys : Char → Bool} {time tl : ℝ} {s s' : Scene} (hl : s.Lockstep)
      (h : s.Move keys time tl = .ok s'),
      s'.Lockstep := by
    intro keys time tl s s' hl h
    simp only [Move, bind_eq_ok] at h
    obtain ⟨s1, h1, h2⟩ := h
    refine MoveGrid_lockstep _ _ _ _ (MoveObjects_lockstep _ _ _ _ ?_ h1) h2
    simpa [Lockstep] using hl
  have placeBlackHole_eq : ∀ (s : Scene) (h : s.Lockstep),
      s.placeBlackHole = .ok
        { s with
          materials := s.materials ++
            [Material.TextureMaterial Shader.TexturedShader Texture.blackhole],
          geometries := s.geometries ++ [Geometry.TexturedQuad],
          meshes := s.meshes ++ [⟨Geometry.TexturedQuad,
            Material.TextureMaterial Shader.TexturedShader Texture.blackhole⟩],
          objects := s.objects ++ [Entity.BlackHole
            { addr := s.nextAddr, shader := Shader.TexturedShader,
              mesh := ⟨Geometry.TexturedQuad,
                Material.TextureMaterial Shader.TexturedShader Texture.blackhole⟩,
              position := blackHolePos, scaling := ⟨0.5, 0.5⟩, orientation := 0 }],
          nextAddr := s.nextAddr + 1, blackHolePlaced := true } := by
    intro s h
    obtain ⟨h1, h2, h3⟩ := h
    simp only [placeBlackHole, vecGet_append_length _ _ _ h1, vecGet_append_length _ _ _ h2,
      vecGet_append_length _ _ _ h3, bind, Except.bind, pure, Except.pure]
  have removeBlackHoleBody_lockstep : ∀ {s : Scene} {i : Nat} (hl : s.Lockstep)
      (hi : i < s.objects.length),
      ∃ s', s.removeBlackHoleBody i = .ok s' ∧ s'.Lockstep ∧
        s'.objects.length ≤ s.objects.length := by
    intro s i hl hi
    have hg : vecGet s.objects i = .ok (s.objects.get ⟨i, hi⟩) := by
      rw [vecGet_eq_ok]; simp
    simp only [removeBlackHoleBody, hg, bind, Except.bind, pure, Except.pure]
    split
    · rw [eraseAt_of_lockstep hl hi]
      refine ⟨_, rfl, ?_, ?_⟩
      · have := eraseAt_lockstep (eraseAt_of_lockstep hl hi) hl
        simpa [Lockstep] using this
      · simp [List.length_eraseIdx, hi]
    · exact ⟨_, rfl, hl, le_refl _⟩
  have removeBlackHoleLoop_lockstep :
      ∀ (fuel i : Nat) (s : Scene), s.Lockstep → s.objects.length ≤ fuel + i →
        ∃ s', removeBlackHoleLoop fuel i s = .ok s' ∧ s'.Lockstep := by
    intro fuel
    induction fuel with
    | zero =>
      intro i s hl hf
      exact ⟨s, removeBlackHoleLoop_past 0 i s (by omega), hl⟩
    | succ fuel ih =>
      intro i s hl hf
      rcases Nat.lt_or_ge i s.objects.length with hi | hi
      · obtain ⟨s1, h1, hl1, hlen⟩ := removeBlackHoleBody_lockstep hl hi
        obtain ⟨s2, h2, hl2⟩ := ih (i + 1) s1 hl1 (by omega)
        refine ⟨s2, ?_, hl2⟩
        rw [removeBlackHoleLoop, if_pos hi, h1]
        exact h2
      · exact ⟨s, removeBlackHoleLoop_past _ i s hi, hl⟩
  have placeBlackHole_spec : ∀ (s : Scene) (hl : s.Lockstep),
      ∃ (s1 : Scene) (b : BlackHoleObject) (m : Material) (g : Geometry) (mesh : Mesh),
        s.placeBlackHole = .ok s1 ∧ s1.Lockstep ∧
        s1.objects = s.objects ++ [Entity.BlackHole b] ∧ b.position = ⟨0, 0.4⟩ ∧
        s1.materials = s.materials ++ [m] ∧ s1.geometries = s.geometries ++ [g] ∧
        s1.meshes = s.meshes ++ [mesh] ∧ s1.blackHolePlaced = true := by
    intro s hl
    refine ⟨_, _, _, _, _, placeBlackHole_eq s hl, ?_, rfl, rfl, rfl, rfl, rfl, rfl⟩
    obtain ⟨l1, l2, l3⟩ := hl
    simp [Lockstep, l1, l2, l3]
  have removeBlackHole_lockstep : ∀ (s : Scene) (hl : s.Lockstep),
      ∃ s', s.removeBlackHole = .ok s' ∧ s'.Lockstep := by
    intro s hl
    exact removeBlackHoleLoop_lockstep _ 0 s hl (by simp)
  exact ⟨@Explode_eq, @eraseAt_eq_ok, @eraseAt_lockstep, @eraseAt_of_lockstep,
    @removeBlackHoleLoop_last, @objectsLoop_length, @Explode_lockstep, @MoveControl_frame,
    @MoveControl_lockstep, @MoveCell_lockstep, @MoveRow_lockstep, @Move_lockstep,
    @placeBlackHole_spec, @removeBlackHole_lockstep⟩

theorem ofObjects_lockstep (objects : List Entity) (grid : List (List Entity)) (b : Bool)
    (n : Nat) : (Scene.ofObjects objects grid b n).Lockstep := by
  simp [Lockstep, ofObjects]

end Scene

/-! ## `Explode`, `placeBlackHole`, `removeBlackHole` (C7, C8) -/

namespace Scene

/-- C7: in a scene whose four primary vectors have the same length `n`,
`Explode(position, time, time_lapsed)` returns without reading out of range,
keeps the first `n` entries of each vector and appends exactly one to each;
the new object is an `ExplodingObject` at `position` with scale `(0.4, 0.4)`
and spawn elapsed time `time_lapsed`, and its mesh is built from
`geometries[n]` and `materials[n]` and read back as `meshes[n]`. -/
theorem Explode_appends (s : Scene) (h : s.Lockstep) (position : vec2) (time time_lapsed : ℝ) :
    ∃ (s' : Scene) (m : Material) (g : Geometry) (mesh : Mesh) (x : ExplodingObject),
      s.Explode position time time_lapsed = .ok s' ∧
      s'.materials = s.materials ++ [m] ∧ s'.geometries = s.geometries ++ [g] ∧
      s'.meshes = s.meshes ++ [mesh] ∧ s'.objects = s.objects ++ [Entity.ExplosionEffect x] ∧
      x.position = position ∧ x.scaling = ⟨0.4, 0.4⟩ ∧ x.time_lapsed = time_lapsed ∧
      vecGet s'.geometries s.objects.length = .ok g ∧
      vecGet s'.materials s.objects.length = .ok m ∧
      vecGet s'.meshes s.objects.length = .ok mesh ∧
      mesh = ⟨g, m⟩ ∧ x.mesh = mesh := by
  obtain ⟨Explode_eq, -, -, -, -, -, -, -, -, -, -, -, -, -⟩ := Scene.lockstep_steps
  refine ⟨_, _, _, _, _, Explode_eq s h position time time_lapsed, rfl, rfl, rfl, rfl, rfl, rfl,
    rfl, ?_, ?_, ?_, rfl, rfl⟩
  · exact vecGet_append_length _ _ _ h.2.1
  · exact vecGet_append_length _ _ _ h.1
  · exact vecGet_append_length _ _ _ h.2.2

/-- C7 at the scene that holds the avatar alone, exploding at `(1, 2)`. -/
theorem Explode_appends_witness :
    (Scene.ofObjects [theAvatar] [] false 1).Lockstep ∧
    ∃ (s' : Scene) (m : Material) (g : Geometry) (mesh : Mesh) (x : ExplodingObject),
      (Scene.ofObjects [theAvatar] [] false 1).Explode ⟨1, 2⟩ 0 5 = .ok s' ∧
      s'.materials = (Scene.ofObjects [theAvatar] [] false 1).materials ++ [m] ∧
      s'.geometries = (Scene.ofObjects [theAvatar] [] false 1).geometries ++ [g] ∧
      s'.meshes = (Scene.ofObjects [theAvatar] [] false 1).meshes ++ [mesh] ∧
      s'.objects = (Scene.ofObjects [theAvatar] [] false 1).objects ++
        [Entity.ExplosionEffect x] ∧
      x.position = ⟨1, 2⟩ ∧ x.scaling = ⟨0.4, 0.4⟩ ∧ x.time_lapsed = 5 ∧
      vecGet s'.geometries (Scene.ofObjects [theAvatar] [] false 1).objects.length = .ok g ∧
      vecGet s'.materials (Scene.ofObjects [theAvatar] [] false 1).objects.length = .ok m ∧
      vecGet s'.meshes (Scene.ofObjects [theAvatar] [] false 1).objects.length = .ok mesh ∧
      mesh = ⟨g, m⟩ ∧ x.mesh = mesh :=
  ⟨ofObjects_lockstep _ _ _ _, Explode_appends _ (ofObjects_lockstep _ _ _ _) ⟨1, 2⟩ 0 5⟩

/-- C8: in a scene with lockstep primary vectors and no `BlackHoleObject`,
`placeBlackHole` appends exactly one black hole at `(0, 0.4)` (and one
material, geometry and mesh) and sets `blackHolePlaced`; the `removeBlackHole`
that follows returns the four primary vectors to their previous contents and
order and clears the flag. -/
theorem placeBlackHole_then_removeBlackHole (s : Scene) (hl : s.Lockstep)
    (hnb : ∀ o ∈ s.objects, o.IsBlackHole = false) (hflag : s.blackHolePlaced = false) :
    ∃ (s1 s2 : Scene) (b : BlackHoleObject) (m : Material) (g : Geometry) (mesh : Mesh),
      s.placeBlackHole = .ok s1 ∧
      s1.objects = s.objects ++ [Entity.BlackHole b] ∧ b.position = ⟨0, 0.4⟩ ∧
      s1.materials = s.materials ++ [m] ∧ s1.geometries = s.geometries ++ [g] ∧
      s1.meshes = s.meshes ++ [mesh] ∧ s1.blackHolePlaced = true ∧
      s1.removeBlackHole = .ok s2 ∧
      s2.materials = s.materials ∧ s2.geometries = s.geometries ∧ s2.meshes = s.meshes ∧
      s2.objects = s.objects ∧ s2.blackHolePlaced = false ∧
      s2.blackHolePlaced = s.blackHolePlaced := by
  obtain ⟨-, -, -, -, removeBlackHoleLoop_last, -, -, -, -, -, -, -, placeBlackHole_spec, -⟩ :=
    Scene.lockstep_steps
  obtain ⟨s1, b, m, g, mesh, hp, hl1, ho, hb, hm, hg, hms, hf⟩ := placeBlackHole_spec s hl
  obtain ⟨l1, l2, l3⟩ := hl
  have h2 := removeBlackHoleLoop_last s.objects (Entity.BlackHole b) rfl hnb
    s1.objects.length 0 s1 hl1 ho (Nat.zero_le _) (by simp [ho])
  refine ⟨s1, _, b, m, g, mesh, hp, ho, hb, hm, hg, hms, hf, h2, ?_⟩
  simp [hm, hg, hms, eraseIdx_append_singleton, l1, l2, l3, hflag]

/-- C8 at the scene that holds the avatar alone. -/
theorem placeBlackHole_then_removeBlackHole_witness :
    (Scene.ofObjects [theAvatar] [] false 1).Lockstep ∧
    (∀ o ∈ (Scene.ofObjects [theAvatar] [] false 1).objects, o.IsBlackHole = false) ∧
    (Scene.ofObjects [theAvatar] [] false 1).blackHolePlaced = false ∧
    ∃ (s1 s2 : Scene) (b : BlackHoleObject) (m : Material) (g : Geometry) (mesh : Mesh),
      (Scene.ofObjects [theAvatar] [] false 1).placeBlackHole = .ok s1 ∧
      s1.objects = (Scene.ofObjects [theAvatar] [] false 1).objects ++ [Entity.BlackHole b] ∧
      b.position = ⟨0, 0.4⟩ ∧
      s1.materials = (Scene.ofObjects [theAvatar] [] false 1).materials ++ [m] ∧
      s1.geometries = (Scene.ofObjects [theAvatar] [] false 1).geometries ++ [g] ∧
      s1.meshes = (Scene.ofObjects [theAvatar] [] false 1).meshes ++ [mesh] ∧
      s1.blackHolePlaced = true ∧
      s1.removeBlackHole = .ok s2 ∧
      s2.materials = (Scene.ofObjects [theAvatar] [] false 1).materials ∧
      s2.geometries = (Scene.ofObjects [theAvatar] [] false 1).geometries ∧
      s2.meshes = (Scene.ofObjects [theAvatar] [] false 1).meshes ∧
      s2.objects = (Scene.ofObjects [theAvatar] [] false 1).objects ∧
      s2.blackHolePlaced = false ∧
      s2.blackHolePlaced = (Scene.ofObjects [theAvatar] [] false 1).blackHolePlaced :=
  ⟨ofObjects_lockstep _ _ _ _, by simp [ofObjects, theAvatar, Entity.IsBlackHole], rfl,
    placeBlackHole_then_removeBlackHole _ (ofObjects_lockstep _ _ _ _)
      (by simp [ofObjects, theAvatar, Entity.IsBlackHole]) rfl⟩

end Scene

/-! ## The fuel of the loops of `Scene::Move` suffices -/

theorem bind_eq_error {α β : Type} {x : Except Fault α} {f : α → Except Fault β} {e : Fault} :
    (x >>= f) = .error e ↔ x = .error e ∨ ∃ a, x = .ok a ∧ f a = .error e := by
  cases x with
  | error e' => simp [bind, Except.bind]
  | ok a => simp [bind, Except.bind]

theorem vecGet_ne_outOfFuel {α : Type} (v : List α) (i : Nat) :
    vecGet v i ≠ .error .outOfFuel := by
  unfold vecGet
  cases v[i]? <;> simp

theorem vecErase_ne_outOfFuel {α : Type} (v : List α) (i : Nat) :
    vecErase v i ≠ .error .outOfFuel := by
  unfold vecErase
  split <;> simp

namespace Scene

/-- The fuel `Scene.Move` gives its loops always suffices: a pass either
returns or leaves the defined behaviour of C++. -/
theorem Move_ne_outOfFuel (keys : Char → Bool) (s : Scene) (time tl : ℝ) :
    s.Move keys time tl ≠ .error .outOfFuel := by
  obtain ⟨-, eraseAt_eq_ok, -, -, -, -, -, MoveControl_frame, -, -, -, -, -, -⟩ :=
    Scene.lockstep_steps
  have virtualMove_ne_outOfFuel : ∀ (keys : Char → Bool) (b : Bool) (deref : Nat → Option Entity)
      (e : Entity) (dt tl : ℝ),
      e.Move keys b deref dt tl ≠ .error .outOfFuel := by
    intro keys b deref e dt tl
    cases e <;> simp [Entity.Move]
    split <;> simp
  have eraseAt_ne_outOfFuel : ∀ (s : Scene) (i : Nat),
      s.eraseAt i ≠ .error .outOfFuel := by
    intro s i
    intro h
    simp only [eraseAt, bind_eq_error, pure, Except.pure] at h
    rcases h with h | ⟨_, _, h | ⟨_, _, h | ⟨_, _, h | ⟨_, _, h⟩⟩⟩⟩
    · exact vecErase_ne_outOfFuel _ _ h
    · exact vecErase_ne_outOfFuel _ _ h
    · exact vecErase_ne_outOfFuel _ _ h
    · exact vecErase_ne_outOfFuel _ _ h
    · cases h
  have Explode_ne_outOfFuel : ∀ (s : Scene) (p : vec2) (t tl : ℝ),
      s.Explode p t tl ≠ .error .outOfFuel := by
    intro s p t tl
    intro h
    simp only [Explode, bind_eq_error, pure, Except.pure] at h
    rcases h with h | ⟨_, _, h | ⟨_, _, h | ⟨_, _, h⟩⟩⟩
    · exact vecGet_ne_outOfFuel _ _ h
    · exact vecGet_ne_outOfFuel _ _ h
    · exact vecGet_ne_outOfFuel _ _ h
    · cases h
  have Explode_objects : ∀ {s s' : Scene} {p : vec2} {t tl : ℝ} (h : s.Explode p t tl = .ok s'),
      s'.objects.length = s.objects.length + 1 ∧ s'.asteroid_objects = s.asteroid_objects := by
    intro s s' p t tl h
    simp only [Explode, bind_eq_ok, pure, Except.pure] at h
    obtain ⟨_, _, _, _, _, _, h⟩ := h
    cases h
    simp
  have ExplodeIfEnemy_ne_outOfFuel : ∀ (s : Scene) (o : Entity) (t tl : ℝ),
      s.ExplodeIfEnemy o t tl ≠ .error .outOfFuel := by
    intro s o t tl
    unfold ExplodeIfEnemy
    split
    · exact Explode_ne_outOfFuel _ _ _ _
    · simp [pure, Except.pure]
  have ExplodeIfEnemy_objects : ∀ {s s' : Scene} {o : Entity} {t tl : ℝ}
      (h : s.ExplodeIfEnemy o t tl = .ok s'),
      s'.objects.length ≤ s.objects.length + 1 ∧ s'.asteroid_objects = s.asteroid_objects := by
    intro s s' o t tl h
    unfold ExplodeIfEnemy at h
    split at h
    · have := Explode_objects h
      exact ⟨by omega, this.2⟩
    · cases h; exact ⟨by omega, rfl⟩
  have eraseAt_objects : ∀ {s s' : Scene} {i : Nat} (h : s.eraseAt i = .ok s'),
      s'.objects.length + 1 = s.objects.length ∧ s'.asteroid_objects = s.asteroid_objects := by
    intro s s' i h
    obtain ⟨_, _, _, h4, rfl⟩ := eraseAt_eq_ok.mp h
    simp only [List.length_eraseIdx, h4, if_true, and_true]
    omega
  have MoveControl_ne_outOfFuel : ∀ (keys : Char → Bool) (time tl : ℝ) (i : Nat) (s : Scene),
      s.MoveControl keys time tl i ≠ .error .outOfFuel := by
    intro keys time tl i s
    intro h
    simp only [MoveControl, bind_eq_error, pure, Except.pure] at h
    rcases h with h | ⟨_, _, h | ⟨_, _, h | ⟨_, _, h⟩⟩⟩
    · exact vecGet_ne_outOfFuel _ _ h
    · exact virtualMove_ne_outOfFuel _ _ _ _ _ _ h
    · exact vecGet_ne_outOfFuel _ _ h
    · cases h
  have RemoveDeleted_ne_outOfFuel : ∀ (time tl : ℝ) (i : Nat) (s : Scene),
      s.RemoveDeleted time tl i ≠ .error .outOfFuel := by
    intro time tl i s
    intro h
    simp only [RemoveDeleted, bind_eq_error, pure, Except.pure] at h
    rcases h with h | ⟨o, _, h⟩
    · exact vecGet_ne_outOfFuel _ _ h
    · split at h
      · simp only [bind_eq_error] at h
        rcases h with h | ⟨_, _, h | ⟨_, _, h⟩⟩
        · exact vecGet_ne_outOfFuel _ _ h
        · exact ExplodeIfEnemy_ne_outOfFuel _ _ _ _ h
        · exact eraseAt_ne_outOfFuel _ _ h
      · cases h
  have RemoveDeleted_objects : ∀ {time tl : ℝ} {i : Nat} {s s' : Scene}
      (h : s.RemoveDeleted time tl i = .ok s'),
      s'.objects.length ≤ s.objects.length := by
    intro time tl i s s' h
    simp only [RemoveDeleted, bind_eq_ok, pure, Except.pure] at h
    obtain ⟨o, _, h⟩ := h
    split at h
    · simp only [bind_eq_ok] at h
      obtain ⟨o2, _, s2, h2, h3⟩ := h
      have e1 := (ExplodeIfEnemy_objects h2).1
      have e2 := (eraseAt_objects h3).1
      simp only [List.length_set] at e1
      omega
    · cases h; simp
  have RemoveExploded_ne_outOfFuel : ∀ (tl : ℝ) (i : Nat) (s : Scene),
      s.RemoveExploded tl i ≠ .error .outOfFuel := by
    intro tl i s
    intro h
    simp only [RemoveExploded, bind_eq_error, pure, Except.pure] at h
    rcases h with h | ⟨o, _, h⟩
    · exact vecGet_ne_outOfFuel _ _ h
    · split at h
      · exact eraseAt_ne_outOfFuel _ _ h
      · cases h
  have RemoveExploded_objects : ∀ {tl : ℝ} {i : Nat} {s s' : Scene}
      (h : s.RemoveExploded tl i = .ok s'),
      s'.objects.length ≤ s.objects.length := by
    intro tl i s s' h
    simp only [RemoveExploded, bind_eq_ok, pure, Except.pure] at h
    obtain ⟨o, _, h⟩ := h
    split at h
    · have := (eraseAt_objects h).1
      omega
    · cases h; simp
  have MoveBody_ne_outOfFuel : ∀ (keys : Char → Bool) (time tl : ℝ) (i : Nat) (s : Scene),
      s.MoveBody keys time tl i ≠ .error .outOfFuel := by
    intro keys time tl i s
    intro h
    simp only [MoveBody, bind_eq_error] at h
    rcases h with h | ⟨_, _, h | ⟨_, _, h⟩⟩
    · exact MoveControl_ne_outOfFuel _ _ _ _ _ h
    · exact RemoveDeleted_ne_outOfFuel _ _ _ _ h
    · exact RemoveExploded_ne_outOfFuel _ _ _ h
  have MoveBody_objects : ∀ {keys : Char → Bool} {time tl : ℝ} {i : Nat} {s s' : Scene}
      (h : s.MoveBody keys time tl i = .ok s'),
      s'.objects.length ≤ s.objects.length := by
    intro keys time tl i s s' h
    simp only [MoveBody, bind_eq_ok] at h
    obtain ⟨s1, h1, s2, h2, h3⟩ := h
    have e1 := (MoveControl_frame h1).2.2.2
    have e2 := RemoveDeleted_objects h2
    have e3 := RemoveExploded_objects h3
    omega
  have MoveObjects_ne_outOfFuel : ∀ (keys : Char → Bool) (time tl : ℝ),
      ∀ (fuel i : Nat) (s : Scene), s.objects.length ≤ fuel + i →
        MoveObjects keys time tl fuel i s ≠ .error .outOfFuel := by
    intro keys time tl
    intro fuel
    induction fuel with
    | zero =>
      intro i s hf
      simp only [MoveObjects]
      rw [if_neg (by omega)]
      simp
    | succ fuel ih =>
      intro i s hf h
      simp only [MoveObjects] at h
      split at h
      · simp only [bind_eq_error] at h
        rcases h with h | ⟨s1, h1, h⟩
        · exact MoveBody_ne_outOfFuel _ _ _ _ _ h
        · have := MoveBody_objects h1
          exact ih (i + 1) s1 (by omega) h
      · cases h
  have getD_set_self : ∀ {α : Type} (l : List α) (i : Nat) (x d : α) (h : i < l.length),
      (l.set i x).getD i d = x := by
    intro α l i x d h
    simp [List.getD, h]
  have MoveCell_ne_outOfFuel : ∀ (keys : Char → Bool) (time tl : ℝ) (i j : Nat) (s : Scene),
      s.MoveCell keys time tl i j ≠ .error .outOfFuel := by
    intro keys time tl i j s
    intro h
    simp only [MoveCell, bind_eq_error, pure, Except.pure] at h
    rcases h with h | ⟨_, _, h | ⟨_, _, h | ⟨_, _, h⟩⟩⟩
    · exact vecGet_ne_outOfFuel _ _ h
    · exact vecGet_ne_outOfFuel _ _ h
    · exact virtualMove_ne_outOfFuel _ _ _ _ _ _ h
    · split at h
      · simp only [bind_eq_error] at h
        rcases h with h | ⟨_, _, h | ⟨_, _, h | ⟨_, _, h⟩⟩⟩
        · exact ExplodeIfEnemy_ne_outOfFuel _ _ _ _ h
        · exact vecGet_ne_outOfFuel _ _ h
        · exact vecErase_ne_outOfFuel _ _ h
        · cases h
      · cases h
  have MoveCell_grid : ∀ {keys : Char → Bool} {time tl : ℝ} {i j : Nat} {s s' : Scene}
      (h : s.MoveCell keys time tl i j = .ok s'),
      s'.asteroid_objects.length = s.asteroid_objects.length ∧
        (s'.asteroid_objects.getD i []).length ≤ (s.asteroid_objects.getD i []).length := by
    intro keys time tl i j s s' h
    simp only [MoveCell, bind_eq_ok, pure, Except.pure] at h
    obtain ⟨row, hr, c, _, c1, _, h⟩ := h
    rw [vecGet_eq_ok] at hr
    have hi : i < s.asteroid_objects.length := by
      by_contra hc
      rw [List.getElem?_eq_none (Nat.le_of_not_lt hc)] at hr
      cases hr
    have hrow : s.asteroid_objects.getD i [] = row := by
      simp [List.getD, hr]
    split at h
    · simp only [bind_eq_ok] at h
      obtain ⟨s2, h2, row2, hr2, er, he, h3⟩ := h
      cases h3
      have hg := (ExplodeIfEnemy_objects h2).2
      simp only at hg
      rw [vecGet_eq_ok, hg] at hr2
      have hr2b : row2 = row.set j c1.DramaticExit.ShouldBeDeleted.2 := by
        rw [List.getElem?_set_self hi] at hr2
        exact (Option.some.inj hr2).symm
      obtain ⟨hj, rfl⟩ := vecErase_eq_ok.mp he
      have hi2 : i < s2.asteroid_objects.length := by rw [hg]; simpa using hi
      refine ⟨by simp [hg], ?_⟩
      rw [getD_set_self _ _ _ _ hi2, hrow, hr2b]
      simp only [List.length_eraseIdx, List.length_set]
      split <;> omega
    · cases h
      refine ⟨by simp, ?_⟩
      rw [getD_set_self _ _ _ _ hi, hrow]
      simp
  have MoveRow_rows : ∀ {keys : Char → Bool} {time tl : ℝ} {i : Nat},
      ∀ (fuel j : Nat) (s s' : Scene), MoveRow keys time tl i fuel j s = .ok s' →
        s'.asteroid_objects.length = s.asteroid_objects.length := by
    intro keys time tl i
    intro fuel
    induction fuel with
    | zero =>
      intro j s s' h
      simp only [MoveRow] at h
      split at h
      · cases h
      · cases h; rfl
    | succ fuel ih =>
      intro j s s' h
      simp only [MoveRow] at h
      split at h
      · simp only [bind_eq_ok] at h
        obtain ⟨s1, h1, h2⟩ := h
        rw [ih _ _ _ h2, (MoveCell_grid h1).1]
      · cases h; rfl
  have MoveRow_ne_outOfFuel : ∀ (keys : Char → Bool) (time tl : ℝ) (i : Nat),
      ∀ (fuel j : Nat) (s : Scene), (s.asteroid_objects.getD i []).length ≤ fuel + j →
        MoveRow keys time tl i fuel j s ≠ .error .outOfFuel := by
    intro keys time tl i
    intro fuel
    induction fuel with
    | zero =>
      intro j s hf
      simp only [MoveRow]
      rw [if_neg (by omega)]
      simp
    | succ fuel ih =>
      intro j s hf h
      simp only [MoveRow] at h
      split at h
      · simp only [bind_eq_error] at h
        rcases h with h | ⟨s1, h1, h⟩
        · exact MoveCell_ne_outOfFuel _ _ _ _ _ _ h
        · have := (MoveCell_grid h1).2
          exact ih (j + 1) s1 (by omega) h
      · cases h
  have MoveGrid_ne_outOfFuel : ∀ (keys : Char → Bool) (time tl : ℝ),
      ∀ (fuel i : Nat) (s : Scene), s.asteroid_objects.length ≤ fuel + i →
        MoveGrid keys time tl fuel i s ≠ .error .outOfFuel := by
    intro keys time tl
    intro fuel
    induction fuel with
    | zero =>
      intro i s hf
      simp only [MoveGrid]
      rw [if_neg (by omega)]
      simp
    | succ fuel ih =>
      intro i s hf h
      simp only [MoveGrid] at h
      split at h
      · simp only [bind_eq_error] at h
        rcases h with h | ⟨s1, h1, h⟩
        · exact MoveRow_ne_outOfFuel _ _ _ _ _ 0 s (by simp) h
        · have := MoveRow_rows _ _ _ _ h1
          exact ih (i + 1) s1 (by omega) h
      · cases h
  intro h
  simp only [Move, bind_eq_error] at h
  rcases h with h | ⟨s1, _, h⟩
  · exact MoveObjects_ne_outOfFuel _ _ _ _ 0 _ (by simp) h
  · exact MoveGrid_ne_outOfFuel _ _ _ _ 0 _ (by simp) h

/-- C1: from a scene whose four primary vectors have the same length, a
`Move` pass that returns, `Explode`, `placeBlackHole` and `removeBlackHole`
(which always return from such a scene) lead to a scene whose four primary
vectors have the same length again; and the removal they all use erases one
and the same index from `materials`, `geometries`, `meshes` and `objects`. -/
theorem lockstep_preserved (keys : Char → Bool) (s : Scene) (hl : s.Lockstep) :
    (∀ (time tl : ℝ) (s' : Scene), s.Move keys time tl = .ok s' → s'.Lockstep) ∧
    (∀ (p : vec2) (time tl : ℝ), ∃ s', s.Explode p time tl = .ok s' ∧ s'.Lockstep) ∧
    (∃ s', s.placeBlackHole = .ok s' ∧ s'.Lockstep) ∧
    (∃ s', s.removeBlackHole = .ok s' ∧ s'.Lockstep) ∧
    (∀ (i : Nat) (s' : Scene), s.eraseAt i = .ok s' →
      s'.materials = s.materials.eraseIdx i ∧ s'.geometries = s.geometries.eraseIdx i ∧
      s'.meshes = s.meshes.eraseIdx i ∧ s'.objects = s.objects.eraseIdx i ∧ s'.Lockstep) := by
  obtain ⟨Explode_eq, eraseAt_eq_ok, eraseAt_lockstep, -, -, -, Explode_lockstep, -, -, -, -,
      Move_lockstep, placeBlackHole_spec, removeBlackHole_lockstep⟩ := Scene.lockstep_steps
  refine ⟨fun time tl s' h => Move_lockstep hl h, fun p time tl => ?_, ?_,
    removeBlackHole_lockstep s hl, fun i s' h => ?_⟩
  · exact ⟨_, Explode_eq s hl p time tl, (Explode_lockstep hl (Explode_eq s hl p time tl)).1⟩
  · obtain ⟨s1, _, _, _, _, hp, hl1, _⟩ := placeBlackHole_spec s hl
    exact ⟨s1, hp, hl1⟩
  · have hl' := eraseAt_lockstep h hl
    obtain ⟨_, _, _, _, rfl⟩ := eraseAt_eq_ok.mp h
    exact ⟨rfl, rfl, rfl, rfl, hl'⟩

end Scene

/-! ## Explosions on removal (C3) -/

theorem eraseIdx_set_self {α : Type} (l : List α) (a : α) :
    ∀ i : Nat, (l.set i a).eraseIdx i = l.eraseIdx i := by
  induction l with
  | nil => intro i; rfl
  | cons x xs ih =>
    intro i
    cases i with
    | zero => rfl
    | succ i => simp [List.set, List.eraseIdx, ih]

theorem vecGet_lt {α : Type} {v : List α} {i : Nat} {a : α} (h : vecGet v i = .ok a) :
    i < v.length := by
  rw [vecGet_eq_ok] at h
  by_contra hc
  rw [List.getElem?_eq_none (Nat.le_of_not_lt hc)] at h
  cases h

theorem vecGet_set_self {α : Type} {v : List α} {i : Nat} {a b : α}
    (h : vecGet v i = .ok a) : vecGet (v.set i b) i = .ok b := by
  have hi := vecGet_lt h
  rw [vecGet_eq_ok]
  simp [hi]

theorem Entity.ShouldBeDeleted_snd (o : Entity) :
    o.ShouldBeDeleted.2.IsEnemy = o.IsEnemy ∧
      o.ShouldBeDeleted.2.GetLocation = o.GetLocation := by
  cases o <;> try exact ⟨rfl, rfl⟩
  simp only [Entity.ShouldBeDeleted, EnemyObject.ShouldBeDeleted, Entity.IsEnemy,
    EnemyObject.IsEnemy, Entity.GetLocation, Entity.toObject]
  split <;> exact ⟨rfl, rfl⟩

namespace Scene

theorem RemoveDeleted_of_deleted {time tl : ℝ} {i : Nat} {s : Scene} {o : Entity}
    (hl : s.Lockstep) (hg : vecGet s.objects i = .ok o) (hd : o.ShouldBeDeleted.1 = true) :
    ∃ s1 s', ({ s with objects := s.objects.set i o.ShouldBeDeleted.2 } : Scene).ExplodeIfEnemy
          o.ShouldBeDeleted.2 time tl = .ok s1 ∧
      s1.eraseAt i = .ok s' ∧ s.RemoveDeleted time tl i = .ok s' ∧
      s1.objects = s.objects.set i o.ShouldBeDeleted.2 ++
        (if o.IsEnemy = true then
          [Entity.ExplosionEffect (ExplodingObject.new
            { addr := s.nextAddr, shader := Shader.AnimatedTexturedShader,
              mesh := ⟨Geometry.TexturedQuad,
                Material.AnimatedTexturedMaterial Shader.AnimatedTexturedShader Texture.boom 6⟩,
              position := o.GetLocation, scaling := ⟨0.4, 0.4⟩, orientation := 0 } time tl)]
        else []) ∧
      s'.objects = s1.objects.eraseIdx i := by
  obtain ⟨Explode_eq, -, -, eraseAt_of_lockstep, -, -, Explode_lockstep, -, -, -, -, -, -, -⟩ :=
    Scene.lockstep_steps
  have hi := vecGet_lt hg
  have hl1 : ({ s with objects := s.objects.set i o.ShouldBeDeleted.2 } : Scene).Lockstep := by
    simpa [Lockstep] using hl
  obtain ⟨he, hloc⟩ := Entity.ShouldBeDeleted_snd o
  have hE : ∃ s1, ({ s with objects := s.objects.set i o.ShouldBeDeleted.2 } :
        Scene).ExplodeIfEnemy o.ShouldBeDeleted.2 time tl = .ok s1 ∧ s1.Lockstep ∧
      s1.objects = s.objects.set i o.ShouldBeDeleted.2 ++
        (if o.IsEnemy = true then
          [Entity.ExplosionEffect (ExplodingObject.new
            { addr := s.nextAddr, shader := Shader.AnimatedTexturedShader,
              mesh := ⟨Geometry.TexturedQuad,
                Material.AnimatedTexturedMaterial Shader.AnimatedTexturedShader Texture.boom 6⟩,
              position := o.GetLocation, scaling := ⟨0.4, 0.4⟩, orientation := 0 } time tl)]
        else []) := by
    unfold ExplodeIfEnemy
    rw [he, hloc]
    by_cases hen : o.IsEnemy = true
    · rw [if_pos hen, if_pos hen, Explode_eq _ hl1]
      exact ⟨_, rfl, (Explode_lockstep hl1 (Explode_eq _ hl1 _ _ _)).1, rfl⟩
    · rw [if_neg hen, if_neg hen]
      exact ⟨_, rfl, hl1, by simp⟩
  obtain ⟨s1, h1, hl2, ho1⟩ := hE
  have hi1 : i < s1.objects.length := by
    rw [ho1]; simp; omega
  refine ⟨s1, _, h1, eraseAt_of_lockstep hl2 hi1, ?_, ho1, rfl⟩
  simp only [RemoveDeleted, hg, bind, Except.bind, hd, if_true, vecGet_set_self hg, h1]
  exact eraseAt_of_lockstep hl2 hi1

theorem ExplodeIfEnemy_eq (s : Scene) (hl : s.Lockstep) (o : Entity) (time tl : ℝ) :
    ∃ s1, s.ExplodeIfEnemy o time tl = .ok s1 ∧ s1.Lockstep ∧
      s1.asteroid_objects = s.asteroid_objects ∧ s1.leaked = s.leaked ∧
      s1.objects = s.objects ++
        (if o.IsEnemy = true then
          [Entity.ExplosionEffect (ExplodingObject.new
            { addr := s.nextAddr, shader := Shader.AnimatedTexturedShader,
              mesh := ⟨Geometry.TexturedQuad,
                Material.AnimatedTexturedMaterial Shader.AnimatedTexturedShader Texture.boom 6⟩,
              position := o.GetLocation, scaling := ⟨0.4, 0.4⟩, orientation := 0 } time tl)]
        else []) := by
  obtain ⟨Explode_eq, -, -, -, -, -, Explode_lockstep, -, -, -, -, -, -, -⟩ := Scene.lockstep_steps
  unfold ExplodeIfEnemy
  by_cases hen : o.IsEnemy = true
  · rw [if_pos hen, if_pos hen, Explode_eq _ hl]
    exact ⟨_, rfl, (Explode_lockstep hl (Explode_eq _ hl _ _ _)).1, rfl, rfl, rfl⟩
  · rw [if_neg hen, if_neg hen]
    exact ⟨_, rfl, hl, rfl, rfl, by simp⟩

theorem MoveCell_of_deleted {keys : Char → Bool} {time tl : ℝ} {i j : Nat} {s : Scene}
    {row : List Entity} {c c1 : Entity} (hl : s.Lockstep)
    (hr : vecGet s.asteroid_objects i = .ok row) (hc : vecGet row j = .ok c)
    (hm : c.Move keys s.blackHolePlaced s.deref time tl = .ok c1)
    (hd : c1.DramaticExit.ShouldBeDeleted.1 = true) :
    ∃ s', s.MoveCell keys time tl i j = .ok s' ∧
      s'.asteroid_objects = s.asteroid_objects.set i (row.eraseIdx j) ∧
      s'.objects = s.objects ++
        (if c1.DramaticExit.IsEnemy = true then
          [Entity.ExplosionEffect (ExplodingObject.new
            { addr := s.nextAddr, shader := Shader.AnimatedTexturedShader,
              mesh := ⟨Geometry.TexturedQuad,
                Material.AnimatedTexturedMaterial Shader.AnimatedTexturedShader Texture.boom 6⟩,
              position := c1.DramaticExit.GetLocation, scaling := ⟨0.4, 0.4⟩,
              orientation := 0 } time tl)]
        else []) := by
  have hi := vecGet_lt hr
  have hj := vecGet_lt hc
  obtain ⟨he, hloc⟩ := Entity.ShouldBeDeleted_snd c1.DramaticExit
  have hl1 : ({ s with
      asteroid_objects := s.asteroid_objects.set i (row.set j c1.DramaticExit.ShouldBeDeleted.2) } :
      Scene).Lockstep := by
    simpa [Lockstep] using hl
  obtain ⟨s1, h1, _, hg1, _, ho1⟩ :=
    ExplodeIfEnemy_eq _ hl1 c1.DramaticExit.ShouldBeDeleted.2 time tl
  simp only at hg1 ho1
  have hr1 : vecGet s1.asteroid_objects i = .ok (row.set j c1.DramaticExit.ShouldBeDeleted.2) := by
    rw [hg1, vecGet_eq_ok]; simp [hi]
  have he1 : vecErase (row.set j c1.DramaticExit.ShouldBeDeleted.2) j = .ok (row.eraseIdx j) := by
    rw [vecErase_eq_ok]; exact ⟨by simpa using hj, (eraseIdx_set_self _ _ _).symm⟩
  have hmc : s.MoveCell keys time tl i j = .ok
      { s1 with asteroid_objects := s1.asteroid_objects.set i (row.eraseIdx j),
                leaked := s1.leaked ++ [c1.DramaticExit.ShouldBeDeleted.2] } := by
    simp only [MoveCell, hr, hc, hm, bind, Except.bind, hd, if_true, h1, hr1, he1, pure,
      Except.pure]
  refine ⟨_, hmc, ?_, ?_⟩
  · simp [hg1]
  · simp only [ho1, he, hloc]

/-- C3: when an iteration of the loop over `objects` finds
`objects[i]->ShouldBeDeleted()` true, or an iteration of the loop over the
asteroid grid finds it true for the cell it has just moved, the iteration
returns, erases that object, and appends to `objects` exactly one
`ExplodingObject` located at the erased object's position if `IsEnemy()` is
true for it, and nothing if `IsEnemy()` is false. -/
theorem removal_explodes_iff_enemy (keys : Char → Bool) (time tl : ℝ) (s : Scene)
    (hl : s.Lockstep) :
    (∀ (i : Nat) (o : Entity), vecGet s.objects i = .ok o → o.ShouldBeDeleted.1 = true →
      ∃ s', s.RemoveDeleted time tl i = .ok s' ∧
        (o.IsEnemy = true → ∃ x : ExplodingObject, x.position = o.GetLocation ∧
          s'.objects = s.objects.eraseIdx i ++ [Entity.ExplosionEffect x]) ∧
        (o.IsEnemy = false → s'.objects = s.objects.eraseIdx i)) ∧
    (∀ (i j : Nat) (row : List Entity) (c c1 : Entity),
      vecGet s.asteroid_objects i = .ok row → vecGet row j = .ok c →
      c.Move keys s.blackHolePlaced s.deref time tl = .ok c1 →
      c1.DramaticExit.ShouldBeDeleted.1 = true →
      ∃ s', s.MoveCell keys time tl i j = .ok s' ∧
        s'.asteroid_objects = s.asteroid_objects.set i (row.eraseIdx j) ∧
        (c1.DramaticExit.IsEnemy = true → ∃ x : ExplodingObject,
          x.position = c1.DramaticExit.GetLocation ∧
          s'.objects = s.objects ++ [Entity.ExplosionEffect x]) ∧
        (c1.DramaticExit.IsEnemy = false → s'.objects = s.objects)) := by
  constructor
  · intro i o hg hd
    have hi := vecGet_lt hg
    obtain ⟨s1, s', _, _, h3, ho1, ho2⟩ := RemoveDeleted_of_deleted hl hg hd
    refine ⟨s', h3, fun he => ?_, fun he => ?_⟩
    · rw [ho1, if_pos he,
        List.eraseIdx_append_of_lt_length (by simpa using hi), eraseIdx_set_self] at ho2
      refine ⟨_, ?_, ho2⟩
      rfl
    · rw [ho2, ho1, if_neg (by simp [he]), List.append_nil, eraseIdx_set_self]
  · intro i j row c c1 hr hc hm hd
    obtain ⟨s', h1, h2, h3⟩ := MoveCell_of_deleted hl hr hc hm hd
    refine ⟨s', h1, h2, fun he => ?_, fun he => ?_⟩
    · rw [if_pos he] at h3
      refine ⟨_, ?_, h3⟩
      rfl
    · rw [h3, if_neg (by simp [he]), List.append_nil]

/-- C3 at a scene with a hit seeker at index 1: the block erases it and
appends one explosion at its position. -/
theorem removal_explodes_iff_enemy_witness :
    Scene.hitSeeker.Lockstep ∧
    ∃ s', Scene.hitSeeker.RemoveDeleted (1 / 60) 2 1 = .ok s' ∧
      ∃ x : ExplodingObject, x.position = (seekerAt 3 ⟨0.05, -0.7⟩ true).GetLocation ∧
        s'.objects = Scene.hitSeeker.objects.eraseIdx 1 ++ [Entity.ExplosionEffect x] :=
  ⟨ofObjects_lockstep _ _ _ _,
    ((removal_explodes_iff_enemy noKeys (1 / 60) 2 Scene.hitSeeker
        (ofObjects_lockstep _ _ _ _)).1 1 (seekerAt 3 ⟨0.05, -0.7⟩ true) rfl rfl).imp
      fun _ h => ⟨h.1, h.2.1 rfl⟩⟩

end Scene

/-! ## Evaluating vector operations -/

theorem vec2.add_def (a b : vec2) : a + b = ⟨a.x + b.x, a.y + b.y⟩ := rfl

theorem vec2.sub_def (a b : vec2) : a - b = ⟨a.x - b.x, a.y - b.y⟩ := rfl

theorem vec2.mul_def (a : vec2) (s : ℝ) : a * s = ⟨a.x * s, a.y * s⟩ := rfl

theorem vec2.length_lt_iff (a : vec2) (r : ℝ) (hr : 0 < r) :
    a.length < r ↔ a.x * a.x + a.y * a.y < r * r := by
  unfold vec2.length
  rw [Real.sqrt_lt' hr, sq]

/-! ## A shot that hits (C4) -/

namespace Scene

end Scene

/-! ## Concrete passes (C1, C2, C4, C6) -/

namespace Scene

theorem spentProjectile_Move :
    Scene.spentProjectile.Move noKeys (1 / 60) 2 = .ok
      { Scene.spentProjectile with
        materials := [(quadMesh Texture.spaceship).material,
          (quadMesh Texture.fireball).material],
        geometries := [Geometry.TexturedQuad, Geometry.TexturedQuad],
        meshes := [quadMesh Texture.spaceship, quadMesh Texture.fireball],
        objects := [theAvatarMoved, fireballAt 5 ⟨0, -0.65⟩ ⟨0, -0.65⟩ ⟨0, 1⟩ 60 false],
        leaked := [projectileAt 4 0 (-0.65) (0.34 + 1 / 60 * 2) true],
        calls := [Call.Move 0, Call.Control 0, Call.Move 4, Call.Control 4] } := by
  norm_num [Scene.Move, AvatarObject.invMass, Scene.spentProjectile, Scene.ofObjects,
    Scene.MoveObjects, Scene.MoveBody, Scene.MoveControl, Scene.RemoveDeleted,
    Scene.RemoveExploded, Scene.ExplodeIfEnemy, vecGet, projectileAt, fireballAt, theAvatar,
    theAvatarMoved, theAvatarBase, Entity.Move, ProjectileObject.Move, AvatarObject.Move,
    AvatarObject.new, noKeys, Entity.Control, ProjectileObject.Control, Control.objectsLoop,
    Control.gridLoop, Entity.HitByProjectile, Entity.ShouldBeDeleted, Entity.addr,
    Entity.toObject, Scene.eraseAt, vecErase, Entity.IsEnemy, Entity.DoneExploding,
    Scene.MoveGrid, ProjectileObject.ShouldBeDeleted, bind, Except.bind, pure, Except.pure,
    quadMesh]

theorem shrunkAsteroid_Move :
    Scene.shrunkAsteroid.Move noKeys (1 / 60) 2 = .ok
      { Scene.shrunkAsteroid with
        objects := [theAvatarMoved],
        asteroid_objects := [[]],
        leaked := [dramaticAsteroidAt 4 ⟨-0.75, -0.4⟩ (0.01 - 0.0001) (114120 + 60) true],
        calls := [Call.Move 0, Call.Control 0] } := by
  norm_num [Scene.Move, AvatarObject.invMass, Scene.shrunkAsteroid, Scene.ofObjects,
    Scene.MoveObjects, Scene.MoveBody, Scene.MoveControl, Scene.RemoveDeleted,
    Scene.RemoveExploded, Scene.ExplodeIfEnemy, vecGet, dramaticAsteroidAt, theAvatar,
    theAvatarMoved, theAvatarBase, Entity.Move, AvatarObject.Move, EnemyObject.Move,
    Entity.GetLocation, AvatarObject.new, noKeys, Entity.Control, Entity.ShouldBeDeleted,
    EnemyObject.ShouldBeDeleted, Entity.addr, Entity.toObject, vecErase, Entity.IsEnemy,
    EnemyObject.IsEnemy, Entity.DoneExploding, Entity.DramaticExit, EnemyObject.DramaticExit,
    Scene.MoveGrid, Scene.MoveRow, Scene.MoveCell, bind, Except.bind, pure, Except.pure,
    quadMesh, vec2.sub_def]

/-- C1 at a pass that erases a spent projectile: the scene is in lockstep, the
pass returns, and the scene it returns is in lockstep. -/
theorem lockstep_preserved_witness :
    Scene.spentProjectile.Lockstep ∧
    ∃ s', Scene.spentProjectile.Move noKeys (1 / 60) 2 = .ok s' ∧ s'.Lockstep :=
  ⟨ofObjects_lockstep _ _ _ _, _, spentProjectile_Move,
    (lockstep_preserved noKeys Scene.spentProjectile (ofObjects_lockstep _ _ _ _)).1 _ _ _
      spentProjectile_Move⟩

/-- C2 fails on the code: in a pass over the avatar, a projectile about to
pass its range and a fireball just fired, the pass erases the projectile at
index 1 and goes on to index 2, so the fireball, which has moved to index 1,
gets neither `Move` nor `Control` and is found where it was. -/
theorem Move_skips_object_after_erased :
    ∃ s', Scene.spentProjectile.Move noKeys (1 / 60) 2 = .ok s' ∧
      Scene.spentProjectile.objects[2]? =
        some (fireballAt 5 ⟨0, -0.65⟩ ⟨0, -0.65⟩ ⟨0, 1⟩ 60 false) ∧
      s'.calls = [Call.Move 0, Call.Control 0, Call.Move 4, Call.Control 4] ∧
      s'.objects[1]? = some (fireballAt 5 ⟨0, -0.65⟩ ⟨0, -0.65⟩ ⟨0, 1⟩ 60 false) :=
  ⟨_, spentProjectile_Move, rfl, rfl, rfl⟩

/-- C6 fails on the code: a pass over a grid of one asteroid that its
dramatic exit has shrunk to the deletion threshold erases the cell, so the
grid has no cell left, while `asteroid_materials`, `asteroid_geometries` and
`asteroid_meshes`, which had one entry each for the one cell, keep it. -/
theorem grid_erase_keeps_asteroid_records :
    ∃ s', Scene.shrunkAsteroid.Move noKeys (1 / 60) 2 = .ok s' ∧
      Scene.shrunkAsteroid.asteroid_objects.flatten.length = 1 ∧
      Scene.shrunkAsteroid.asteroid_materials.length = 1 ∧
      Scene.shrunkAsteroid.asteroid_geometries.length = 1 ∧
      Scene.shrunkAsteroid.asteroid_meshes.length = 1 ∧
      s'.asteroid_objects.flatten.length = 0 ∧ s'.asteroid_materials.length = 1 ∧
      s'.asteroid_geometries.length = 1 ∧ s'.asteroid_meshes.length = 1 :=
  ⟨_, shrunkAsteroid_Move, rfl, rfl, rfl, rfl, rfl, rfl, rfl, rfl⟩

end Scene

/-! ## Projectile, fireball, heart and egg motion (C18, C19, C20) -/

/-- C19: `ProjectileObject::Move` leaves `x` unchanged and sets `y` to
`y + 2 * dt`; afterwards `deleted` is true if the new `y` is strictly greater
than the spawn `y` plus 1, and otherwise has the value it had before. -/
theorem Projectile_Move_spec (o : ProjectileObject) (dt time_lapsed : ℝ) :
    (o.Move dt time_lapsed).position.x = o.position.x ∧
    (o.Move dt time_lapsed).position.y = o.position.y + 2 * dt ∧
    (o.position.y + 2 * dt > o.init_position.y + 1 →
      (o.Move dt time_lapsed).deleted = true) ∧
    (¬ o.position.y + 2 * dt > o.init_position.y + 1 →
      (o.Move dt time_lapsed).deleted = o.deleted) := by
  have h2 : o.position.y + dt * 2 = o.position.y + 2 * dt := by ring
  unfold ProjectileObject.Move
  simp only [h2]
  by_cases h : o.position.y + 2 * dt > o.init_position.y + 1
  · simp [h]
  · simp [h]

/-- C20: `FireballObject::Move` sets `position` to `position + 2 * dt * n`,
`n` the path direction; afterwards `deleted` is true if the new position
differs from the spawn position by strictly more than 1.5 in `x` or in `y`,
and otherwise has the value it had before. -/
theorem Fireball_Move_spec (o : FireballObject) (dt time_lapsed : ℝ) :
    (o.Move dt time_lapsed).position =
      ⟨o.position.x + 2 * dt * o.norm_path.x, o.position.y + 2 * dt * o.norm_path.y⟩ ∧
    ((|o.position.x + 2 * dt * o.norm_path.x - o.init_position.x| > 1.5 ∨
        |o.position.y + 2 * dt * o.norm_path.y - o.init_position.y| > 1.5) →
      (o.Move dt time_lapsed).deleted = true) ∧
    (¬ (|o.position.x + 2 * dt * o.norm_path.x - o.init_position.x| > 1.5 ∨
        |o.position.y + 2 * dt * o.norm_path.y - o.init_position.y| > 1.5) →
      (o.Move dt time_lapsed).deleted = o.deleted) := by
  have hp : o.position + o.norm_path * dt * (2 : ℝ) =
      ⟨o.position.x + 2 * dt * o.norm_path.x, o.position.y + 2 * dt * o.norm_path.y⟩ := by
    rw [vec2.mul_def, vec2.mul_def, vec2.add_def]
    congr 1 <;> ring
  have hiff : (o.position.y + 2 * dt * o.norm_path.y > o.init_position.y + 1.5 ∨
      o.position.y + 2 * dt * o.norm_path.y < o.init_position.y - 1.5 ∨
      o.position.x + 2 * dt * o.norm_path.x > o.init_position.x + 1.5 ∨
      o.position.x + 2 * dt * o.norm_path.x < o.init_position.x - 1.5) ↔
      (|o.position.x + 2 * dt * o.norm_path.x - o.init_position.x| > 1.5 ∨
        |o.position.y + 2 * dt * o.norm_path.y - o.init_position.y| > 1.5) := by
    simp only [gt_iff_lt, lt_abs]
    constructor
    · rintro (h | h | h | h)
      · right; left; linarith
      · right; right; linarith
      · left; left; linarith
      · left; right; linarith
    · rintro ((h | h) | (h | h))
      · right; right; left; linarith
      · right; right; right; linarith
      · left; linarith
      · right; left; linarith
  unfold FireballObject.Move
  simp only [hp, hiff]
  by_cases h : |o.position.x + 2 * dt * o.norm_path.x - o.init_position.x| > 1.5 ∨
      |o.position.y + 2 * dt * o.norm_path.y - o.init_position.y| > 1.5
  · simp [h]
  · simp [h]

/-- C18: the position a heart or an egg has after `Move` is a function of the
elapsed-time argument alone: two objects of the same class, in any states and
moved with any two `dt`, end at the same position, which with
`t = time_lapsed / 2` is
`(16 sin^3 t / 15, (13 cos t - 5 cos 2t - 2 cos 3t - cos 4t) / 15)` for the
heart and `(cos 2t cos t, cos 2t sin t)` for the egg. -/
theorem heart_egg_position_of_time (time_lapsed : ℝ) :
    (∀ (o1 o2 : EnemyMovingHeartObject) (dt1 dt2 : ℝ),
      (o1.Move dt1 time_lapsed).position = (o2.Move dt2 time_lapsed).position ∧
      (o1.Move dt1 time_lapsed).position =
        ⟨16 * Real.sin (time_lapsed / 2) ^ 3 / 15,
         (13 * Real.cos (time_lapsed / 2) - 5 * Real.cos (2 * (time_lapsed / 2)) -
            2 * Real.cos (3 * (time_lapsed / 2)) - Real.cos (4 * (time_lapsed / 2))) / 15⟩) ∧
    (∀ (o1 o2 : EnemyMovingEggObject) (dt1 dt2 : ℝ),
      (o1.Move dt1 time_lapsed).position = (o2.Move dt2 time_lapsed).position ∧
      (o1.Move dt1 time_lapsed).position =
        ⟨Real.cos (2 * (time_lapsed / 2)) * Real.cos (time_lapsed / 2),
         Real.cos (2 * (time_lapsed / 2)) * Real.sin (time_lapsed / 2)⟩) := by
  constructor
  · intro o1 o2 dt1 dt2
    refine ⟨rfl, ?_⟩
    simp only [EnemyMovingHeartObject.Move]
    norm_num
  · intro o1 o2 dt1 dt2
    exact ⟨rfl, rfl⟩
/-! ## The avatar (C12, C13, C14) -/

theorem AvatarObject.Move_held (keys : Char → Bool) (o : AvatarObject) (dt tl : ℝ)
    (h : directionKeyHeld keys = true) :
    (o.Move keys dt tl).force = o.force + 2 * dt ∧
    (o.Move keys dt tl).velocity =
      o.velocity + (o.force + 2 * dt) * AvatarObject.invMass * dt := by
  unfold directionKeyHeld at h
  unfold AvatarObject.Move
  rw [if_pos h]
  dsimp only
  constructor <;> (split_ifs <;> rfl)

theorem AvatarObject.Move_released (keys : Char → Bool) (o : AvatarObject) (dt tl : ℝ)
    (h : directionKeyHeld keys = false) :
    (o.velocity - (o.force + 4 * dt) * AvatarObject.invMass * dt < 0.4 →
      (o.Move keys dt tl).velocity = 0.3 ∧ (o.Move keys dt tl).force = 1 ∧
      (o.Move keys dt tl).aPressed = false ∧ (o.Move keys dt tl).dPressed = false ∧
      (o.Move keys dt tl).wPressed = false ∧ (o.Move keys dt tl).sPressed = false) ∧
    (¬ o.velocity - (o.force + 4 * dt) * AvatarObject.invMass * dt < 0.4 →
      (o.Move keys dt tl).velocity = o.velocity - (o.force + 4 * dt) * AvatarObject.invMass * dt ∧
      (o.Move keys dt tl).force = o.force + 4 * dt) := by
  unfold directionKeyHeld at h
  unfold AvatarObject.Move
  rw [if_neg (by simp [h])]
  dsimp only
  constructor
  · intro hv
    rw [if_pos hv]
    exact ⟨rfl, rfl, rfl, rfl, rfl, rfl⟩
  · intro hv
    rw [if_neg hv]
    constructor <;> (split_ifs <;> rfl)
/-- C13: the rest state of the avatar (`velocity = 0.3`, `force = 1`, no
direction flag set) is a fixed point of `Move` when no direction key is held:
for every real `dt`, positive or not, `position`, `velocity`, `force` and the
four direction flags are after the call what they were before. -/
theorem Avatar_rest_fixed_point (o : AvatarObject) (keys : Char → Bool) (dt tl : ℝ)
    (hv : o.velocity = 0.3) (hf : o.force = 1)
    (ha : o.aPressed = false) (hd : o.dPressed = false) (hw : o.wPressed = false)
    (hs : o.sPressed = false) (hk : directionKeyHeld keys = false) :
    (o.Move keys dt tl).position = o.position ∧ (o.Move keys dt tl).velocity = o.velocity ∧
    (o.Move keys dt tl).force = o.force ∧ (o.Move keys dt tl).aPressed = o.aPressed ∧
    (o.Move keys dt tl).dPressed = o.dPressed ∧ (o.Move keys dt tl).wPressed = o.wPressed ∧
    (o.Move keys dt tl).sPressed = o.sPressed := by
  have hlt : (0.3 : ℝ) - (1 + 4 * dt) * AvatarObject.invMass * dt < 0.4 := by
    unfold AvatarObject.invMass
    nlinarith [sq_nonneg (dt + 1 / 8)]
  unfold directionKeyHeld at hk
  unfold AvatarObject.Move
  rw [if_neg (by simp [hk])]
  simp only [ha, hd, hw, hs, Bool.false_eq_true, if_false, hv, hf]
  rw [if_pos hlt]
  exact ⟨rfl, rfl, rfl, rfl, rfl, rfl, rfl⟩
theorem AvatarObject.Move_bounds (keys : Char → Bool) (o : AvatarObject) (dt tl : ℝ)
    (hv : 0.3 ≤ o.velocity) (hf : 1 ≤ o.force) (hdt : 0 ≤ dt) :
    0.3 ≤ (o.Move keys dt tl).velocity ∧ 1 ≤ (o.Move keys dt tl).force := by
  cases hk : directionKeyHeld keys with
  | true =>
    obtain ⟨h1, h2⟩ := AvatarObject.Move_held keys o dt tl hk
    rw [h1, h2]
    unfold AvatarObject.invMass
    have : 0 ≤ (o.force + 2 * dt) * 0.3 * dt := by positivity
    constructor <;> linarith
  | false =>
    obtain ⟨h1, h2⟩ := AvatarObject.Move_released keys o dt tl hk
    by_cases hlt : o.velocity - (o.force + 4 * dt) * AvatarObject.invMass * dt < 0.4
    · obtain ⟨e1, e2, _⟩ := h1 hlt
      rw [e1, e2]
      constructor <;> norm_num
    · obtain ⟨e1, e2⟩ := h2 hlt
      rw [e1, e2]
      constructor <;> linarith

theorem AvatarObject.Moves_bounds (steps : List ((Char → Bool) × ℝ × ℝ)) :
    ∀ o : AvatarObject, 0.3 ≤ o.velocity → 1 ≤ o.force → (∀ st ∈ steps, 0 ≤ st.2.1) →
      0.3 ≤ (o.Moves steps).velocity ∧ 1 ≤ (o.Moves steps).force := by
  induction steps with
  | nil => intro o hv hf _; exact ⟨hv, hf⟩
  | cons st rest ih =>
    intro o hv hf hdt
    obtain ⟨h1, h2⟩ := AvatarObject.Move_bounds st.1 o st.2.1 st.2.2 hv hf
      (hdt st (List.mem_cons_self _ _))
    exact ih _ h1 h2 (fun s hs => hdt s (List.mem_cons_of_mem _ hs))

/-- C12: from the state the constructor leaves (`velocity = 0.3`, `force = 1`),
after any run of `Move` calls with `dt ≥ 0` and any key states, `velocity ≥ 0.3`
and `force ≥ 1`; and a `Move` made then with no direction key held leaves
either `velocity ≥ 0.4`, or `velocity = 0.3`, `force = 1` and the four
direction flags cleared. -/
theorem Avatar_velocity_force_bounds (base : Object) (acc : ℝ)
    (steps : List ((Char → Bool) × ℝ × ℝ)) (hdt : ∀ st ∈ steps, 0 ≤ st.2.1) :
    0.3 ≤ ((AvatarObject.new base acc).Moves steps).velocity ∧
    1 ≤ ((AvatarObject.new base acc).Moves steps).force ∧
    ∀ (keys : Char → Bool) (dt tl : ℝ), directionKeyHeld keys = false →
      0.4 ≤ (((AvatarObject.new base acc).Moves steps).Move keys dt tl).velocity ∨
      ((((AvatarObject.new base acc).Moves steps).Move keys dt tl).velocity = 0.3 ∧
        (((AvatarObject.new base acc).Moves steps).Move keys dt tl).force = 1 ∧
        (((AvatarObject.new base acc).Moves steps).Move keys dt tl).aPressed = false ∧
        (((AvatarObject.new base acc).Moves steps).Move keys dt tl).dPressed = false ∧
        (((AvatarObject.new base acc).Moves steps).Move keys dt tl).wPressed = false ∧
        (((AvatarObject.new base acc).Moves steps).Move keys dt tl).sPressed = false) := by
  obtain ⟨h1, h2⟩ := AvatarObject.Moves_bounds steps (AvatarObject.new base acc)
    (by norm_num [AvatarObject.new]) (by norm_num [AvatarObject.new]) hdt
  refine ⟨h1, h2, fun keys dt tl hk => ?_⟩
  obtain ⟨r1, r2⟩ := AvatarObject.Move_released keys
    ((AvatarObject.new base acc).Moves steps) dt tl hk
  by_cases hlt : ((AvatarObject.new base acc).Moves steps).velocity -
      (((AvatarObject.new base acc).Moves steps).force + 4 * dt) * AvatarObject.invMass * dt < 0.4
  · exact Or.inr (r1 hlt)
  · left
    rw [(r2 hlt).1]
    exact not_lt.mp hlt

/-- C12 at a run of two calls of `dt = 1/60`, the first with `a` held, the
second with no key held. -/
theorem Avatar_velocity_force_bounds_witness :
    (∀ st ∈ [(onlyKeyA, ((1 : ℝ) / 60, (0 : ℝ))), (noKeys, ((1 : ℝ) / 60, (0 : ℝ)))],
      0 ≤ st.2.1) ∧
    0.3 ≤ ((AvatarObject.new theAvatarBase 0).Moves
      [(onlyKeyA, (1 / 60, 0)), (noKeys, (1 / 60, 0))]).velocity ∧
    1 ≤ ((AvatarObject.new theAvatarBase 0).Moves
      [(onlyKeyA, (1 / 60, 0)), (noKeys, (1 / 60, 0))]).force :=
  have h : ∀ st ∈ [(onlyKeyA, ((1 : ℝ) / 60, (0 : ℝ))), (noKeys, ((1 : ℝ) / 60, (0 : ℝ)))],
      0 ≤ st.2.1 := by
    intro st hst
    simp only [List.mem_cons, List.mem_singleton, List.not_mem_nil, or_false] at hst
    rcases hst with rfl | rfl <;> norm_num
  ⟨h, (Avatar_velocity_force_bounds theAvatarBase 0 _ h).1,
    (Avatar_velocity_force_bounds theAvatarBase 0 _ h).2.1⟩

/-- C13 at the avatar `Scene::Initialize` builds, with `dt = 1/60`. -/
theorem Avatar_rest_fixed_point_witness :
    directionKeyHeld noKeys = false ∧
    ((AvatarObject.new theAvatarBase 0).Move noKeys (1 / 60) 0).position =
      (AvatarObject.new theAvatarBase 0).position ∧
    ((AvatarObject.new theAvatarBase 0).Move noKeys (1 / 60) 0).velocity =
      (AvatarObject.new theAvatarBase 0).velocity ∧
    ((AvatarObject.new theAvatarBase 0).Move noKeys (1 / 60) 0).force =
      (AvatarObject.new theAvatarBase 0).force :=
  have h := Avatar_rest_fixed_point (AvatarObject.new theAvatarBase 0) noKeys (1 / 60) 0
    rfl rfl rfl rfl rfl rfl rfl
  ⟨rfl, h.1, h.2.1, h.2.2.1⟩

/-- C14, as stated, fails: from the constructor state, with `a` held and
`dt = 1/60`, the velocity after `Move` is not
`velocity + (force' / invMass) * dt`. -/
theorem Avatar_velocity_divides_counterexample :
    directionKeyHeld onlyKeyA = true ∧
    ((AvatarObject.new theAvatarBase 0).Move onlyKeyA (1 / 60) 0).velocity ≠
      (AvatarObject.new theAvatarBase 0).velocity +
        (((AvatarObject.new theAvatarBase 0).force + 2 * (1 / 60)) / AvatarObject.invMass) *
          (1 / 60) := by
  refine ⟨rfl, ?_⟩
  rw [(AvatarObject.Move_held onlyKeyA _ (1 / 60) 0 rfl).2]
  norm_num [AvatarObject.new, AvatarObject.invMass]

/-- C14, amended: a `Move` made while at least one of the keys `a`, `d`, `w`,
`s` is held sets `force` to `force + 2 * dt` and `velocity` to
`velocity + (force' * invMass) * dt`, where `force'` is the updated force and
`invMass = 0.3`. -/
theorem Avatar_Move_held_force_velocity (keys : Char → Bool) (o : AvatarObject) (dt tl : ℝ)
    (h : directionKeyHeld keys = true) :
    (o.Move keys dt tl).force = o.force + 2 * dt ∧
    (o.Move keys dt tl).velocity = o.velocity + ((o.force + 2 * dt) * AvatarObject.invMass) * dt ∧
    AvatarObject.invMass = 0.3 :=
  ⟨(AvatarObject.Move_held keys o dt tl h).1, (AvatarObject.Move_held keys o dt tl h).2, rfl⟩

/-- The amended C14 at the constructor state, with `a` held and `dt = 1/60`. -/
theorem Avatar_Move_held_force_velocity_witness :
    directionKeyHeld onlyKeyA = true ∧
    ((AvatarObject.new theAvatarBase 0).Move onlyKeyA (1 / 60) 0).force =
      (AvatarObject.new theAvatarBase 0).force + 2 * (1 / 60) ∧
    ((AvatarObject.new theAvatarBase 0).Move onlyKeyA (1 / 60) 0).velocity =
      (AvatarObject.new theAvatarBase 0).velocity +
        (((AvatarObject.new theAvatarBase 0).force + 2 * (1 / 60)) * AvatarObject.invMass) *
          (1 / 60) :=
  have h := Avatar_Move_held_force_velocity onlyKeyA (AvatarObject.new theAvatarBase 0)
    (1 / 60) 0 rfl
  ⟨rfl, h.1, h.2.1⟩

/-! ## The asteroid: scale and gravity (C11, C15, C16) -/

/-- The calls `Scene::Move` makes on an asteroid of the grid: what each of them
leaves unchanged, that the asteroid is not flagged for removal while its scale
stays at 0.01 or above, and its scale after a run of calls. -/
theorem EnemyObject.calls_steps :
    (∀ (b : Bool) (o : EnemyObject) (dt tl : ℝ),
      (o.Move b dt tl).scaling = o.scaling ∧ (o.Move b dt tl).deleted = o.deleted ∧
        (o.Move b dt tl).dramatic = o.dramatic) ∧
    (∀ (o : EnemyObject) (p : Entity),
      (o.HitByProjectile p).1.scaling = o.scaling ∧
        (o.HitByProjectile p).1.dramatic = o.dramatic ∧
        (¬ distance o.position p.GetLocation < 0.2 → (o.HitByProjectile p).1 = o)) ∧
    (∀ (o : EnemyObject),
      o.ShouldBeDeleted.2.scaling = o.scaling ∧ o.ShouldBeDeleted.2.dramatic = o.dramatic ∧
        (0.01 ≤ o.scaling.x → 0.01 ≤ o.scaling.y →
          o.ShouldBeDeleted.2 = o ∧ o.ShouldBeDeleted.1 = o.deleted)) ∧
    (∀ (o : EnemyObject),
      (o.dramatic = false → o.DramaticExit = o) ∧ o.DramaticExit.deleted = o.deleted ∧
        o.DramaticExit.dramatic = o.dramatic) ∧
    (∀ (cs : List AsteroidCall),
      ∀ o : EnemyObject, o.deleted = false → 0.01 ≤ o.scaling.x → 0.01 ≤ o.scaling.y →
        neverHit cs o → exitAfterSet cs = false →
        (o.dramatic = true → cs.any AsteroidCall.isDramaticExit = false) →
        (o.calls cs).ShouldBeDeleted.1 = false) ∧
    (∀ (cs : List AsteroidCall),
      ∀ o : EnemyObject, exitAfterSet cs = false →
        (o.dramatic = true → cs.any AsteroidCall.isDramaticExit = false) →
        (o.calls cs).scaling = o.scaling) := by
  have Move_frame : ∀ (b : Bool) (o : EnemyObject) (dt tl : ℝ),
      (o.Move b dt tl).scaling = o.scaling ∧ (o.Move b dt tl).deleted = o.deleted ∧
        (o.Move b dt tl).dramatic = o.dramatic := by
    intro b o dt tl
    unfold EnemyObject.Move
    split <;> exact ⟨rfl, rfl, rfl⟩
  have HitByProjectile_frame : ∀ (o : EnemyObject) (p : Entity),
      (o.HitByProjectile p).1.scaling = o.scaling ∧
        (o.HitByProjectile p).1.dramatic = o.dramatic ∧
        (¬ distance o.position p.GetLocation < 0.2 → (o.HitByProjectile p).1 = o) := by
    intro o p
    simp only [EnemyObject.HitByProjectile, vec2.length_sub]
    split
    · exact ⟨rfl, rfl, fun h => absurd ‹_› h⟩
    · exact ⟨rfl, rfl, fun _ => rfl⟩
  have ShouldBeDeleted_frame : ∀ (o : EnemyObject),
      o.ShouldBeDeleted.2.scaling = o.scaling ∧ o.ShouldBeDeleted.2.dramatic = o.dramatic ∧
        (0.01 ≤ o.scaling.x → 0.01 ≤ o.scaling.y →
          o.ShouldBeDeleted.2 = o ∧ o.ShouldBeDeleted.1 = o.deleted) := by
    intro o
    unfold EnemyObject.ShouldBeDeleted
    dsimp only
    split
    · rename_i h
      refine ⟨rfl, rfl, fun hx hy => ?_⟩
      rcases h with h | h
      · exact absurd hx (not_le.mpr h)
      · exact absurd hy (not_le.mpr h)
    · exact ⟨rfl, rfl, fun _ _ => ⟨rfl, rfl⟩⟩
  have DramaticExit_frame : ∀ (o : EnemyObject),
      (o.dramatic = false → o.DramaticExit = o) ∧ o.DramaticExit.deleted = o.deleted ∧
        o.DramaticExit.dramatic = o.dramatic := by
    intro o
    unfold EnemyObject.DramaticExit
    split
    · rename_i h
      exact ⟨fun h' => (by rw [h'] at h; cases h), rfl, rfl⟩
    · exact ⟨fun _ => rfl, rfl, rfl⟩
  have exitAfterSet_tail : ∀ (c : AsteroidCall) (cs : List AsteroidCall)
      (h : exitAfterSet (c :: cs) = false),
      exitAfterSet cs = false := by
    intro c cs h
    cases c <;> first
      | exact h
      | (simp only [exitAfterSet, Bool.or_eq_false_iff] at h; exact h.2)
  have calls_not_deleted : ∀ (cs : List AsteroidCall),
      ∀ o : EnemyObject, o.deleted = false → 0.01 ≤ o.scaling.x → 0.01 ≤ o.scaling.y →
        neverHit cs o → exitAfterSet cs = false →
        (o.dramatic = true → cs.any AsteroidCall.isDramaticExit = false) →
        (o.calls cs).ShouldBeDeleted.1 = false := by
    intro cs
    induction cs with
    | nil =>
      intro o hd hx hy _ _ _
      show o.ShouldBeDeleted.1 = false
      rw [((ShouldBeDeleted_frame o).2.2 hx hy).2, hd]
    | cons c cs ih =>
      intro o hd hx hy hn he hdr
      have he' := exitAfterSet_tail c cs he
      show ((c.apply o).calls cs).ShouldBeDeleted.1 = false
      cases c with
      | Move b dt tl =>
        obtain ⟨f1, f2, f3⟩ := Move_frame b o dt tl
        refine ih _ (by rw [AsteroidCall.apply, f2, hd]) (by rw [AsteroidCall.apply, f1]; exact hx)
          (by rw [AsteroidCall.apply, f1]; exact hy) hn he' (fun h => ?_)
        rw [AsteroidCall.apply, f3] at h
        have := hdr h
        simp only [List.any_cons, Bool.or_eq_false_iff] at this
        exact this.2
      | HitByProjectile p =>
        obtain ⟨hmiss, hn'⟩ := hn
        have hsame := (HitByProjectile_frame o p).2.2 hmiss
        simp only [AsteroidCall.apply] at hn' ⊢
        rw [hsame] at hn' ⊢
        refine ih o hd hx hy hn' he' (fun h => ?_)
        have := hdr h
        simp only [List.any_cons, Bool.or_eq_false_iff] at this
        exact this.2
      | ShouldBeDeleted =>
        have hsame := ((ShouldBeDeleted_frame o).2.2 hx hy).1
        have hn' : neverHit cs (AsteroidCall.ShouldBeDeleted.apply o) := hn
        simp only [AsteroidCall.apply] at hn' ⊢
        rw [hsame] at hn' ⊢
        refine ih o hd hx hy hn' he' (fun h => ?_)
        have := hdr h
        simp only [List.any_cons, Bool.or_eq_false_iff] at this
        exact this.2
      | SetDramatic =>
        simp only [exitAfterSet, Bool.or_eq_false_iff] at he
        exact ih _ hd hx hy hn he' (fun _ => he.1)
      | DramaticExit =>
        have hnd : o.dramatic = false := by
          cases hdram : o.dramatic with
          | false => rfl
          | true =>
            have := hdr hdram
            simp [AsteroidCall.isDramaticExit] at this
        have hsame := (DramaticExit_frame o).1 hnd
        have hn' : neverHit cs (AsteroidCall.DramaticExit.apply o) := hn
        simp only [AsteroidCall.apply] at hn' ⊢
        rw [hsame] at hn' ⊢
        refine ih o hd hx hy hn' he' (fun h => ?_)
        rw [hnd] at h
        cases h
  have any_tail_false : ∀ (c : AsteroidCall) (cs : List AsteroidCall)
      (h : (c :: cs).any AsteroidCall.isDramaticExit = false),
      cs.any AsteroidCall.isDramaticExit = false := by
    intro c cs h
    simp only [List.any_cons, Bool.or_eq_false_iff] at h
    exact h.2
  have calls_scaling : ∀ (cs : List AsteroidCall),
      ∀ o : EnemyObject, exitAfterSet cs = false →
        (o.dramatic = true → cs.any AsteroidCall.isDramaticExit = false) →
        (o.calls cs).scaling = o.scaling := by
    intro cs
    induction cs with
    | nil => intro o _ _; rfl
    | cons c cs ih =>
      intro o he hdr
      have he' := exitAfterSet_tail c cs he
      show ((c.apply o).calls cs).scaling = o.scaling
      cases c with
      | Move b dt tl =>
        obtain ⟨f1, _, f3⟩ := Move_frame b o dt tl
        rw [ih _ he' (fun h => any_tail_false _ _ (hdr (by rw [← f3]; exact h)))]
        exact f1
      | HitByProjectile p =>
        obtain ⟨f1, f3, _⟩ := HitByProjectile_frame o p
        rw [ih _ he' (fun h => any_tail_false _ _ (hdr (by rw [← f3]; exact h)))]
        exact f1
      | ShouldBeDeleted =>
        obtain ⟨f1, f3, _⟩ := ShouldBeDeleted_frame o
        rw [ih _ he' (fun h => any_tail_false _ _ (hdr (by rw [← f3]; exact h)))]
        exact f1
      | SetDramatic =>
        simp only [exitAfterSet, Bool.or_eq_false_iff] at he
        rw [ih _ he' (fun _ => he.1)]
        rfl
      | DramaticExit =>
        have hnd : o.dramatic = false := by
          cases hdram : o.dramatic with
          | false => rfl
          | true =>
            have := hdr hdram
            simp [AsteroidCall.isDramaticExit] at this
        have hsame := (DramaticExit_frame o).1 hnd
        simp only [AsteroidCall.apply]
        rw [hsame]
        exact ih o he' (fun h => by rw [hnd] at h; cases h)
  exact ⟨@Move_frame, @HitByProjectile_frame, @ShouldBeDeleted_frame, @DramaticExit_frame,
    @calls_not_deleted, @calls_scaling⟩

/-- C11: on an asteroid, `Move`, `HitByProjectile`, `ShouldBeDeleted` and
`SetDramatic` leave `scaling` as it is, and so does `DramaticExit` unless
`dramatic` is set, which only `SetDramatic` does: in a run of calls with no
`DramaticExit` after a `SetDramatic` the scale stays the one the asteroid was
created with; hence an asteroid created with both scale components at least
0.01 and never hit by a projectile answers `ShouldBeDeleted` with false after
every such run. -/
theorem asteroid_scaling_until_dramatic_exit :
    (∀ (o : EnemyObject) (b : Bool) (dt tl : ℝ), (o.Move b dt tl).scaling = o.scaling) ∧
    (∀ (o : EnemyObject) (p : Entity), (o.HitByProjectile p).1.scaling = o.scaling) ∧
    (∀ o : EnemyObject, o.ShouldBeDeleted.2.scaling = o.scaling) ∧
    (∀ o : EnemyObject, o.SetDramatic.scaling = o.scaling) ∧
    (∀ o : EnemyObject, o.dramatic = false → o.DramaticExit.scaling = o.scaling) ∧
    (∀ (base : Object) (cs : List AsteroidCall), exitAfterSet cs = false →
      ((EnemyObject.new base).calls cs).scaling = base.scaling) ∧
    (∀ (base : Object) (cs : List AsteroidCall),
      0.01 ≤ base.scaling.x → 0.01 ≤ base.scaling.y →
      neverHit cs (EnemyObject.new base) → exitAfterSet cs = false →
      ((EnemyObject.new base).calls cs).ShouldBeDeleted.1 = false) := by
  obtain ⟨Move_frame, HitByProjectile_frame, ShouldBeDeleted_frame, DramaticExit_frame,
      calls_not_deleted, calls_scaling⟩ := EnemyObject.calls_steps
  refine ⟨fun o b dt tl => (Move_frame b o dt tl).1,
    fun o p => (HitByProjectile_frame o p).1,
    fun o => (ShouldBeDeleted_frame o).1, fun _ => rfl,
    fun o h => by rw [(DramaticExit_frame o).1 h],
    fun base cs he => ?_, fun base cs hx hy hn he => ?_⟩
  · exact calls_scaling cs (EnemyObject.new base) he (fun h => by cases h)
  · exact calls_not_deleted cs (EnemyObject.new base) rfl hx hy hn he
      (fun h => by cases h)

theorem path_length_ne_zero (p : vec2) (h : p ≠ blackHolePos) :
    (blackHolePos - p).length ≠ 0 := by
  have length_eq_zero_iff : ∀ (a : vec2),
      a.length = 0 ↔ a.x = 0 ∧ a.y = 0 := by
    intro a
    unfold vec2.length
    rw [Real.sqrt_eq_zero (add_nonneg (mul_self_nonneg _) (mul_self_nonneg _))]
    constructor
    · intro h
      constructor <;> nlinarith [mul_self_nonneg a.x, mul_self_nonneg a.y]
    · rintro ⟨hx, hy⟩
      rw [hx, hy]; ring
  intro h0
  rw [length_eq_zero_iff, vec2.sub_def] at h0
  apply h
  obtain ⟨hx, hy⟩ := h0
  cases p with
  | mk x y =>
    simp only at hx hy
    have e1 : x = blackHolePos.x := by linarith
    have e2 : y = blackHolePos.y := by linarith
    rw [e1, e2]

/-- C15: `EnemyObject::Move` changes nothing while no black hole is placed;
with one placed and the asteroid not at `blackHolePos`, the force
`9.81 * ((m1 * m2) / r * r)` with `m1 = 40`, `m2 = 0.5` and
`r = 100 * distance` is 196.2 whatever the distance (`r` is not 0), so the call
raises `velocity` by exactly `392.4 * dt`. -/
theorem asteroid_gravity_constant :
    (∀ (o : EnemyObject) (dt tl : ℝ), o.Move false dt tl = o) ∧
    (∀ r : ℝ, r ≠ 0 → 9.81 * ((40 * 0.5) / r * r) = 196.2) ∧
    (∀ o : EnemyObject, o.position ≠ blackHolePos →
      distance blackHolePos o.position * 100 ≠ 0) ∧
    (∀ (o : EnemyObject) (dt tl : ℝ), o.position ≠ blackHolePos →
      (o.Move true dt tl).velocity = o.velocity + 392.4 * dt) := by
  refine ⟨fun o dt tl => rfl, fun r hr => ?_, fun o h => ?_, fun o dt tl h => ?_⟩
  · field_simp
    norm_num
  · rw [← vec2.length_sub]
    exact mul_ne_zero (path_length_ne_zero _ h) (by norm_num)
  · have hr : (blackHolePos - o.position).length * 100 ≠ 0 :=
      mul_ne_zero (path_length_ne_zero _ h) (by norm_num)
    simp only [EnemyObject.Move, if_true]
    rw [div_mul_cancel₀ _ hr]
    norm_num

/-! ## The seeker (C17) -/

theorem abs_le_distance (a b : vec2) :
    |a.x - b.x| ≤ distance a b ∧ |a.y - b.y| ≤ distance a b := by
  unfold distance
  constructor
  · exact Real.abs_le_sqrt (by nlinarith [sq_nonneg (a.y - b.y)])
  · exact Real.abs_le_sqrt (by nlinarith [sq_nonneg (a.x - b.x)])

/-- C17, as stated, fails: a seeker at `(0, 0)` whose target is at
`(0.08, 0.08)` is at Euclidean distance above 0.1 from it, and `Move` leaves its
position unchanged. -/
theorem Seeker_euclidean_deadband_counterexample :
    distance ⟨0.08, 0.08⟩ (seekerObjectAt 3 ⟨0, 0⟩ false).position > 0.1 ∧
    ((seekerObjectAt 3 ⟨0, 0⟩ false).Move ⟨0.08, 0.08⟩ (1 / 60) 0).position =
      (seekerObjectAt 3 ⟨0, 0⟩ false).position := by
  constructor
  · unfold distance
    rw [gt_iff_lt, Real.lt_sqrt (by norm_num)]
    norm_num [seekerObjectAt]
  · have h : ¬ (|(0.08 : ℝ) - 0| > 0.1 ∨ |(0.08 : ℝ) - 0| > 0.1) := by
      norm_num [abs_of_nonneg]
    simp only [SeekerObject.Move, seekerObjectAt, vec2.sub_def, h, if_false]

/-- C17, amended: `SeekerObject::Move` moves the seeker exactly when
`|dx| > 0.1` or `|dy| > 0.1`, `(dx, dy)` being the target's location minus the
seeker's position (the Euclidean distance is then above 0.1 as well), and then
sets `position` to `position + 0.4 * dt * u`, `u` the vector `(dx, dy)` divided
by its length; otherwise the seeker, position and orientation included, is
left as it was. -/
theorem Seeker_Move_box_deadband (target : vec2) (o : SeekerObject) (dt tl : ℝ) :
    ((|target.x - o.position.x| > 0.1 ∨ |target.y - o.position.y| > 0.1) →
      distance target o.position > 0.1 ∧
      (o.Move target dt tl).position =
        ⟨o.position.x + 0.4 * dt * ((target.x - o.position.x) / distance target o.position),
         o.position.y + 0.4 * dt * ((target.y - o.position.y) / distance target o.position)⟩) ∧
    (¬ (|target.x - o.position.x| > 0.1 ∨ |target.y - o.position.y| > 0.1) →
      o.Move target dt tl = o) := by
  constructor
  · intro h
    constructor
    · obtain ⟨hx, hy⟩ := abs_le_distance target o.position
      rcases h with h | h
      · exact lt_of_lt_of_le h hx
      · exact lt_of_lt_of_le h hy
    · have h' : |(target - o.position).x| > 0.1 ∨ |(target - o.position).y| > 0.1 := h
      simp only [SeekerObject.Move, h', if_true, vec2.length_sub]
      simp only [vec2.sub_def, vec2.mul_def, vec2.add_def]
      congr 1 <;> ring
  · intro h
    have h' : ¬ (|(target - o.position).x| > 0.1 ∨ |(target - o.position).y| > 0.1) := h
    simp only [SeekerObject.Move, h', if_false]

/-! ## Falling into the black hole (C16) -/

/-- The fall of an asteroid towards the black hole: every `Move` keeps it on the
ray from its start through the hole, at the distance `fallen` gives, which
decreases over the first 57 calls. -/
theorem EnemyObject.fall_steps :
    (∀ (v0 dt : ℝ) (_ : 0 < v0) (_ : 0 < dt) (n : Nat),
      fallen v0 dt n < fallen v0 dt (n + 1)) ∧
    (∀ (v0 dt : ℝ) (_ : 0 < v0) (_ : 0 < dt) {k n : Nat} (_ : k ≤ n),
      fallen v0 dt k ≤ fallen v0 dt n) ∧
    (∀ (o : EnemyObject) (_ : o.position ≠ blackHolePos)
      (dt : ℝ) (n : Nat)
      (_ : ∀ k, k < n → fallen o.velocity dt k < distance o.position blackHolePos),
      distance (EnemyObject.Moves dt n o).position blackHolePos =
        |distance o.position blackHolePos - fallen o.velocity dt n|) ∧
    (∀ (i j : Nat) (_ : i < 6) (_ : j < 6) (t : Texture) (angle : ℝ),
      fallen 0.0001 (1 / 60) 57 <
        distance (Scene.InitializeCell i j t angle).position blackHolePos) ∧
    (∀ (i j : Nat) (_ : i < 6) (_ : j < 6) (t : Texture)
      (angle : ℝ),
      (Scene.InitializeCell i j t angle).position ≠ blackHolePos) := by
  have Move_on_ray : ∀ (u : vec2) (hu : u.x * u.x + u.y * u.y = 1) (d : ℝ)
      (hd : 0 < d) (o : EnemyObject)
      (hp : o.position = ⟨blackHolePos.x - u.x * d, blackHolePos.y - u.y * d⟩) (dt tl : ℝ),
      (o.Move true dt tl).velocity = o.velocity + 392.4 * dt ∧
      (o.Move true dt tl).position =
        ⟨blackHolePos.x - u.x * (d - (o.velocity + 392.4 * dt) * (dt / 1000)),
         blackHolePos.y - u.y * (d - (o.velocity + 392.4 * dt) * (dt / 1000))⟩ := by
    intro u hu d hd o hp dt tl
    have hpath : blackHolePos - o.position = ⟨u.x * d, u.y * d⟩ := by
      rw [hp, vec2.sub_def]
      congr 1 <;> ring
    have hlen : (blackHolePos - o.position).length = d := by
      rw [hpath]
      unfold vec2.length
      have : u.x * d * (u.x * d) + u.y * d * (u.y * d) = d ^ 2 := by
        have : u.x * d * (u.x * d) + u.y * d * (u.y * d) = (u.x * u.x + u.y * u.y) * d ^ 2 := by
          ring
        rw [this, hu, one_mul]
      rw [this, Real.sqrt_sq hd.le]
    have hd0 : d ≠ 0 := ne_of_gt hd
    have hr : d * 100 ≠ 0 := mul_ne_zero hd0 (by norm_num)
    simp only [EnemyObject.Move, if_true, hlen]
    rw [div_mul_cancel₀ _ hr, hpath]
    simp only [vec2.add_def, vec2.mul_def, hp]
    constructor
    · norm_num
    · congr 1
      · field_simp
        ring
      · field_simp
        ring
  have distance_on_ray : ∀ (u : vec2) (hu : u.x * u.x + u.y * u.y = 1) (d : ℝ),
      distance ⟨blackHolePos.x - u.x * d, blackHolePos.y - u.y * d⟩ blackHolePos = |d| := by
    intro u hu d
    unfold distance
    have : (blackHolePos.x - u.x * d - blackHolePos.x) ^ 2 +
        (blackHolePos.y - u.y * d - blackHolePos.y) ^ 2 = d ^ 2 := by
      have : (blackHolePos.x - u.x * d - blackHolePos.x) ^ 2 +
          (blackHolePos.y - u.y * d - blackHolePos.y) ^ 2 = (u.x * u.x + u.y * u.y) * d ^ 2 := by
        ring
      rw [this, hu, one_mul]
    rw [this, Real.sqrt_sq_eq_abs]
  have fallen_zero : ∀ (v0 dt : ℝ),
      fallen v0 dt 0 = 0 := by
    intro v0 dt
    simp [fallen]
  have fallen_succ : ∀ (v0 dt : ℝ) (n : Nat),
      fallen v0 dt (n + 1) = fallen v0 dt n + (v0 + 392.4 * dt * n + 392.4 * dt) * (dt / 1000) := by
    intro v0 dt n
    unfold fallen
    push_cast
    ring
  have fallen_lt_succ : ∀ (v0 dt : ℝ) (hv : 0 < v0) (hdt : 0 < dt) (n : Nat),
      fallen v0 dt n < fallen v0 dt (n + 1) := by
    intro v0 dt hv hdt n
    rw [fallen_succ]
    have h1 : 0 < (v0 + 392.4 * dt * n + 392.4 * dt) * (dt / 1000) := by positivity
    linarith
  have fallen_mono : ∀ (v0 dt : ℝ) (hv : 0 < v0) (hdt : 0 < dt) {k n : Nat} (h : k ≤ n),
      fallen v0 dt k ≤ fallen v0 dt n := by
    intro v0 dt hv hdt k n h
    induction n with
    | zero =>
      have : k = 0 := by omega
      rw [this]
    | succ n ih =>
      rcases Nat.lt_or_ge k (n + 1) with hk | hk
      · exact le_trans (ih (by omega)) (le_of_lt (fallen_lt_succ v0 dt hv hdt n))
      · have : k = n + 1 := by omega
        rw [this]
  have Moves_on_ray : ∀ (u : vec2) (hu : u.x * u.x + u.y * u.y = 1) (d0 dt : ℝ)
      (o : EnemyObject)
      (hp : o.position = ⟨blackHolePos.x - u.x * d0, blackHolePos.y - u.y * d0⟩),
      ∀ n : Nat, (∀ k, k < n → fallen o.velocity dt k < d0) →
        (EnemyObject.Moves dt n o).velocity = o.velocity + 392.4 * dt * n ∧
        (EnemyObject.Moves dt n o).position =
          ⟨blackHolePos.x - u.x * (d0 - fallen o.velocity dt n),
           blackHolePos.y - u.y * (d0 - fallen o.velocity dt n)⟩ := by
    intro u hu d0 dt o hp
    intro n
    induction n with
    | zero =>
      intro _
      simp only [EnemyObject.Moves, fallen_zero, sub_zero, Nat.cast_zero, mul_zero, add_zero]
      exact ⟨trivial, hp⟩
    | succ n ih =>
      intro hk
      obtain ⟨hv, hpos⟩ := ih (fun k hkn => hk k (by omega))
      have hd : 0 < d0 - fallen o.velocity dt n := by
        have := hk n (by omega)
        linarith
      obtain ⟨s1, s2⟩ := Move_on_ray u hu _ hd (EnemyObject.Moves dt n o) hpos dt 0
      show ((EnemyObject.Moves dt n o).Move true dt 0).velocity = _ ∧
        ((EnemyObject.Moves dt n o).Move true dt 0).position = _
      rw [s1, s2, hv, fallen_succ]
      constructor
      · push_cast; ring
      · congr 1 <;> ring
  have distance_blackHole_pos : ∀ (p : vec2) (h : p ≠ blackHolePos),
      0 < distance p blackHolePos := by
    intro p h
    have h1 : distance p blackHolePos = (blackHolePos - p).length := by
      unfold distance vec2.length
      rw [vec2.sub_def]
      congr 1
      ring
    rw [h1]
    exact lt_of_le_of_ne (Real.sqrt_nonneg _) (Ne.symm (path_length_ne_zero p h))
  have Moves_distance : ∀ (o : EnemyObject) (hne : o.position ≠ blackHolePos)
      (dt : ℝ) (n : Nat)
      (h : ∀ k, k < n → fallen o.velocity dt k < distance o.position blackHolePos),
      distance (EnemyObject.Moves dt n o).position blackHolePos =
        |distance o.position blackHolePos - fallen o.velocity dt n| := by
    intro o hne dt n h
    have hd := distance_blackHole_pos o.position hne
    have hd0 : distance o.position blackHolePos ≠ 0 := ne_of_gt hd
    have hsq : distance o.position blackHolePos ^ 2 =
        (o.position.x - blackHolePos.x) ^ 2 + (o.position.y - blackHolePos.y) ^ 2 := by
      unfold distance
      rw [Real.sq_sqrt (by positivity)]
    have hu : ((blackHolePos.x - o.position.x) / distance o.position blackHolePos) *
        ((blackHolePos.x - o.position.x) / distance o.position blackHolePos) +
        ((blackHolePos.y - o.position.y) / distance o.position blackHolePos) *
        ((blackHolePos.y - o.position.y) / distance o.position blackHolePos) = 1 := by
      field_simp
      nlinarith [hsq]
    have hp : o.position =
        ⟨blackHolePos.x - ((blackHolePos.x - o.position.x) / distance o.position blackHolePos) *
            distance o.position blackHolePos,
         blackHolePos.y - ((blackHolePos.y - o.position.y) / distance o.position blackHolePos) *
            distance o.position blackHolePos⟩ := by
      rw [div_mul_cancel₀ _ hd0, div_mul_cancel₀ _ hd0]
      cases hq : o.position with
      | mk x y => simp
    obtain ⟨_, hpos⟩ := Moves_on_ray
      ⟨(blackHolePos.x - o.position.x) / distance o.position blackHolePos,
       (blackHolePos.y - o.position.y) / distance o.position blackHolePos⟩ hu _ dt o hp n h
    rw [hpos]
    exact distance_on_ray _ hu _
  have InitializeCell_distance_sq : ∀ (i j : Nat) (hi : i < 6) (hj : j < 6) (t : Texture)
      (angle : ℝ),
      0.0325 ≤ distance (Scene.InitializeCell i j t angle).position blackHolePos ^ 2 := by
    intro i j hi hj t angle
    unfold distance
    rw [Real.sq_sqrt (by positivity)]
    interval_cases i <;> interval_cases j <;>
      norm_num [Scene.InitializeCell, EnemyObject.new, blackHolePos]
  have fallen_57_sq :
      fallen 0.0001 (1 / 60) 57 ^ 2 < 0.0325 := by
    norm_num [fallen]
  have fallen_57_lt : ∀ (i j : Nat) (hi : i < 6) (hj : j < 6) (t : Texture) (angle : ℝ),
      fallen 0.0001 (1 / 60) 57 <
        distance (Scene.InitializeCell i j t angle).position blackHolePos := by
    intro i j hi hj t angle
    have h1 := InitializeCell_distance_sq i j hi hj t angle
    have h2 := fallen_57_sq
    have h3 : 0 ≤ distance (Scene.InitializeCell i j t angle).position blackHolePos :=
      Real.sqrt_nonneg _
    nlinarith
  have InitializeCell_ne_blackHole : ∀ (i j : Nat) (hi : i < 6) (hj : j < 6) (t : Texture)
      (angle : ℝ),
      (Scene.InitializeCell i j t angle).position ≠ blackHolePos := by
    intro i j hi hj t angle
    intro h
    have h1 := InitializeCell_distance_sq i j hi hj t angle
    rw [h] at h1
    norm_num [distance] at h1
  exact ⟨@fallen_lt_succ, @fallen_mono, @Moves_distance, @fallen_57_lt,
    @InitializeCell_ne_blackHole⟩

/-- C16 fails as stated: the asteroid of grid cell `i = 3`, `j = 3`, which
starts at (0.15, 0.5), has passed the black hole on the 58th call of `Move`
with frame step 1/60, and is then further from it than after the 57th. -/
theorem asteroid_overshoots_counterexample :
    distance (EnemyObject.Moves (1 / 60) 57
        (Scene.InitializeCell 3 3 Texture.asteroid 0)).position blackHolePos <
      distance (EnemyObject.Moves (1 / 60) 58
        (Scene.InitializeCell 3 3 Texture.asteroid 0)).position blackHolePos := by
  obtain ⟨-, fallen_mono, Moves_distance, fallen_57_lt, InitializeCell_ne_blackHole⟩ :=
    EnemyObject.fall_steps
  have hne := InitializeCell_ne_blackHole 3 3 (by norm_num) (by norm_num) Texture.asteroid 0
  have h57 := fallen_57_lt 3 3 (by norm_num) (by norm_num) Texture.asteroid 0
  have hv : (Scene.InitializeCell 3 3 Texture.asteroid 0).velocity = 0.0001 := rfl
  have hall : ∀ k, k < 58 → fallen (Scene.InitializeCell 3 3 Texture.asteroid 0).velocity
      (1 / 60) k < distance (Scene.InitializeCell 3 3 Texture.asteroid 0).position
        blackHolePos := by
    intro k hk
    rw [hv]
    exact lt_of_le_of_lt
      (fallen_mono 0.0001 (1 / 60) (by norm_num) (by norm_num) (by omega : k ≤ 57)) h57
  rw [Moves_distance _ hne (1 / 60) 57 (fun k hk => hall k (by omega)),
    Moves_distance _ hne (1 / 60) 58 hall, hv]
  have hd2 : distance (Scene.InitializeCell 3 3 Texture.asteroid 0).position blackHolePos ^ 2
      = 0.0325 := by
    unfold distance
    rw [Real.sq_sqrt (by positivity)]
    norm_num [Scene.InitializeCell, EnemyObject.new, blackHolePos]
  have hd0 : 0 ≤ distance (Scene.InitializeCell 3 3 Texture.asteroid 0).position
      blackHolePos := Real.sqrt_nonneg _
  have hup : distance (Scene.InitializeCell 3 3 Texture.asteroid 0).position blackHolePos <
      0.181 := by
    nlinarith
  have e57 : fallen 0.0001 (1 / 60) 57 = 0.180177095 := by norm_num [fallen]
  have e58 : fallen 0.0001 (1 / 60) 58 = 11189.9458 / 60000 := by norm_num [fallen]
  rw [abs_of_pos (by linarith), lt_abs]
  right
  rw [e58]
  rw [e57] at h57 ⊢
  linarith

/-- C16, amended: with the black hole placed and the frame step 1/60, the
asteroid of every grid cell (row `i < 6`, column `j < 6`, starting at
(−0.75 + 0.3·j, −0.4 + 0.3·i) with velocity 0.0001) is strictly closer to the
black hole after each of its first 57 consecutive `Move` calls than before that
call. -/
theorem asteroid_approaches_for_57_calls (i j n : Nat) (hi : i < 6) (hj : j < 6)
    (hn : n < 57) (t : Texture) (angle : ℝ) :
    (Scene.InitializeCell i j t angle).position =
        ⟨-0.75 + 0.3 * (j : ℝ), -0.4 + 0.3 * (i : ℝ)⟩ ∧
    (Scene.InitializeCell i j t angle).velocity = 0.0001 ∧
    distance (EnemyObject.Moves (1 / 60) (n + 1)
        (Scene.InitializeCell i j t angle)).position blackHolePos <
      distance (EnemyObject.Moves (1 / 60) n
        (Scene.InitializeCell i j t angle)).position blackHolePos := by
  obtain ⟨fallen_lt_succ, fallen_mono, Moves_distance, fallen_57_lt, InitializeCell_ne_blackHole⟩ :=
    EnemyObject.fall_steps
  have hne := InitializeCell_ne_blackHole i j hi hj t angle
  have h57 := fallen_57_lt i j hi hj t angle
  have hv : (Scene.InitializeCell i j t angle).velocity = 0.0001 := rfl
  have hall : ∀ k, k ≤ 57 → fallen (Scene.InitializeCell i j t angle).velocity
      (1 / 60) k < distance (Scene.InitializeCell i j t angle).position blackHolePos := by
    intro k hk
    rw [hv]
    exact lt_of_le_of_lt (fallen_mono 0.0001 (1 / 60) (by norm_num) (by norm_num) hk) h57
  refine ⟨?_, rfl, ?_⟩
  · simp only [Scene.InitializeCell, EnemyObject.new]
    congr 1 <;> ring
  · rw [Moves_distance _ hne (1 / 60) n (fun k hk => hall k (by omega)),
      Moves_distance _ hne (1 / 60) (n + 1) (fun k hk => hall k (by omega))]
    have h1 := hall n (by omega)
    have h2 := hall (n + 1) (by omega)
    have h3 := fallen_lt_succ 0.0001 (1 / 60) (by norm_num) (by norm_num) n
    rw [hv] at h1 h2 ⊢
    rw [abs_of_pos (by linarith), abs_of_pos (by linarith)]
    linarith

theorem asteroid_approaches_for_57_calls_witness :
    (Scene.InitializeCell 3 3 Texture.asteroid 0).position =
        ⟨-0.75 + 0.3 * ((3 : Nat) : ℝ), -0.4 + 0.3 * ((3 : Nat) : ℝ)⟩ ∧
    (Scene.InitializeCell 3 3 Texture.asteroid 0).velocity = 0.0001 ∧
    distance (EnemyObject.Moves (1 / 60) (56 + 1)
        (Scene.InitializeCell 3 3 Texture.asteroid 0)).position blackHolePos <
      distance (EnemyObject.Moves (1 / 60) 56
        (Scene.InitializeCell 3 3 Texture.asteroid 0)).position blackHolePos :=
  asteroid_approaches_for_57_calls 3 3 56 (by decide) (by decide) (by decide)
    Texture.asteroid 0

/-! ## Reads after an erase (C21, C22) -/

namespace Scene

/-- C21: there is a scene with lockstep primary vectors on which `Scene::Move`
reads `objects` at an index equal to its length: the avatar and, last, a
projectile that passes its range in this pass.  In general, when the entry at
the last index `i` is, after its `Move` and `Control`, not an enemy and
`ShouldBeDeleted` holds of it, the `ShouldBeDeleted` block erases it, leaving
`objects` with `i` entries, and the `DoneExploding` check that follows reads
`objects[i]`, which is out of range; so do the iteration and the loop. -/
theorem Move_reads_past_end :
    (Scene.lastProjectile.Lockstep ∧
      Scene.lastProjectile.Move noKeys (1 / 60) 2 = .error .outOfRange) ∧
    (∀ (keys : Char → Bool) (time tl : ℝ) (i : Nat) (s s1 : Scene) (o : Entity),
      s.Lockstep → i + 1 = s.objects.length → s.MoveControl keys time tl i = .ok s1 →
      vecGet s1.objects i = .ok o → o.ShouldBeDeleted.1 = true → o.IsEnemy = false →
      ∃ s2, s1.RemoveDeleted time tl i = .ok s2 ∧ s2.objects = s1.objects.eraseIdx i ∧
        s2.objects.length = i ∧ vecGet s2.objects i = .error .outOfRange ∧
        s2.RemoveExploded tl i = .error .outOfRange ∧
        s.MoveBody keys time tl i = .error .outOfRange ∧
        ∀ fuel : Nat, MoveObjects keys time tl (fuel + 1) i s = .error .outOfRange) := by
  obtain ⟨-, -, -, -, -, -, -, MoveControl_frame, MoveControl_lockstep, -, -, -, -, -⟩ :=
    Scene.lockstep_steps
  have hconc : Scene.lastProjectile.Move noKeys (1 / 60) 2 = .error .outOfRange := by
    norm_num [Scene.Move, AvatarObject.invMass, Scene.lastProjectile, Scene.ofObjects,
      Scene.MoveObjects, Scene.MoveBody, Scene.MoveControl, Scene.RemoveDeleted,
      Scene.RemoveExploded, Scene.ExplodeIfEnemy, vecGet, projectileAt, theAvatar,
      theAvatarBase, Entity.Move, ProjectileObject.Move, AvatarObject.Move,
      AvatarObject.new, noKeys, Entity.Control, ProjectileObject.Control, Control.objectsLoop,
      Control.gridLoop, Entity.HitByProjectile, Entity.ShouldBeDeleted, Entity.addr,
      Entity.toObject, Scene.eraseAt, vecErase, Entity.IsEnemy, Entity.DoneExploding,
      Scene.MoveGrid, ProjectileObject.ShouldBeDeleted, bind, Except.bind, pure, Except.pure,
      quadMesh]
  refine ⟨⟨ofObjects_lockstep _ _ _ _, hconc⟩, ?_⟩
  intro keys time tl i s s1 o hl hi hmc hg hd he
  have hl1 := MoveControl_lockstep hl hmc
  have hlen1 : s1.objects.length = s.objects.length := (MoveControl_frame hmc).2.2.2
  obtain ⟨sx, s2, _, _, hrd, hobj, hobj2⟩ := @RemoveDeleted_of_deleted time tl i s1 o hl1 hg hd
  have hobjs : s2.objects = s1.objects.eraseIdx i := by
    rw [hobj2, hobj, he]
    simp only [Bool.false_eq_true, if_false, List.append_nil]
    exact eraseIdx_set_self _ _ _
  have hlen2 : s2.objects.length = i := by
    rw [hobjs, List.length_eraseIdx]
    have : i < s1.objects.length := by omega
    simp only [this, if_true]
    omega
  have hvg : vecGet s2.objects i = .error .outOfRange := by
    unfold vecGet
    rw [List.getElem?_eq_none (le_of_eq hlen2)]
  have hre : s2.RemoveExploded tl i = .error .outOfRange := by
    simp only [RemoveExploded, hvg, bind, Except.bind]
  have hmb : s.MoveBody keys time tl i = .error .outOfRange := by
    simp only [MoveBody, hmc, hrd, hre, bind, Except.bind]
  refine ⟨s2, hrd, hobjs, hlen2, hvg, hre, hmb, fun fuel => ?_⟩
  have hlt : i < s.objects.length := by omega
  simp only [MoveObjects, hlt, if_true, hmb, bind, Except.bind]

theorem grid_ne_outOfRange :
    (∀ (keys : Char → Bool) (time tl : ℝ) (i j : Nat) (s : Scene), s.Lockstep →
      j < (s.asteroid_objects.getD i []).length →
      s.MoveCell keys time tl i j ≠ .error .outOfRange) ∧
    (∀ (keys : Char → Bool) (time tl : ℝ) (fuel i : Nat) (s : Scene), s.Lockstep →
      MoveGrid keys time tl fuel i s ≠ .error .outOfRange) := by
  obtain ⟨-, -, -, -, -, -, -, -, -, MoveCell_lockstep, MoveRow_lockstep, -, -, -⟩ :=
    Scene.lockstep_steps
  have vecGet_err : ∀ {α : Type} {v : List α} {i : Nat} {e : Fault},
      vecGet v i = .error e → v.length ≤ i := by
    intro α v i e h
    unfold vecGet at h
    by_contra hc
    rw [List.getElem?_eq_getElem (Nat.lt_of_not_le hc)] at h
    cases h
  have vecErase_err : ∀ {α : Type} {v : List α} {i : Nat} {e : Fault},
      vecErase v i = .error e → v.length ≤ i := by
    intro α v i e h
    unfold vecErase at h
    split at h
    · cases h
    · omega
  have move_ne : ∀ (keys : Char → Bool) (b : Bool) (deref : Nat → Option Entity) (e : Entity)
      (dt tl : ℝ), e.Move keys b deref dt tl ≠ .error .outOfRange := by
    intro keys b deref e dt tl
    cases e <;> simp [Entity.Move]
    split <;> simp
  have cell : ∀ (keys : Char → Bool) (time tl : ℝ) (i j : Nat) (s : Scene), s.Lockstep →
      j < (s.asteroid_objects.getD i []).length →
      s.MoveCell keys time tl i j ≠ .error .outOfRange := by
    intro keys time tl i j s hl hj
    have hi : i < s.asteroid_objects.length := by
      by_contra hc
      rw [List.getD_eq_default _ _ (Nat.le_of_not_lt hc)] at hj
      simp at hj
    have hrow : ∀ row, vecGet s.asteroid_objects i = .ok row →
        s.asteroid_objects.getD i [] = row := by
      intro row hr
      rw [vecGet_eq_ok] at hr
      simp [List.getD, hr]
    intro h
    simp only [MoveCell, bind_eq_error, pure, Except.pure] at h
    rcases h with h | ⟨row, hr, h | ⟨c, _, h | ⟨c1, _, h⟩⟩⟩
    · have := vecGet_err h
      omega
    · have := vecGet_err h
      rw [hrow row hr] at hj
      omega
    · exact move_ne _ _ _ _ _ _ h
    · rw [hrow row hr] at hj
      split at h
      · have hl1 : ∀ g, ({ s with asteroid_objects := g } : Scene).Lockstep := fun g => by
          simpa [Lockstep] using hl
        obtain ⟨s1, hs1, _, hg, _⟩ :=
          ExplodeIfEnemy_eq _ (hl1 _) c1.DramaticExit.ShouldBeDeleted.2 time tl
        simp only [bind_eq_error] at h
        rcases h with h | ⟨s2, h2, h | ⟨row2, hr2, h | ⟨_, _, h⟩⟩⟩
        · rw [hs1] at h
          cases h
        · rw [hs1] at h2
          cases h2
          have := vecGet_err h
          rw [hg] at this
          simp only [List.length_set] at this
          omega
        · rw [hs1] at h2
          cases h2
          rw [vecGet_eq_ok, hg] at hr2
          simp only at hr2
          rw [List.getElem?_set_self hi] at hr2
          cases hr2
          have := vecErase_err h
          simp only [List.length_set] at this
          omega
        · cases h
      · cases h
  have row : ∀ (keys : Char → Bool) (time tl : ℝ) (i fuel j : Nat) (s : Scene), s.Lockstep →
      MoveRow keys time tl i fuel j s ≠ .error .outOfRange := by
    intro keys time tl i fuel
    induction fuel with
    | zero =>
      intro j s _ h
      simp only [MoveRow] at h
      split at h <;> cases h
    | succ fuel ih =>
      intro j s hl h
      simp only [MoveRow] at h
      split at h
      · rename_i hj
        simp only [bind_eq_error] at h
        rcases h with h | ⟨s1, h1, h⟩
        · exact cell _ _ _ _ _ _ hl hj h
        · exact ih (j + 1) s1 (MoveCell_lockstep hl h1) h
      · cases h
  refine ⟨cell, ?_⟩
  intro keys time tl fuel
  induction fuel with
  | zero =>
    intro i s _ h
    simp only [MoveGrid] at h
    split at h <;> cases h
  | succ fuel ih =>
    intro i s hl h
    simp only [MoveGrid] at h
    split at h
    · simp only [bind_eq_error] at h
      rcases h with h | ⟨s1, h1, h⟩
      · exact row _ _ _ _ _ 0 s hl h
      · exact ih (i + 1) s1 (MoveRow_lockstep _ _ _ _ hl h1) h
    · cases h

/-- C22 fails on the code: from no scene with lockstep primary vectors, no
row index and no fuel does the grid loop of `Scene::Move` come to a read out
of range; in the pass over `Scene.shrunkAsteroid`, which erases the last cell
of its row, the loop returns and leaves the row empty. -/
theorem grid_loop_never_out_of_range_counterexample :
    (∃ s', Scene.shrunkAsteroid.Move noKeys (1 / 60) 2 = .ok s' ∧
      Scene.shrunkAsteroid.asteroid_objects.map List.length = [1] ∧
      s'.asteroid_objects = [[]]) ∧
    ¬ ∃ (keys : Char → Bool) (time tl : ℝ) (fuel i : Nat) (s : Scene),
      s.Lockstep ∧ MoveGrid keys time tl fuel i s = .error .outOfRange := by
  refine ⟨⟨_, shrunkAsteroid_Move, rfl, rfl⟩, ?_⟩
  rintro ⟨keys, time, tl, fuel, i, s, hl, h⟩
  exact grid_ne_outOfRange.2 keys time tl fuel i s hl h

/-- C22, amended: on a scene with lockstep primary vectors the grid loop of
`Scene::Move` reads no vector out of range, whatever it erases: a cell is read
only between the loop test `j < asteroid_objects[i].size()` and the erase, and
when the erased cell was the last of its row the loop test, taken next with
`j + 1`, ends the row.  What the erase without a change of `j` does is pass
over the cell that moved to position `j`: in the pass over
`Scene.twoDramatic` the first asteroid of the row is erased and the second,
now first, is left as it was, without the `DramaticExit` of this pass. -/
theorem grid_loop_skips_but_stays_in_range :
    (∀ (keys : Char → Bool) (time tl : ℝ) (fuel i : Nat) (s : Scene), s.Lockstep →
      MoveGrid keys time tl fuel i s ≠ .error .outOfRange) ∧
    (∀ (keys : Char → Bool) (time tl : ℝ) (i j : Nat) (s : Scene), s.Lockstep →
      j < (s.asteroid_objects.getD i []).length →
      s.MoveCell keys time tl i j ≠ .error .outOfRange) ∧
    (∀ (keys : Char → Bool) (time tl : ℝ) (i j fuel : Nat) (s : Scene),
      (s.asteroid_objects.getD i []).length ≤ j + 1 →
      MoveRow keys time tl i fuel (j + 1) s = .ok s) ∧
    (∃ s', Scene.twoDramatic.Move noKeys (1 / 60) 2 = .ok s' ∧
      Scene.twoDramatic.asteroid_objects =
        [[dramaticAsteroidAt 4 ⟨-0.75, -0.4⟩ 0.01 114120 false,
          dramaticAsteroidAt 5 ⟨-0.45, -0.4⟩ 0.15 30000 false]] ∧
      s'.asteroid_objects = [[dramaticAsteroidAt 5 ⟨-0.45, -0.4⟩ 0.15 30000 false]] ∧
      (dramaticAsteroidAt 5 ⟨-0.45, -0.4⟩ 0.15 30000 false).DramaticExit =
        dramaticAsteroidAt 5 ⟨-0.45, -0.4⟩ (0.15 - 0.0001) (30000 + 60) false) := by
  have hconc : Scene.twoDramatic.Move noKeys (1 / 60) 2 = .ok
      { Scene.twoDramatic with
        objects := [theAvatarMoved],
        asteroid_objects := [[dramaticAsteroidAt 5 ⟨-0.45, -0.4⟩ 0.15 30000 false]],
        leaked := [dramaticAsteroidAt 4 ⟨-0.75, -0.4⟩ (0.01 - 0.0001) (114120 + 60) true],
        calls := [Call.Move 0, Call.Control 0] } := by
    norm_num [Scene.Move, AvatarObject.invMass, Scene.twoDramatic, Scene.ofObjects,
      Scene.MoveObjects, Scene.MoveBody, Scene.MoveControl, Scene.RemoveDeleted,
      Scene.RemoveExploded, Scene.ExplodeIfEnemy, vecGet, dramaticAsteroidAt, theAvatar,
      theAvatarMoved, theAvatarBase, Entity.Move, AvatarObject.Move, EnemyObject.Move,
      Entity.GetLocation, AvatarObject.new, noKeys, Entity.Control, Entity.ShouldBeDeleted,
      EnemyObject.ShouldBeDeleted, Entity.addr, Entity.toObject, vecErase, Entity.IsEnemy,
      EnemyObject.IsEnemy, Entity.DoneExploding, Entity.DramaticExit, EnemyObject.DramaticExit,
      Scene.MoveGrid, Scene.MoveRow, Scene.MoveCell, bind, Except.bind, pure, Except.pure,
      quadMesh, vec2.sub_def]
  refine ⟨grid_ne_outOfRange.2, grid_ne_outOfRange.1,
    fun keys time tl i j fuel s h => ?_, ⟨_, hconc, rfl, rfl, ?_⟩⟩
  · cases fuel with
    | zero =>
      simp only [MoveRow]
      rw [if_neg (by omega)]
    | succ fuel =>
      simp only [MoveRow]
      rw [if_neg (by omega)]
  · simp [dramaticAsteroidAt, Entity.DramaticExit, EnemyObject.DramaticExit, vec2.sub_def]

end Scene

/-! ## The dramatic exit (C23) -/

/-- C23: `SetDramatic` sets the flag `dramatic`; while it is set each
`DramaticExit` lowers both scale components by 0.0001 and raises `orientation`
by 60, and while it is not set (as the constructor leaves it) `DramaticExit`
changes nothing.  For an asteroid of scale (0.2, 0.2), not hit so far, and any
run of calls made after `SetDramatic` in which no projectile hits it:
`n` being the number of `DramaticExit` calls of the run, the scale is then
`0.2 - 0.0001 * n` in both components and `ShouldBeDeleted` returns false when
`n ≤ 1900` and true when `n ≥ 1901`. -/
theorem dramatic_exit_deleted_after_1901 :
    (∀ o : EnemyObject, o.SetDramatic.dramatic = true) ∧
    (∀ o : EnemyObject, o.dramatic = true →
      o.DramaticExit.scaling = ⟨o.scaling.x - 0.0001, o.scaling.y - 0.0001⟩ ∧
      o.DramaticExit.orientation = o.orientation + 60 ∧ o.DramaticExit.dramatic = true) ∧
    (∀ base : Object, (EnemyObject.new base).dramatic = false) ∧
    (∀ o : EnemyObject, o.dramatic = false → o.DramaticExit = o) ∧
    (∀ (o : EnemyObject) (cs : List AsteroidCall), o.scaling = ⟨0.2, 0.2⟩ → o.deleted = false →
      neverHit cs o.SetDramatic →
      (o.SetDramatic.calls cs).scaling =
        ⟨0.2 - 0.0001 * ((cs.countP AsteroidCall.isDramaticExit : Nat) : ℝ),
         0.2 - 0.0001 * ((cs.countP AsteroidCall.isDramaticExit : Nat) : ℝ)⟩ ∧
      (cs.countP AsteroidCall.isDramaticExit ≤ 1900 →
        (o.SetDramatic.calls cs).ShouldBeDeleted.1 = false) ∧
      (1901 ≤ cs.countP AsteroidCall.isDramaticExit →
        (o.SetDramatic.calls cs).ShouldBeDeleted.1 = true)) := by
  obtain ⟨Move_frame, HitByProjectile_frame, ShouldBeDeleted_frame, DramaticExit_frame, -, -⟩ :=
    EnemyObject.calls_steps
  have key : ∀ (cs : List AsteroidCall) (o : EnemyObject), o.dramatic = true →
      (o.calls cs).dramatic = true ∧
      (o.calls cs).scaling =
        ⟨o.scaling.x - 0.0001 * ((cs.countP AsteroidCall.isDramaticExit : Nat) : ℝ),
         o.scaling.y - 0.0001 * ((cs.countP AsteroidCall.isDramaticExit : Nat) : ℝ)⟩ ∧
      (o.deleted = false → neverHit cs o →
        0.01 ≤ o.scaling.x - 0.0001 * ((cs.countP AsteroidCall.isDramaticExit : Nat) : ℝ) →
        0.01 ≤ o.scaling.y - 0.0001 * ((cs.countP AsteroidCall.isDramaticExit : Nat) : ℝ) →
        (o.calls cs).deleted = false) := by
    intro cs
    induction cs with
    | nil =>
      intro o hdr
      refine ⟨hdr, ?_, fun hd _ _ _ => hd⟩
      simp [EnemyObject.calls]
    | cons c cs ih =>
      intro o hdr
      have hn0 : (0 : ℝ) ≤ ((cs.countP AsteroidCall.isDramaticExit : Nat) : ℝ) :=
        Nat.cast_nonneg _
      show ((c.apply o).calls cs).dramatic = true ∧ ((c.apply o).calls cs).scaling = _ ∧
        (_ → _ → _ → _ → ((c.apply o).calls cs).deleted = false)
      rw [List.countP_cons]
      cases c with
      | Move b dt tl =>
        obtain ⟨f1, f2, f3⟩ := Move_frame b o dt tl
        obtain ⟨i1, i2, i4⟩ := ih (o.Move b dt tl) (by rw [f3]; exact hdr)
        simp only [AsteroidCall.isDramaticExit, AsteroidCall.apply, Bool.false_eq_true,
          if_false, add_zero]
        rw [f1, f2] at *
        exact ⟨i1, i2, fun hd hn hx hy => i4 hd hn hx hy⟩
      | HitByProjectile p =>
        obtain ⟨f1, f2, f3⟩ := HitByProjectile_frame o p
        obtain ⟨i1, i2, i4⟩ := ih (o.HitByProjectile p).1 (by rw [f2]; exact hdr)
        simp only [AsteroidCall.isDramaticExit, AsteroidCall.apply, Bool.false_eq_true,
          if_false, add_zero]
        rw [f1] at *
        refine ⟨i1, i2, fun hd hn hx hy => ?_⟩
        obtain ⟨hmiss, hn'⟩ := hn
        have hsame := f3 hmiss
        simp only [AsteroidCall.apply] at hn'
        rw [hsame] at hn'
        rw [hsame] at i4 ⊢
        exact i4 hd hn' hx hy
      | ShouldBeDeleted =>
        obtain ⟨f1, f2, f3⟩ := ShouldBeDeleted_frame o
        obtain ⟨i1, i2, i4⟩ := ih o.ShouldBeDeleted.2 (by rw [f2]; exact hdr)
        simp only [AsteroidCall.isDramaticExit, AsteroidCall.apply, Bool.false_eq_true,
          if_false, add_zero]
        rw [f1] at *
        refine ⟨i1, i2, fun hd hn hx hy => ?_⟩
        have hsame := (f3 (by linarith) (by linarith)).1
        have hn' : neverHit cs (AsteroidCall.ShouldBeDeleted.apply o) := hn
        simp only [AsteroidCall.apply] at hn'
        rw [hsame] at hn'
        rw [hsame] at i4 ⊢
        exact i4 hd hn' hx hy
      | SetDramatic =>
        obtain ⟨i1, i2, i4⟩ := ih o.SetDramatic rfl
        simp only [AsteroidCall.isDramaticExit, AsteroidCall.apply, Bool.false_eq_true,
          if_false, add_zero]
        exact ⟨i1, i2, fun hd hn hx hy => i4 hd hn hx hy⟩
      | DramaticExit =>
        have e : o.DramaticExit =
            { o with scaling := o.scaling - (⟨0.0001, 0.0001⟩ : vec2),
                     orientation := o.orientation + 60 } := by
          unfold EnemyObject.DramaticExit
          rw [if_pos hdr]
        obtain ⟨i1, i2, i4⟩ := ih o.DramaticExit (by rw [e]; exact hdr)
        simp only [AsteroidCall.isDramaticExit, AsteroidCall.apply, if_true, Nat.cast_add,
          Nat.cast_one]
        refine ⟨i1, ?_, fun hd hn hx hy => ?_⟩
        · rw [i2, e]
          simp only [vec2.sub_def]
          congr 1 <;> ring
        · have hn' : neverHit cs o.DramaticExit := hn
          refine i4 (by rw [e]; exact hd) hn' ?_ ?_
          · rw [e]; simp only [vec2.sub_def]
            simp only [Nat.cast_add, Nat.cast_one] at hx
            linarith
          · rw [e]; simp only [vec2.sub_def]
            simp only [Nat.cast_add, Nat.cast_one] at hy
            linarith
  refine ⟨fun _ => rfl, fun o h => ?_, fun _ => rfl,
    fun o h => (DramaticExit_frame o).1 h, fun o cs hs hd hn => ?_⟩
  · unfold EnemyObject.DramaticExit
    rw [if_pos h]
    exact ⟨rfl, rfl, h⟩
  · obtain ⟨_, i2, i4⟩ := key cs o.SetDramatic rfl
    have hs' : o.SetDramatic.scaling = ⟨0.2, 0.2⟩ := hs
    rw [hs'] at i2 i4
    simp only at i2 i4
    refine ⟨i2, fun hle => ?_, fun hge => ?_⟩
    · have hc : ((cs.countP AsteroidCall.isDramaticExit : Nat) : ℝ) ≤ 1900 := by
        exact_mod_cast hle
      have hdel := i4 hd hn (by linarith) (by linarith)
      have hf := (ShouldBeDeleted_frame (o.SetDramatic.calls cs)).2.2
        (by rw [i2]; simp only; linarith) (by rw [i2]; simp only; linarith)
      rw [hf.2, hdel]
    · have hc : (1901 : ℝ) ≤ ((cs.countP AsteroidCall.isDramaticExit : Nat) : ℝ) := by
        exact_mod_cast hge
      have hx : (o.SetDramatic.calls cs).scaling.x < 0.01 := by
        rw [i2]; simp only; linarith
      unfold EnemyObject.ShouldBeDeleted
      simp only [hx, true_or, if_true]

/-! ## Firing (C24) -/

/-- C24: `shootProjectile`, called with the cooldown over on a scene whose
avatar (`objects[0]`) is at (0, −0.75), appends a projectile at (0, −0.65),
not deleted.  Stepped by `Move` with `dt = 1/60`, that projectile is at
`y = −0.65 + n/30` after `n` ticks; its `deleted` flag is false after every
tick up to the 30th, where it has gone exactly 1 unit, and true from tick 31
on. -/
theorem projectile_deleted_on_tick_31 (s : Scene) (hl : s.Lockstep) (t0 : ℝ) (ht : 0 ≤ t0)
    (a : Entity) (h0 : s.objects[0]? = some a) (hloc : a.GetLocation = ⟨0, -0.75⟩) :
    ∃ (s' : Scene) (p : ProjectileObject),
      s.shootProjectile t0 = .ok (s', -1) ∧ s'.objects = s.objects ++ [Entity.Projectile p] ∧
      p.position = ⟨0, -0.65⟩ ∧ p.deleted = false ∧
      (∀ n : Nat, (ProjectileObject.Moves (1 / 60) n p).position = ⟨0, -0.65 + n / 30⟩) ∧
      (∀ n : Nat, n ≤ 30 → (ProjectileObject.Moves (1 / 60) n p).deleted = false) ∧
      (ProjectileObject.Moves (1 / 60) 30 p).position.y - p.position.y = 1 ∧
      (∀ n : Nat, 31 ≤ n → (ProjectileObject.Moves (1 / 60) n p).deleted = true) := by
  have hshoot : s.shootProjectile t0 = .ok
      ({ s with
          materials := s.materials ++
            [Material.TextureMaterial Shader.TexturedShader Texture.bullet],
          geometries := s.geometries ++ [Geometry.TexturedQuad],
          meshes := s.meshes ++ [quadMesh Texture.bullet],
          objects := s.objects ++ [Entity.Projectile (ProjectileObject.new
            { addr := s.nextAddr, shader := Shader.TexturedShader,
              mesh := quadMesh Texture.bullet,
              position := a.GetLocation + (⟨0, 0.1⟩ : vec2), scaling := ⟨0.4, 0.4⟩,
              orientation := 0 })],
          nextAddr := s.nextAddr + 1 }, -1) := by
    obtain ⟨h1, h2, h3⟩ := hl
    have hg : vecGet s.objects 0 = .ok a := vecGet_eq_ok.mpr h0
    simp only [Scene.shootProjectile, ge_iff_le, ht, if_true, bind, Except.bind, pure,
      Except.pure, vecGet_append_length _ _ _ h1, vecGet_append_length _ _ _ h2,
      vecGet_append_length _ _ _ h3, hg, quadMesh]
  have hsucc : ∀ (dt : ℝ) (n : Nat) (q : ProjectileObject),
      ProjectileObject.Moves dt (n + 1) q = (ProjectileObject.Moves dt n q).Move dt 0 :=
    fun dt n q => Function.iterate_succ_apply' _ n q
  have hstep : ∀ (dt : ℝ) (q : ProjectileObject),
      (q.Move dt 0).position = ⟨q.position.x, q.position.y + dt * 2⟩ ∧
      (q.Move dt 0).init_position = q.init_position := by
    intro dt q
    unfold ProjectileObject.Move
    dsimp only
    split <;> exact ⟨rfl, rfl⟩
  have hspec : ∀ (dt : ℝ) (o : ProjectileObject) (n : Nat),
      (ProjectileObject.Moves dt n o).position = ⟨o.position.x, o.position.y + 2 * dt * n⟩ ∧
      (ProjectileObject.Moves dt n o).init_position = o.init_position := by
    intro dt o n
    induction n with
    | zero =>
      refine ⟨?_, rfl⟩
      show o.position = _
      simp
    | succ n ih =>
      obtain ⟨i1, i2⟩ := ih
      rw [hsucc, (hstep _ _).1, (hstep _ _).2, i1, i2]
      refine ⟨?_, rfl⟩
      simp only [Nat.cast_add, Nat.cast_one]
      congr 1
      ring
  have hdel : ∀ (dt : ℝ), 0 ≤ dt → ∀ (o : ProjectileObject), o.deleted = false → ∀ n : Nat,
      (o.position.y + 2 * dt * n ≤ o.init_position.y + 1 →
        (ProjectileObject.Moves dt n o).deleted = false) ∧
      (1 ≤ n → o.position.y + 2 * dt * n > o.init_position.y + 1 →
        (ProjectileObject.Moves dt n o).deleted = true) := by
    intro dt hdt o hd n
    induction n with
    | zero =>
      exact ⟨fun _ => hd, fun h => absurd h (by norm_num)⟩
    | succ n ih =>
      obtain ⟨p1, p2⟩ := hspec dt o n
      have hy : ((ProjectileObject.Moves dt n o).position.y + dt * 2) =
          o.position.y + 2 * dt * ((n + 1 : Nat) : ℝ) := by
        rw [p1]; simp only [Nat.cast_add, Nat.cast_one]; ring
      constructor
      · intro hle
        have hprev : o.position.y + 2 * dt * n ≤ o.init_position.y + 1 := by
          have : 2 * dt * (n : ℝ) ≤ 2 * dt * ((n + 1 : Nat) : ℝ) := by
            simp only [Nat.cast_add, Nat.cast_one]; nlinarith
          linarith
        have hdel := ih.1 hprev
        rw [hsucc]
        unfold ProjectileObject.Move
        dsimp only
        rw [hy, p2, if_neg (not_lt.mpr hle)]
        exact hdel
      · intro _ hgt
        rw [hsucc]
        unfold ProjectileObject.Move
        dsimp only
        rw [hy, p2, if_pos hgt]
  have hpos : a.GetLocation + (⟨0, 0.1⟩ : vec2) = ⟨0, -0.65⟩ := by
    rw [hloc, vec2.add_def]
    congr 1 <;> norm_num
  refine ⟨_, _, hshoot, rfl, hpos, rfl, fun n => ?_, fun n hn => ?_, ?_, fun n hn => ?_⟩
  · rw [(hspec (1 / 60) _ n).1]
    simp only [ProjectileObject.new, hpos]
    congr 1
    ring
  · refine (hdel (1 / 60) (by norm_num) _ rfl n).1 ?_
    simp only [ProjectileObject.new, hpos]
    have : (n : ℝ) ≤ 30 := by exact_mod_cast hn
    linarith
  · rw [(hspec (1 / 60) _ 30).1]
    simp only [ProjectileObject.new, hpos]
    norm_num
  · refine (hdel (1 / 60) (by norm_num) _ rfl n).2 (by omega) ?_
    simp only [ProjectileObject.new, hpos]
    have : (31 : ℝ) ≤ (n : ℝ) := by exact_mod_cast hn
    linarith

/-- C24 on the scene that holds the avatar as `Scene::Initialize` builds it. -/
theorem projectile_deleted_on_tick_31_witness :
    (Scene.ofObjects [theAvatar] [] false 1).Lockstep ∧ (0 : ℝ) ≤ 0 ∧
    (Scene.ofObjects [theAvatar] [] false 1).objects[0]? = some theAvatar ∧
    theAvatar.GetLocation = ⟨0, -0.75⟩ ∧
    ∃ (s' : Scene) (p : ProjectileObject),
      (Scene.ofObjects [theAvatar] [] false 1).shootProjectile 0 = .ok (s', -1) ∧
      s'.objects = (Scene.ofObjects [theAvatar] [] false 1).objects ++ [Entity.Projectile p] ∧
      p.position = ⟨0, -0.65⟩ ∧ p.deleted = false ∧
      (∀ n : Nat, (ProjectileObject.Moves (1 / 60) n p).position = ⟨0, -0.65 + n / 30⟩) ∧
      (∀ n : Nat, n ≤ 30 → (ProjectileObject.Moves (1 / 60) n p).deleted = false) ∧
      (ProjectileObject.Moves (1 / 60) 30 p).position.y - p.position.y = 1 ∧
      (∀ n : Nat, 31 ≤ n → (ProjectileObject.Moves (1 / 60) n p).deleted = true) :=
  ⟨Scene.ofObjects_lockstep _ _ _ _, le_refl 0, rfl, rfl,
    projectile_deleted_on_tick_31 (Scene.ofObjects [theAvatar] [] false 1)
      (Scene.ofObjects_lockstep _ _ _ _) 0 (le_refl 0) theAvatar rfl rfl⟩

/-! ## The end of an explosion (C25) -/

/-- C25: for an explosion whose spawn elapsed time `time_lapsed` is not
negative and every query time `t` from then on, `DoneExploding(t)` is true
exactly when `t - time_lapsed > 3.4`: while `t - time_lapsed ≤ 3.4` the test
`(start_i - 1) % 36 == i` fails (`%` truncates, so that `(0 - 1) % 36` is −1),
and the explosion is not done at its own spawn time. -/
theorem DoneExploding_iff_elapsed (o : ExplodingObject) (t : ℝ) (hs : 0 ≤ o.time_lapsed)
    (hst : o.time_lapsed ≤ t) :
    (o.DoneExploding t = true ↔ t - o.time_lapsed > 3.4) ∧
    (t - o.time_lapsed ≤ 3.4 →
      cmod (cmod ⌊o.time_lapsed * 10⌋ 36 - 1) 36 ≠ cmod ⌊t * 10⌋ 36) ∧
    cmod (0 - 1) 36 = -1 ∧
    o.DoneExploding o.time_lapsed = false := by
  have hframe : ∀ s t : ℝ, 0 ≤ s → s ≤ t → t - s ≤ 3.4 →
      cmod (cmod ⌊s * 10⌋ 36 - 1) 36 ≠ cmod ⌊t * 10⌋ 36 := by
    intro s t hs hst h
    have ha : (0 : ℤ) ≤ ⌊s * 10⌋ := Int.floor_nonneg.mpr (by positivity)
    have hab : ⌊s * 10⌋ ≤ ⌊t * 10⌋ := Int.floor_mono (by linarith)
    have hb : ⌊t * 10⌋ ≤ ⌊s * 10⌋ + 34 := by
      have h1 : ⌊t * 10⌋ ≤ ⌊s * 10 + ((34 : ℤ) : ℝ)⌋ := Int.floor_mono (by push_cast; linarith)
      rwa [Int.floor_add_int] at h1
    have e1 : cmod ⌊s * 10⌋ 36 = ⌊s * 10⌋ % 36 := by
      unfold cmod
      exact Int.tmod_eq_emod ha (by norm_num)
    have e2 : cmod ⌊t * 10⌋ 36 = ⌊t * 10⌋ % 36 := by
      unfold cmod
      exact Int.tmod_eq_emod (le_trans ha hab) (by norm_num)
    rw [e1, e2]
    by_cases h0 : ⌊s * 10⌋ % 36 = 0
    · rw [h0]
      have e3 : cmod (0 - 1) 36 = -1 := by decide
      rw [e3]
      omega
    · have hpos : 0 ≤ ⌊s * 10⌋ % 36 - 1 := by omega
      have e3 : cmod (⌊s * 10⌋ % 36 - 1) 36 = (⌊s * 10⌋ % 36 - 1) % 36 := by
        unfold cmod
        exact Int.tmod_eq_emod hpos (by norm_num)
      rw [e3]
      omega
  refine ⟨?_, fun h => hframe _ _ hs hst h, by decide, ?_⟩
  · rw [DoneExploding_iff]
    constructor
    · rintro (h | h)
      · by_contra hn
        exact hframe _ _ hs hst (not_lt.mp hn) h
      · exact h
    · exact fun h => Or.inr h
  · have hne := hframe o.time_lapsed o.time_lapsed hs (le_refl _) (by norm_num)
    cases hd : o.DoneExploding o.time_lapsed with
    | false => rfl
    | true =>
      rw [DoneExploding_iff] at hd
      rcases hd with h | h
      · exact absurd h hne
      · norm_num at h

/-- C25 at an explosion spawned at elapsed time 0.55, asked at 3.65. -/
theorem DoneExploding_iff_elapsed_witness :
    (0 : ℝ) ≤ (explosionAt 0.55).time_lapsed ∧ (explosionAt 0.55).time_lapsed ≤ 3.65 ∧
    ((explosionAt 0.55).DoneExploding 3.65 = true ↔
      3.65 - (explosionAt 0.55).time_lapsed > 3.4) ∧
    (explosionAt 0.55).DoneExploding (explosionAt 0.55).time_lapsed = false :=
  have h0 : (0 : ℝ) ≤ (explosionAt 0.55).time_lapsed := by
    norm_num [explosionAt, ExplodingObject.new]
  have h1 : (explosionAt 0.55).time_lapsed ≤ 3.65 := by
    norm_num [explosionAt, ExplodingObject.new]
  have h := DoneExploding_iff_elapsed (explosionAt 0.55) 3.65 h0 h1
  ⟨h0, h1, h.1, h.2.2.2⟩

/-! ## The dramatic exit and explosions (C26) -/

/-- C26: an asteroid on which `SetDramatic` has been called answers `IsEnemy`
with false after any further calls, and `HitByProjectile` still sets its
`deleted` flag.  In the grid loop of `Scene::Move`, on a scene with lockstep
primary vectors, the iteration on a cell that holds an asteroid with `IsEnemy`
false returns with `objects` as it was, no explosion appended, whether it
erases the cell (`ShouldBeDeleted` true: the flag is set or a scale component
is below 0.01) or keeps it.  Two passes show both ways out: over
`Scene.shrunkAsteroid`, whose asteroid falls below the scale 0.01, and over
`Scene.hitDramatic`, whose asteroid is hit by a projectile; after each the grid
row is empty and `objects` holds no explosion. -/
theorem dramatic_asteroid_never_explodes :
    (∀ (o : EnemyObject) (cs : List AsteroidCall),
      (o.SetDramatic.calls cs).IsEnemy = false) ∧
    (∀ (o : EnemyObject) (p : Entity), distance o.SetDramatic.position p.GetLocation < 0.2 →
      (o.SetDramatic.HitByProjectile p).1.deleted = true ∧
      (o.SetDramatic.HitByProjectile p).1.ShouldBeDeleted.1 = true ∧
      (o.SetDramatic.HitByProjectile p).1.IsEnemy = false) ∧
    (∀ (keys : Char → Bool) (time tl : ℝ) (s : Scene) (i j : Nat) (row : List Entity)
        (o : EnemyObject),
      s.Lockstep → vecGet s.asteroid_objects i = .ok row →
      vecGet row j = .ok (Entity.AsteroidEnemy o) → o.IsEnemy = false →
      ∃ s', s.MoveCell keys time tl i j = .ok s' ∧ s'.objects = s.objects ∧
        ((o.Move s.blackHolePlaced time tl).DramaticExit.ShouldBeDeleted.1 = true →
          s'.asteroid_objects = s.asteroid_objects.set i (row.eraseIdx j)) ∧
        ((o.Move s.blackHolePlaced time tl).DramaticExit.ShouldBeDeleted.1 = false →
          s'.asteroid_objects = s.asteroid_objects.set i (row.set j (Entity.AsteroidEnemy
            (o.Move s.blackHolePlaced time tl).DramaticExit.ShouldBeDeleted.2)))) ∧
    (∃ s', Scene.shrunkAsteroid.Move noKeys (1 / 60) 2 = .ok s' ∧
      Scene.shrunkAsteroid.asteroid_objects =
        [[dramaticAsteroidAt 4 ⟨-0.75, -0.4⟩ 0.01 114120 false]] ∧
      s'.asteroid_objects = [[]] ∧ s'.objects = [theAvatarMoved]) ∧
    (∃ s', Scene.hitDramatic.Move noKeys (1 / 60) 2 = .ok s' ∧
      Scene.hitDramatic.asteroid_objects =
        [[dramaticAsteroidAt 6 ⟨0.15, -0.4⟩ 0.15 30000 false]] ∧
      s'.asteroid_objects = [[]] ∧
      s'.objects = [theAvatarMoved, fireballAt 5 ⟨0, -0.65⟩ ⟨0, -0.65⟩ ⟨0, 1⟩ 60 false] ∧
      s'.leaked = [projectileAt 4 0 (-0.65) (-0.55 + 1 / 60 * 2) true,
        dramaticAsteroidAt 6 ⟨0.15, -0.4⟩ (0.15 - 0.0001) (30000 + 60) true]) := by
  have henemy : ∀ (c : AsteroidCall) (o : EnemyObject), o.enemy = false →
      (c.apply o).enemy = false := by
    intro c o h
    cases c with
    | Move b dt tl =>
      show (o.Move b dt tl).enemy = false
      unfold EnemyObject.Move
      split <;> exact h
    | HitByProjectile p =>
      show (o.HitByProjectile p).1.enemy = false
      unfold EnemyObject.HitByProjectile
      dsimp only
      split <;> exact h
    | ShouldBeDeleted =>
      show o.ShouldBeDeleted.2.enemy = false
      unfold EnemyObject.ShouldBeDeleted
      dsimp only
      split <;> exact h
    | SetDramatic => rfl
    | DramaticExit =>
      show o.DramaticExit.enemy = false
      unfold EnemyObject.DramaticExit
      split <;> exact h
  have hcalls : ∀ (cs : List AsteroidCall) (o : EnemyObject), o.enemy = false →
      (o.calls cs).enemy = false := by
    intro cs
    induction cs with
    | nil => exact fun o h => h
    | cons c cs ih => exact fun o h => ih (c.apply o) (henemy c o h)
  have hhit : Scene.hitDramatic.Move noKeys (1 / 60) 2 = .ok
      { Scene.hitDramatic with
        materials := [(quadMesh Texture.spaceship).material,
          (quadMesh Texture.fireball).material],
        geometries := [Geometry.TexturedQuad, Geometry.TexturedQuad],
        meshes := [quadMesh Texture.spaceship, quadMesh Texture.fireball],
        objects := [theAvatarMoved, fireballAt 5 ⟨0, -0.65⟩ ⟨0, -0.65⟩ ⟨0, 1⟩ 60 false],
        asteroid_objects := [[]],
        leaked := [projectileAt 4 0 (-0.65) (-0.55 + 1 / 60 * 2) true,
          dramaticAsteroidAt 6 ⟨0.15, -0.4⟩ (0.15 - 0.0001) (30000 + 60) true],
        calls := [Call.Move 0, Call.Control 0, Call.Move 4, Call.Control 4] } := by
    norm_num [Scene.Move, AvatarObject.invMass, Scene.hitDramatic, Scene.ofObjects,
      Scene.MoveObjects, Scene.MoveBody, Scene.MoveControl, Scene.RemoveDeleted,
      Scene.RemoveExploded, Scene.ExplodeIfEnemy, vecGet, projectileAt, fireballAt,
      dramaticAsteroidAt, theAvatar,
      theAvatarMoved, theAvatarBase, Entity.Move, ProjectileObject.Move, AvatarObject.Move,
      EnemyObject.Move, Entity.GetLocation,
      AvatarObject.new, noKeys, Entity.Control, ProjectileObject.Control, Control.objectsLoop,
      Control.gridLoop, Control.rowLoop, Entity.HitByProjectile, EnemyObject.HitByProjectile,
      Entity.TargetHit, ProjectileObject.TargetHit, Entity.ShouldBeDeleted,
      EnemyObject.ShouldBeDeleted, Entity.addr,
      Entity.toObject, Scene.eraseAt, vecErase, Entity.IsEnemy, EnemyObject.IsEnemy,
      Entity.DoneExploding, Entity.DramaticExit, EnemyObject.DramaticExit,
      Scene.MoveGrid, Scene.MoveRow, Scene.MoveCell, ProjectileObject.ShouldBeDeleted, bind,
      Except.bind, pure, Except.pure, quadMesh, vec2.sub_def, vec2.add_def, vec2.mul_def,
      vec2.length_lt_iff, lt_abs]
  refine ⟨fun o cs => hcalls cs o.SetDramatic rfl, fun o p hd => ?_,
    fun keys time tl s i j row o hl hr hc he => ?_,
    ⟨_, Scene.shrunkAsteroid_Move, rfl, rfl, rfl⟩,
    ⟨_, hhit, rfl, rfl, rfl, rfl⟩⟩
  · have e : o.SetDramatic.HitByProjectile p =
        ({ o.SetDramatic with deleted := true }, p.TargetHit) := by
      simp only [EnemyObject.HitByProjectile, vec2.length_sub, hd, if_true]
    rw [e]
    refine ⟨rfl, ?_, rfl⟩
    unfold EnemyObject.ShouldBeDeleted
    dsimp only
    split <;> rfl
  · have hm : (Entity.AsteroidEnemy o).Move keys s.blackHolePlaced s.deref time tl =
        .ok (Entity.AsteroidEnemy (o.Move s.blackHolePlaced time tl)) := rfl
    have hen : (Entity.AsteroidEnemy (o.Move s.blackHolePlaced time tl)).DramaticExit.IsEnemy
        = false := by
      show (o.Move s.blackHolePlaced time tl).DramaticExit.enemy = false
      exact henemy AsteroidCall.DramaticExit _
        (henemy (AsteroidCall.Move s.blackHolePlaced time tl) o he)
    cases hd : (o.Move s.blackHolePlaced time tl).DramaticExit.ShouldBeDeleted.1 with
    | true =>
      have hd' : (Entity.AsteroidEnemy
          (o.Move s.blackHolePlaced time tl)).DramaticExit.ShouldBeDeleted.1 = true := hd
      obtain ⟨s', h1, h2, h3⟩ := Scene.MoveCell_of_deleted hl hr hc hm hd'
      rw [hen] at h3
      refine ⟨s', h1, ?_, fun _ => h2, fun h => by cases h⟩
      simpa using h3
    | false =>
      have hd' : (Entity.AsteroidEnemy
          (o.Move s.blackHolePlaced time tl)).DramaticExit.ShouldBeDeleted.1 = false := hd
      have hkept : s.MoveCell keys time tl i j = .ok
          { s with asteroid_objects := s.asteroid_objects.set i (row.set j
              (Entity.AsteroidEnemy
                (o.Move s.blackHolePlaced time tl)).DramaticExit.ShouldBeDeleted.2) } := by
        simp only [Scene.MoveCell, hr, hc, hm, hd', bind, Except.bind, pure, Except.pure,
          Bool.false_eq_true, if_false]
      exact ⟨_, hkept, rfl, fun h => (by cases h), fun _ => rfl⟩

/-! ## The avatar stays at index 0 (C27) -/

namespace Scene

theorem Step_avatarFirst (a : Nat) (s s' : Scene) (h0 : s.AvatarFirst a) (hstep : Step s s') :
    s'.AvatarFirst a := by
  obtain ⟨-, eraseAt_eq_ok, -, -, -, -, -, -, -, -, -, -, -, -⟩ := Scene.lockstep_steps
  have zero_append : ∀ (l m : List Entity) (x : Entity), l[0]? = some x →
      (l ++ m)[0]? = some x := by
    intro l m x h
    cases l with
    | nil => simp at h
    | cons y ys => simpa using h
  have zero_set : ∀ (l : List Entity) (i : Nat) (y x : Entity), 1 ≤ i → l[0]? = some x →
      (l.set i y)[0]? = some x := by
    intro l i y x hi h
    cases l with
    | nil => simp at h
    | cons z zs =>
      cases i with
      | zero => omega
      | succ i => simpa using h
  have zero_eraseIdx : ∀ (l : List Entity) (i : Nat) (x : Entity), 1 ≤ i → l[0]? = some x →
      (l.eraseIdx i)[0]? = some x := by
    intro l i x hi h
    cases l with
    | nil => simp at h
    | cons z zs =>
      cases i with
      | zero => omega
      | succ i => simpa using h
  have move_addr : ∀ (keys : Char → Bool) (o : AvatarObject) (dt tl : ℝ),
      (o.Move keys dt tl).addr = o.addr := by
    intro keys o dt tl
    unfold AvatarObject.Move
    split
    · dsimp only
      split_ifs <;> rfl
    · dsimp only
      split_ifs <;> rfl
  have control_zero : ∀ (this : Entity) (objects : List Entity) (me : Nat)
      (grid : List (List Entity)) (o : AvatarObject), 1 ≤ me →
      objects[0]? = some (Entity.Avatar o) →
      (this.Control objects me grid).2.1[0]? = some (Entity.Avatar o) := by
    intro this objects me grid o hme h
    cases objects with
    | nil => simp at h
    | cons x rest =>
      have hx : x = Entity.Avatar o := by simpa using h
      subst hx
      have hne : (0 : Nat) ≠ me := by omega
      cases this <;>
        simp [Entity.Control, ProjectileObject.Control, FireballObject.Control,
          Control.objectsLoop, hne, Entity.HitByProjectile]
  have of_append : ∀ (t t' : Scene) (l : List Entity), t.AvatarFirst a →
      t'.objects = t.objects ++ l → t'.AvatarFirst a := by
    intro t t' l h h'
    obtain ⟨o, ho, ha⟩ := h
    exact ⟨o, by rw [h']; exact zero_append _ _ _ ho, ha⟩
  have explode : ∀ (t t' : Scene) (p : vec2) (time tl : ℝ), t.Explode p time tl = .ok t' →
      ∃ x, t'.objects = t.objects ++ [x] := by
    intro t t' p time tl h
    simp only [Explode, bind_eq_ok, pure, Except.pure] at h
    obtain ⟨_, _, _, _, _, _, h⟩ := h
    cases h
    exact ⟨_, rfl⟩
  have explodeIf : ∀ (t t' : Scene) (o : Entity) (time tl : ℝ),
      t.ExplodeIfEnemy o time tl = .ok t' → ∃ l, t'.objects = t.objects ++ l := by
    intro t t' o time tl h
    unfold ExplodeIfEnemy at h
    split at h
    · obtain ⟨x, hx⟩ := explode _ _ _ _ _ h
      exact ⟨[x], hx⟩
    · cases h
      exact ⟨[], by simp⟩
  have erase : ∀ (t t' : Scene) (i : Nat), t.AvatarFirst a → 1 ≤ i → t.eraseAt i = .ok t' →
      t'.AvatarFirst a := by
    intro t t' i h hi he
    obtain ⟨o, ho, ha⟩ := h
    obtain ⟨_, _, _, _, rfl⟩ := eraseAt_eq_ok.mp he
    exact ⟨o, zero_eraseIdx _ _ _ hi ho, ha⟩
  have moveControl : ∀ (keys : Char → Bool) (time tl : ℝ) (i : Nat) (t t' : Scene),
      t.AvatarFirst a → t.MoveControl keys time tl i = .ok t' → t'.AvatarFirst a := by
    intro keys time tl i t t' h hm
    obtain ⟨o, ho, ha⟩ := h
    simp only [MoveControl, bind_eq_ok, pure, Except.pure] at hm
    obtain ⟨e, he, e1, hm1, e2, he2, hm⟩ := hm
    cases hm
    have he2' : e2 = e1 := by
      have := vecGet_set_self (b := e1) he
      rw [this] at he2
      cases he2
      rfl
    subst he2'
    cases i with
    | zero =>
      rw [vecGet_eq_ok, ho] at he
      cases he
      simp only [Entity.Move] at hm1
      cases hm1
      refine ⟨o.Move keys time tl, ?_, by rw [move_addr]; exact ha⟩
      simp only [Entity.Control]
      cases hobj : t.objects with
      | nil => rw [hobj] at ho; simp at ho
      | cons x rest => simp
    | succ i =>
      refine ⟨o, ?_, ha⟩
      refine zero_set _ _ _ _ (by omega) ?_
      exact control_zero _ _ _ _ _ (by omega) (zero_set _ _ _ _ (by omega) ho)
  have removeDeleted : ∀ (time tl : ℝ) (i : Nat) (t t' : Scene),
      t.AvatarFirst a → t.RemoveDeleted time tl i = .ok t' → t'.AvatarFirst a := by
    intro time tl i t t' h hr
    obtain ⟨o, ho, ha⟩ := h
    simp only [RemoveDeleted, bind_eq_ok, pure, Except.pure] at hr
    obtain ⟨e, he, hr⟩ := hr
    cases i with
    | zero =>
      rw [vecGet_eq_ok, ho] at he
      cases he
      simp only [Entity.ShouldBeDeleted, Bool.false_eq_true, if_false] at hr
      cases hr
      refine ⟨o, ?_, ha⟩
      cases hobj : t.objects with
      | nil => rw [hobj] at ho; simp at ho
      | cons x rest => simp
    | succ i =>
      have hset : ({ t with objects := t.objects.set (i + 1) e.ShouldBeDeleted.2 } :
          Scene).AvatarFirst a := ⟨o, zero_set _ _ _ _ (by omega) ho, ha⟩
      split at hr
      · simp only [bind_eq_ok] at hr
        obtain ⟨_, _, s1, h1, h2⟩ := hr
        obtain ⟨l, hl⟩ := explodeIf _ _ _ _ _ h1
        exact erase _ _ _ (of_append _ _ _ hset hl) (by omega) h2
      · cases hr
        exact hset
  have removeExploded : ∀ (tl : ℝ) (i : Nat) (t t' : Scene),
      t.AvatarFirst a → t.RemoveExploded tl i = .ok t' → t'.AvatarFirst a := by
    intro tl i t t' h hr
    simp only [RemoveExploded, bind_eq_ok] at hr
    obtain ⟨e, he, hr⟩ := hr
    split at hr
    · rename_i hdone
      cases i with
      | zero =>
        obtain ⟨o, ho, _⟩ := h
        rw [vecGet_eq_ok, ho] at he
        cases he
        simp [Entity.DoneExploding] at hdone
      | succ i => exact erase _ _ _ h (by omega) hr
    · cases hr
      exact h
  have moveObjects : ∀ (keys : Char → Bool) (time tl : ℝ) (fuel i : Nat) (t t' : Scene),
      t.AvatarFirst a → MoveObjects keys time tl fuel i t = .ok t' → t'.AvatarFirst a := by
    intro keys time tl fuel
    induction fuel with
    | zero =>
      intro i t t' h hm
      simp only [MoveObjects] at hm
      split at hm
      · cases hm
      · cases hm; exact h
    | succ fuel ih =>
      intro i t t' h hm
      simp only [MoveObjects] at hm
      split at hm
      · simp only [bind_eq_ok, MoveBody] at hm
        obtain ⟨t1, ⟨t2, h2, t3, h3, h4⟩, h5⟩ := hm
        exact ih _ _ _ (removeExploded _ _ _ _ (removeDeleted _ _ _ _ _
          (moveControl _ _ _ _ _ _ h h2) h3) h4) h5
      · cases hm; exact h
  have moveCell : ∀ (keys : Char → Bool) (time tl : ℝ) (i j : Nat) (t t' : Scene),
      t.AvatarFirst a → t.MoveCell keys time tl i j = .ok t' → t'.AvatarFirst a := by
    intro keys time tl i j t t' h hm
    simp only [MoveCell, bind_eq_ok, pure, Except.pure] at hm
    obtain ⟨row, _, c, _, c1, _, hm⟩ := hm
    have h1 : ∀ g, ({ t with asteroid_objects := g } : Scene).AvatarFirst a := fun _ => h
    split at hm
    · simp only [bind_eq_ok] at hm
      obtain ⟨s2, h2, row2, _, er, _, h3⟩ := hm
      cases h3
      obtain ⟨l, hl⟩ := explodeIf _ _ _ _ _ h2
      exact of_append _ _ _ (h1 _) hl
    · cases hm; exact h1 _
  have moveRow : ∀ (keys : Char → Bool) (time tl : ℝ) (i fuel j : Nat) (t t' : Scene),
      t.AvatarFirst a → MoveRow keys time tl i fuel j t = .ok t' → t'.AvatarFirst a := by
    intro keys time tl i fuel
    induction fuel with
    | zero =>
      intro j t t' h hm
      simp only [MoveRow] at hm
      split at hm
      · cases hm
      · cases hm; exact h
    | succ fuel ih =>
      intro j t t' h hm
      simp only [MoveRow] at hm
      split at hm
      · simp only [bind_eq_ok] at hm
        obtain ⟨t1, h1, h2⟩ := hm
        exact ih _ _ _ (moveCell _ _ _ _ _ _ _ h h1) h2
      · cases hm; exact h
  have moveGrid : ∀ (keys : Char → Bool) (time tl : ℝ) (fuel i : Nat) (t t' : Scene),
      t.AvatarFirst a → MoveGrid keys time tl fuel i t = .ok t' → t'.AvatarFirst a := by
    intro keys time tl fuel
    induction fuel with
    | zero =>
      intro i t t' h hm
      simp only [MoveGrid] at hm
      split at hm
      · cases hm
      · cases hm; exact h
    | succ fuel ih =>
      intro i t t' h hm
      simp only [MoveGrid] at hm
      split at hm
      · simp only [bind_eq_ok] at hm
        obtain ⟨t1, h1, h2⟩ := hm
        exact ih _ _ _ (moveRow _ _ _ _ _ _ _ _ h h1) h2
      · cases hm; exact h
  have removeLoop : ∀ (fuel i : Nat) (t t' : Scene), t.AvatarFirst a →
      removeBlackHoleLoop fuel i t = .ok t' → t'.AvatarFirst a := by
    intro fuel
    induction fuel with
    | zero =>
      intro i t t' h hm
      simp only [removeBlackHoleLoop] at hm
      split at hm
      · cases hm
      · cases hm; exact h
    | succ fuel ih =>
      intro i t t' h hm
      simp only [removeBlackHoleLoop] at hm
      split at hm
      · simp only [bind_eq_ok] at hm
        obtain ⟨t1, h1, h2⟩ := hm
        refine ih _ _ _ ?_ h2
        simp only [removeBlackHoleBody, bind_eq_ok, pure, Except.pure] at h1
        obtain ⟨e, he, h1⟩ := h1
        split at h1
        · rename_i hb
          simp only [bind_eq_ok] at h1
          obtain ⟨s2, h3, h4⟩ := h1
          cases h4
          cases i with
          | zero =>
            obtain ⟨o, ho, _⟩ := h
            rw [vecGet_eq_ok, ho] at he
            cases he
            simp [Entity.IsBlackHole] at hb
          | succ i =>
            have h5 : s2.AvatarFirst a := erase _ _ _ h (by omega) h3
            exact h5
        · cases h1; exact h
      · cases hm; exact h
  cases hstep with
  | Move keys time tl hm =>
    simp only [Move, bind_eq_ok] at hm
    obtain ⟨s1, h1, h2⟩ := hm
    have h0' : ({ s with calls := [] } : Scene).AvatarFirst a := h0
    exact moveGrid _ _ _ _ _ _ _ (moveObjects _ _ _ _ _ _ _ h0' h1) h2
  | Explode p time tl hm =>
    obtain ⟨x, hx⟩ := explode _ _ _ _ _ hm
    exact of_append _ _ _ h0 hx
  | placeBlackHole hm =>
    simp only [placeBlackHole, bind_eq_ok, pure, Except.pure] at hm
    obtain ⟨_, _, _, _, _, _, hm⟩ := hm
    cases hm
    exact of_append _ _ _ h0 rfl
  | removeBlackHole hm => exact removeLoop _ _ _ _ h0 hm
  | shootProjectile t0 t hm =>
    unfold shootProjectile at hm
    split at hm
    · simp only [bind_eq_ok, pure, Except.pure] at hm
      obtain ⟨_, _, _, _, _, _, _, _, hm⟩ := hm
      cases hm
      exact of_append _ _ _ h0 rfl
    · cases hm; exact h0
  | shootFireball x y hm =>
    simp only [shootFireball, bind_eq_ok, pure, Except.pure] at hm
    obtain ⟨_, _, _, _, _, _, _, _, hm⟩ := hm
    cases hm
    exact of_append _ _ _ h0 rfl

end Scene

/-- C27: when index 0 of `objects` holds the avatar, it still holds that
avatar (the object of the same address, as its `Move` has left it) after any
run of `Scene::Move` passes, `Explode`, `placeBlackHole`, `removeBlackHole`,
`shootProjectile` and `shootFireball` that stays within the defined behaviour:
`ShouldBeDeleted`, `DoneExploding` and `IsBlackHole` are false of an avatar, so
no erase is made at index 0, an erase at a higher index leaves index 0 as it
is, and everything else appends. -/
theorem avatar_stays_at_index_zero (s s' : Scene) (a : AvatarObject)
    (h0 : s.objects[0]? = some (Entity.Avatar a))
    (hrun : Relation.ReflTransGen Scene.Step s s') :
    (∃ a' : AvatarObject, s'.objects[0]? = some (Entity.Avatar a') ∧ a'.addr = a.addr) ∧
    (∀ o : AvatarObject, (Entity.Avatar o).ShouldBeDeleted.1 = false ∧
      (∀ t : ℝ, (Entity.Avatar o).DoneExploding t = false) ∧
      (Entity.Avatar o).IsBlackHole = false) := by
  refine ⟨?_, fun _ => ⟨rfl, fun _ => rfl, rfl⟩⟩
  induction hrun with
  | refl => exact ⟨a, h0, rfl⟩
  | tail _ hstep ih => exact Scene.Step_avatarFirst a.addr _ _ ih hstep

/-- C27 at the pass over `Scene.spentProjectile`, which erases the projectile
at index 1. -/
theorem avatar_stays_at_index_zero_witness :
    Scene.spentProjectile.objects[0]? =
      some (Entity.Avatar (AvatarObject.new theAvatarBase 0)) ∧
    ∃ s', Scene.spentProjectile.Move noKeys (1 / 60) 2 = .ok s' ∧
      Relation.ReflTransGen Scene.Step Scene.spentProjectile s' ∧
      s'.objects = [theAvatarMoved, fireballAt 5 ⟨0, -0.65⟩ ⟨0, -0.65⟩ ⟨0, 1⟩ 60 false] ∧
      ∃ a' : AvatarObject, s'.objects[0]? = some (Entity.Avatar a') ∧
        a'.addr = (AvatarObject.new theAvatarBase 0).addr :=
  ⟨rfl, _, Scene.spentProjectile_Move,
    Relation.ReflTransGen.single (Scene.Step.Move noKeys (1 / 60) 2 Scene.spentProjectile_Move),
    rfl,
    (avatar_stays_at_index_zero Scene.spentProjectile _ (AvatarObject.new theAvatarBase 0) rfl
      (Relation.ReflTransGen.single
        (Scene.Step.Move noKeys (1 / 60) 2 Scene.spentProjectile_Move))).1⟩

/-! ## The egg (C28) -/

/-- C28: a second `EnemyMovingEggObject::Move` with the same elapsed time, and
any `dt`, leaves the egg as the first call left it, position and orientation
included.  In the second call both components of `direction`, the new
position minus the current one, are 0, and so is its length;
`norm_direction.x` is `0 / 0`, which is neither below nor above 0 (in the
source the quotient is a NaN, for which both comparisons are false as well),
so neither branch assigns `orientation`, and `position` is set to the point
it already holds. -/
theorem Egg_Move_idempotent (o : EnemyMovingEggObject) (dt1 dt2 tl : ℝ) :
    Real.cos (2 * (tl / 2)) * Real.cos (tl / 2) - (o.Move dt1 tl).position.x = 0 ∧
    Real.cos (2 * (tl / 2)) * Real.sin (tl / 2) - (o.Move dt1 tl).position.y = 0 ∧
    ¬ (0 : ℝ) / vec2.length ⟨0, 0⟩ < 0 ∧ ¬ (0 : ℝ) / vec2.length ⟨0, 0⟩ > 0 ∧
    (o.Move dt1 tl).Move dt2 tl = o.Move dt1 tl ∧
    ((o.Move dt1 tl).Move dt2 tl).position = (o.Move dt1 tl).position ∧
    ((o.Move dt1 tl).Move dt2 tl).orientation = (o.Move dt1 tl).orientation := by
  have hx : Real.cos (2 * (tl / 2)) * Real.cos (tl / 2) - (o.Move dt1 tl).position.x = 0 :=
    sub_self _
  have hy : Real.cos (2 * (tl / 2)) * Real.sin (tl / 2) - (o.Move dt1 tl).position.y = 0 :=
    sub_self _
  have hsecond : (o.Move dt1 tl).Move dt2 tl = o.Move dt1 tl := by
    have e : (o.Move dt1 tl).Move dt2 tl =
        { (o.Move dt1 tl) with
          orientation :=
            if (Real.cos (2 * (tl / 2)) * Real.cos (tl / 2) - (o.Move dt1 tl).position.x) /
                vec2.length ⟨Real.cos (2 * (tl / 2)) * Real.cos (tl / 2) -
                  (o.Move dt1 tl).position.x,
                  Real.cos (2 * (tl / 2)) * Real.sin (tl / 2) -
                  (o.Move dt1 tl).position.y⟩ < 0 then
              180 + Real.arccos
                ((Real.cos (2 * (tl / 2)) * Real.sin (tl / 2) - (o.Move dt1 tl).position.y) /
                  vec2.length ⟨Real.cos (2 * (tl / 2)) * Real.cos (tl / 2) -
                    (o.Move dt1 tl).position.x,
                    Real.cos (2 * (tl / 2)) * Real.sin (tl / 2) -
                    (o.Move dt1 tl).position.y⟩) * (180 / Real.pi)
            else if (Real.cos (2 * (tl / 2)) * Real.cos (tl / 2) -
                (o.Move dt1 tl).position.x) /
                vec2.length ⟨Real.cos (2 * (tl / 2)) * Real.cos (tl / 2) -
                  (o.Move dt1 tl).position.x,
                  Real.cos (2 * (tl / 2)) * Real.sin (tl / 2) -
                  (o.Move dt1 tl).position.y⟩ > 0 then
              180 - Real.arccos
                ((Real.cos (2 * (tl / 2)) * Real.sin (tl / 2) - (o.Move dt1 tl).position.y) /
                  vec2.length ⟨Real.cos (2 * (tl / 2)) * Real.cos (tl / 2) -
                    (o.Move dt1 tl).position.x,
                    Real.cos (2 * (tl / 2)) * Real.sin (tl / 2) -
                    (o.Move dt1 tl).position.y⟩) * (180 / Real.pi)
            else (o.Move dt1 tl).orientation,
          position := ⟨Real.cos (2 * (tl / 2)) * Real.cos (tl / 2),
            Real.cos (2 * (tl / 2)) * Real.sin (tl / 2)⟩ } := rfl
    rw [e, hx, hy]
    simp only [zero_div, lt_irrefl, gt_iff_lt, if_false]
    rfl
  refine ⟨hx, hy, ?_, ?_, hsecond, by rw [hsecond], by rw [hsecond]⟩
  · rw [zero_div]; exact lt_irrefl 0
  · rw [zero_div]; exact lt_irrefl 0

end Galaxy
